import Mathlib

/-!
ISAAC consensus core of sebak: the ballot checker pipeline.

A shallow embedding of `lib/node/runner/checker.go` (and of the collaborators
it drives) as explicit state passing, followed by the block records of
`lib/block.go` and the legacy checks of `lib/node_runner_checker.go`.  The
node runner, the ISAAC state, the transaction pool and the storage are
fields of one `World` value; a check function takes the checker and the world
and returns both together with the Go `error` (`none` is `nil`).  Calls into collaborators whose effect is not
visible in the checker (state-manager requests, sync, broadcast, batch life
cycle) are appended to `World.events` in call order.

Collaborators whose code is outside `checker.go` are either fields of `Env`
(arbitrary deterministic functions of the values the Go call receives) or
small definitions written from the design document; the latter say so in
their doc comment.
-/

namespace Sebak

/-! ## Data model -/

/-- Vote of a ballot (`voting.Hole`). -/
inductive Hole where
  | NOTYET
  | YES
  | NO
  | EXP
  deriving DecidableEq, Repr

/-- Phase of a ballot (`ballot.State`). -/
inductive BallotState where
  | INIT
  | SIGN
  | ACCEPT
  | ALLCONFIRM
  deriving DecidableEq, Repr

/-- Go `error` values that the checker produces or passes on. -/
inductive Err where
  /-- The stop sentinel `CheckerStopCloseConsensus` with its message. -/
  | StopCloseConsensus (message : String)
  /-- The stop sentinel `common.CheckerErrorStop` of a sub-pipeline. -/
  | CheckerErrorStop (message : String)
  /-- An ordinary error made by `errors.New`. -/
  | New (message : String)
  | BallotAlreadyVoted
  | BallotAlreadyFinished
  | BallotFromUnknownValidator
  | InvalidOperation
  | NotCommittable
  | TransactionNotFound
  /-- The legacy error `sebakerror.ErrorBlockAlreadyExists`. -/
  | ErrorBlockAlreadyExists
  /-- The legacy error `sebakerror.ErrorNewButKnownMessage`. -/
  | ErrorNewButKnownMessage
  /-- The legacy error `sebakerror.ErrorBallotHasInvalidState`. -/
  | ErrorBallotHasInvalidState
  /-- Use of the nil batch left behind by an `OpenBatch` whose error was dropped. -/
  | NilBatch
  /-- Any other error of a collaborator (storage, network, validation). -/
  | Other (code : String)
  deriving DecidableEq, Repr

/-- Whether an error is the pipeline stop sentinel `CheckerStopCloseConsensus`. -/
def Err.isStop : Err → Bool
  | .StopCloseConsensus _ => true
  | _ => false

/-- Modelled from the spec: the declaration of `voting.Basis` is not in the
sources; the design document gives it as the tuple `(height, round, block-hash)`. -/
structure Basis where
  Height : Nat
  Round : Nat
  BlockHash : String
  deriving DecidableEq, Repr

/-- Modelled from the spec: `Basis.Index` is not in the sources;
`Index := height || round || block-hash` serves as map key. -/
def Basis.Index (b : Basis) : String :=
  toString b.Height ++ toString b.Round ++ b.BlockHash

/-- The fields of a transaction the checker reads: `GetHash()` and `B.Source`. -/
structure Transaction where
  Hash : String
  Source : String
  deriving DecidableEq, Repr

/-- The fields of the operation body `operation.CollectTxFee` the checker reads. -/
structure CollectTxFee where
  Target : String
  Amount : Nat
  deriving DecidableEq, Repr

/-- The fields of the operation body `operation.Inflation` the checker reads. -/
structure Inflation where
  Target : String
  InitialBalance : Nat
  Ratio : String
  Amount : Nat
  deriving DecidableEq, Repr

/-- An operation body of a proposer transaction. -/
inductive OperationBody where
  | CollectTxFee (opb : CollectTxFee)
  | Inflation (opb : Inflation)
  | Other
  deriving DecidableEq, Repr

/-- Modelled from the spec: the proposer transaction of a ballot is not in
the sources; it is the synthetic transaction with the ordered operations the
proposer included (collect-tx-fee, inflation). -/
structure ProposerTransaction where
  Operations : List OperationBody
  deriving DecidableEq, Repr

/-- The fields of a ballot the checker reads: `H.Hash`, `Source()`,
`Proposer()`, `VotingBasis()`, `State()`, `Vote()`,
`B.Proposed.Transactions` and `ProposerTransaction()`. -/
structure Ballot where
  Hash : String
  Source : String
  Proposer : String
  VotingBasis : Basis
  State : BallotState
  Vote : Hole
  Transactions : List String
  ProposerTransaction : ProposerTransaction := { Operations := [] }
  deriving DecidableEq, Repr

/-- Block record (`lib/block.go`). -/
structure Block where
  Hash : String
  PreviousHash : String
  Height : Nat
  Confirmed : String
  Transactions : List String
  Proposer : String
  deriving DecidableEq, Repr

/-- Modelled from the spec: the transaction record in history
(`BlockTransactionHistory`) is not in the sources; it is identified by the
hash of the transaction and keeps its source and the raw message. -/
structure BlockTransactionHistory where
  Hash : String
  Source : String
  Message : List Nat
  deriving DecidableEq, Repr

/-- A value kept in the key-value store. -/
inductive Record where
  | block (b : Block)
  | tx (t : Transaction)
  | str (s : String)
  | history (h : BlockTransactionHistory)
  deriving DecidableEq, Repr

/-- The persistent key-value store.  A batch is a private copy of the store
that replaces it on `Commit` and is dropped on `Discard`. -/
abbrev Storage := List (String × Record)

/-- Read the record under a key. -/
def Storage.Get (st : Storage) (key : String) : Option Record :=
  st.lookup key

/-- Write a record under a key, replacing what was there. -/
def Storage.Set (st : Storage) (key : String) (v : Record) : Storage :=
  (key, v) :: st.filter (fun e => e.1 != key)

/-- Key of a block record (`GetBlockKey` of `lib/block.go`). -/
def GetBlockKey (hash : String) : String :=
  "b-hash-" ++ hash

/-- Modelled from the spec: the key of a transaction in the persistent pool,
`txpool-<hash>`; the function that builds it is not in the sources. -/
def GetTransactionPoolKey (hash : String) : String :=
  "txpool-" ++ hash

/-- Block lookup by hash (`GetBlock` of `lib/block.go`). -/
def GetBlock (st : Storage) (hash : String) : Option Record :=
  st.Get (GetBlockKey hash)

/-- Modelled from the spec: the transaction pool type (`transaction.Pool`) is not in the
sources.
A mapping hash→transaction, an index source→hash and the FIFO `Pending` list
of hashes. -/
structure TransactionPool where
  Pool : List (String × Transaction)
  Sources : List (String × String)
  Pending : List String
  deriving DecidableEq, Repr

/-- Modelled from the spec: `Has(hash)` of the transaction pool. -/
def TransactionPool.Has (p : TransactionPool) (hash : String) : Bool :=
  (p.Pool.lookup hash).isSome

/-- Modelled from the spec: `GetFromSource(source)` of the transaction pool,
through the source→hash index. -/
def TransactionPool.GetFromSource (p : TransactionPool) (source : String) : Option Transaction :=
  match p.Sources.lookup source with
  | none => none
  | some h => p.Pool.lookup h

/-- Modelled from the spec: `Remove(hashes...)` of the transaction pool drops
the hashes from the mapping, the source index and the pending list. -/
def TransactionPool.Remove (p : TransactionPool) (hashes : List String) : TransactionPool :=
  { Pool := p.Pool.filter (fun e => !hashes.contains e.1)
    Sources := p.Sources.filter (fun e => !hashes.contains e.2)
    Pending := p.Pending.filter (fun h => !hashes.contains h) }

/-- Modelled from the spec: a Round Vote, two maps `SIGN : source→vote` and
`ACCEPT : source→vote`. -/
structure RoundVote where
  SIGN : List (String × Hole)
  ACCEPT : List (String × Hole)
  deriving DecidableEq, Repr

/-- Modelled from the spec: a Running Round for one basis, the proposer
elected by the core, `proposer→transaction-hash-list` and `proposer→Round Vote`. -/
structure RunningRound where
  VotingBasis : Basis
  Proposer : String
  Transactions : List (String × List String)
  Voted : List (String × RoundVote)
  deriving DecidableEq, Repr

/-- Modelled from the spec: the ISAAC state (`consensus.ISAAC`), whose
declaration is not in the sources: latest committed block, running rounds by
basis index, finished rounds, latest voting basis, latest ballot seen and the
per-source highest-height map. -/
structure ISAAC where
  LatestBlock : Block
  RunningRounds : List (String × RunningRound)
  LatestRounds : List String
  LatestVotingBasis : Basis
  LatestBallot : Ballot
  nodesHeight : List (String × Nat)
  deriving DecidableEq, Repr

/-- Modelled from the spec: the state manager holds the current
`(height, round, state)`. -/
structure ISAACStateManager where
  Height : Nat
  Round : Nat
  State : BallotState
  deriving DecidableEq, Repr

/-- Calls into collaborators, in call order. -/
inductive Event where
  | TransitISAACState (basis : Basis) (state : BallotState)
  | StartSync (height : Nat) (nodeAddrs : List String)
  | finishBallot (b : Ballot)
  | SetConsensus
  | Broadcast (b : Ballot)
  | SavingBlockOperationsSave (blk : Block)
  | GetTransactions (proposer : String) (hashes : List String)
  /-- A batch was obtained from `OpenBatch`. -/
  | OpenBatch
  /-- The call `Commit` on the open batch, which returned `err`. -/
  | Commit (err : Option Err)
  /-- The call `Discard` on the open batch. -/
  | Discard
  deriving DecidableEq, Repr

/-- The node runner as the checker sees it. -/
structure World where
  /-- Go `NodeRunner.Node().Address()`. -/
  NodeAddress : String
  /-- Go `NodeRunner.Storage()`. -/
  storage : Storage
  /-- Go `NodeRunner.TransactionPool`. -/
  TransactionPool : TransactionPool
  /-- Go `NodeRunner.Consensus()`. -/
  isaac : ISAAC
  /-- Go `NodeRunner.isaacStateManager`. -/
  isaacStateManager : ISAACStateManager
  /-- Calls into collaborators so far, oldest first. -/
  events : List Event
  deriving DecidableEq, Repr

/-- The checker record `BallotChecker`. -/
structure BallotChecker where
  /-- Go `LocalNode.Address()`. -/
  LocalNode : String
  IsNew : Bool
  Ballot : Ballot
  VotingHole : Hole
  VotingFinished : Bool
  FinishedVotingHole : Hole
  LatestUpdatedSources : List String
  deriving DecidableEq, Repr

/-- What a check function leaves behind: the checker, the world and the
returned `error`. -/
structure Out where
  checker : BallotChecker
  world : World
  err : Option Err

/-- What one line of a `GetTransactions` response unmarshals to
(`UnmarshalNodeItemResponse`): an error record, a transaction, or an item
of another type. -/
inductive NodeItem where
  | NodeItemError (e : Err)
  | NodeItemTransaction (tx : Transaction)
  | NodeItemOther
  deriving DecidableEq, Repr

/-- The fields of the sub-checker `BallotTransactionChecker` that
`INITBallotValidateTransactions` fills in (the node runner is the `World`). -/
structure BallotTransactionChecker where
  LocalNode : String
  Ballot : Ballot
  Transactions : List String
  VotingHole : Hole
  deriving DecidableEq, Repr

/-- A check function of the transaction sub-pipeline (`common.CheckerFunc` on
a `BallotTransactionChecker`): it may change the sub-checker and the node
runner, and returns an `error`. -/
abbrev TransactionCheckerFunc :=
  BallotTransactionChecker → World → BallotTransactionChecker × World × Option Err

/-- Collaborators of the checker whose code is outside `checker.go`.  Each is
an arbitrary function of the values the Go call receives. -/
structure Env where
  /-- Go `ISAAC.SelectProposer(height, round)`. -/
  SelectProposer : Nat → Nat → String
  /-- Go `ISAAC.GetSyncInfo()`: sync height and the node addresses to sync from. -/
  GetSyncInfo : ISAAC → Except Err (Nat × List String)
  /-- Go `finishBallot(storage, ballot, pool, ...)`: the storage it leaves and its error. -/
  finishBallot : Storage → Ballot → TransactionPool → Storage × Option Err
  /-- Go `block.ExistsTransactionPool(storage, hash)`. -/
  ExistsTransactionPool : Storage → String → Except Err Bool
  /-- Go `ConnectionManager().GetConnection(proposer) != nil`. -/
  GetConnection : String → Bool
  /-- Go `client.GetTransactions(hashes)` on the connection to the proposer. -/
  GetTransactions : String → List String → Except Err (List Nat)
  /-- Go `UnmarshalNodeItemResponse(line)`. -/
  UnmarshalNodeItemResponse : List Nat → Except Err NodeItem
  /-- Go `tx.IsWellFormed(networkID, conf)`. -/
  TransactionIsWellFormed : Transaction → Option Err
  /-- Go `ValidateTx(storage, tx)`. -/
  ValidateTx : Storage → Transaction → Option Err
  /-- Error of `Storage().OpenBatch()`, if any. -/
  OpenBatchErr : Storage → Option Err
  /-- Error of `batch.Commit()`, if any. -/
  CommitErr : Storage → Option Err
  /-- Error of `block.SaveTransactionPool(batch, tx)`, if any. -/
  SaveTransactionPoolErr : Storage → Transaction → Option Err
  /-- Go `getProposedTransactions(batch, hashes, pool)`. -/
  getProposedTransactions :
    Storage → List String → TransactionPool → Except Err (List Transaction)
  /-- Go `finishBallotWithProposedTxs(batch, ballot, pending, txs, ...)`: the batch
  it leaves and the block or the error. -/
  finishBallotWithProposedTxs :
    Storage → Ballot → List String → List Transaction → Storage × Except Err Block
  /-- Go `ISAAC.IsVotedByNode(ballot, address)`. -/
  IsVotedByNode : ISAAC → Ballot → String → Bool × Option Err
  /-- The list `INITBallotTransactionCheckerFuncs` (`IsNew`,
  `CheckMissingTransaction`, `BallotTransactionsSameSource`,
  `BallotTransactionsOperationBodyCollectTxFee`, `BallotTransactionsAllValid`). -/
  INITBallotTransactionCheckerFuncs : List TransactionCheckerFunc
  /-- Go `NodeRunner.CommonAccountAddress` (configuration). -/
  CommonAccountAddress : String
  /-- Go `NodeRunner.InitialBalance` (configuration). -/
  InitialBalance : Nat
  /-- The constant `common.InflationRatioString`. -/
  InflationRatioString : String
  /-- The constant `common.BlockHeightEndOfInflation`. -/
  BlockHeightEndOfInflation : Nat
  /-- Go `common.CalculateInflation(initialBalance)`. -/
  CalculateInflation : Nat → Except Err Nat
  /-- Go `ProposerTransaction().CollectTxFee()`. -/
  CollectTxFee : ProposerTransaction → Except Err CollectTxFee
  /-- Go `ProposerTransaction().Inflation()`. -/
  Inflation : ProposerTransaction → Except Err Inflation
  /-- The hash `H.Hash` that `Sign(keypair, networkID)` gives the ballot when
  the node at the address signs it. -/
  SignedHash : Ballot → String → String

/-! ## ISAAC state and state manager operations -/

/-- Modelled from the spec: `ISAAC.SetLatestVotingBasis` is not in the
sources; it records the basis as the latest one and marks its index in
`LatestRounds`. -/
def ISAAC.SetLatestVotingBasis (is : ISAAC) (basis : Basis) : ISAAC :=
  { is with
    LatestVotingBasis := basis
    LatestRounds :=
      if is.LatestRounds.contains basis.Index then is.LatestRounds
      else basis.Index :: is.LatestRounds }

/-- Modelled from the spec: `ISAAC.RemoveRunningRoundsWithSameHeight(h)` is
not in the sources; it drops the running rounds at height `h`. -/
def ISAAC.RemoveRunningRoundsWithSameHeight (is : ISAAC) (height : Nat) : ISAAC :=
  { is with RunningRounds := is.RunningRounds.filter (fun e => e.2.VotingBasis.Height != height) }

/-- Modelled from the spec: `ISAAC.HasRunningRound(index)` is not in the sources. -/
def ISAAC.HasRunningRound (is : ISAAC) (index : String) : Bool :=
  (is.RunningRounds.lookup index).isSome

/-- Modelled from the spec: `ISAAC.HasSameProposer(ballot)` is not in the
sources; the running round of the basis of the ballot exists and its
elected proposer is the proposer of the ballot. -/
def ISAAC.HasSameProposer (is : ISAAC) (b : Ballot) : Bool :=
  match is.RunningRounds.lookup b.VotingBasis.Index with
  | none => false
  | some rr => rr.Proposer == b.Proposer

/-- Modelled from the spec: `ISAAC.SaveNodeHeight(source, height)` is not in
the sources; the map keeps, per source, the highest reported height. -/
def ISAAC.SaveNodeHeight (is : ISAAC) (source : String) (height : Nat) : ISAAC :=
  match is.nodesHeight.lookup source with
  | none => { is with nodesHeight := (source, height) :: is.nodesHeight }
  | some h =>
    { is with
      nodesHeight := (source, max h height) :: is.nodesHeight.filter (fun e => e.1 != source) }

/-- Modelled from the spec: `ISAACStateManager.IncreaseRound()` is not in the
sources; it increments the round, keeps the height and re-enters INIT. -/
def ISAACStateManager.IncreaseRound (sm : ISAACStateManager) : ISAACStateManager :=
  { sm with Round := sm.Round + 1, State := BallotState.INIT }

/-- Modelled from the spec: `Ballot.IsFromProposer()` is not in the sources;
the ballot is signed by its own proposer. -/
def Ballot.IsFromProposer (b : Ballot) : Bool :=
  b.Source == b.Proposer

/-- Append a collaborator call to the world. -/
def World.emit (w : World) (e : Event) : World :=
  { w with events := w.events ++ [e] }

/-! ## Fetching missing transactions and saving the block -/

/-- First loop of `insertMissingTransaction`: the proposed hashes that are in
neither the transaction pool nor the persistent pool, in ballot order. -/
def collectUnknown (env : Env) (pool : TransactionPool) (st : Storage) :
    List String → List String → Except Err (List String)
  | [], unknown => .ok unknown
  | hash :: rest, unknown =>
    if pool.Has hash then collectUnknown env pool st rest unknown
    else
      match env.ExistsTransactionPool st hash with
      | .error e => .error e
      | .ok true => collectUnknown env pool st rest unknown
      | .ok false => collectUnknown env pool st rest (unknown ++ [hash])

/-- The lines `bufio.Reader.ReadBytes(10)` returns before `io.EOF`: every
line ends with the newline byte; bytes after the last newline come with
`io.EOF` and are dropped by the loop. -/
def readLines : List Nat → List Nat → List (List Nat)
  | [], _ => []
  | c :: rest, cur =>
    if c = 10 then (cur ++ [c]) :: readLines rest []
    else readLines rest (cur ++ [c])

/-- Second loop of `insertMissingTransaction`: unmarshal, check and collect
the received transactions; the first failure ends the loop. -/
def receiveTransactions (env : Env) (st : Storage) :
    List (List Nat) → List Transaction → Except Err (List Transaction)
  | [], received => .ok received
  | l :: rest, received =>
    match env.UnmarshalNodeItemResponse l with
    | .error e => .error e
    | .ok (.NodeItemError e) => .error e
    | .ok .NodeItemOther => .error Err.TransactionNotFound
    | .ok (.NodeItemTransaction tx) =>
      match env.TransactionIsWellFormed tx with
      | some e => .error e
      | none =>
        match env.ValidateTx st tx with
        | some e => .error e
        | none => receiveTransactions env st rest (received ++ [tx])

/-- Modelled from the spec: `block.SaveTransactionPool(batch, tx)` is not in
the sources; it puts the transaction record under `txpool-<hash>` unless the
store reports an error. -/
def SaveTransactionPool (env : Env) (bs : Storage) (tx : Transaction) : Storage × Option Err :=
  match env.SaveTransactionPoolErr bs tx with
  | some e => (bs, some e)
  | none => (bs.Set (GetTransactionPoolKey tx.Hash) (Record.tx tx), none)

/-- Third loop of `insertMissingTransaction`: save the received transactions
into the batch; the first failure ends the loop. -/
def saveReceived (env : Env) : Storage → List Transaction → Storage × Option Err
  | bs, [] => (bs, none)
  | bs, tx :: rest =>
    match SaveTransactionPool env bs tx with
    | (bs1, some e) => (bs1, some e)
    | (bs1, none) => saveReceived env bs1 rest

/-- The function `insertMissingTransaction`.  The error of its `OpenBatch` is
overwritten unread, so a failed `OpenBatch` leaves a nil batch; the function
stops at the first use of that batch (`Err.NilBatch`). -/
def insertMissingTransaction (env : Env) (c : BallotChecker) (w : World) : World × Option Err :=
  match collectUnknown env w.TransactionPool w.storage c.Ballot.Transactions [] with
  | .error e => (w, some e)
  | .ok unknown =>
    if unknown.length < 1 then (w, none)
    else if !env.GetConnection c.Ballot.Proposer then (w, some Err.BallotFromUnknownValidator)
    else
      let w1 := w.emit (Event.GetTransactions c.Ballot.Proposer unknown)
      match env.GetTransactions c.Ballot.Proposer unknown with
      | .error e => (w1, some e)
      | .ok body =>
        match receiveTransactions env w1.storage (readLines body []) [] with
        | .error e => (w1, some e)
        | .ok receivedTransaction =>
          match env.OpenBatchErr w1.storage with
          | some _ => (w1, some Err.NilBatch)
          | none =>
            let w2 := w1.emit Event.OpenBatch
            match saveReceived env w2.storage receivedTransaction with
            | (_, some e) => (w2, some e)
            | (bs, none) =>
              match env.CommitErr bs with
              | some e => ((w2.emit (Event.Commit (some e))).emit Event.Discard, some e)
              | none => ({ (w2.emit (Event.Commit none)) with storage := bs }, none)

/-- Add the sources of the proposed transactions to the set
`LatestUpdatedSources` (a Go `map[string]struct{}`). -/
def addSources : List String → List Transaction → List String
  | sources, [] => sources
  | sources, tx :: rest =>
    if sources.contains tx.Source then addSources sources rest
    else addSources (sources ++ [tx.Source]) rest

/-- The function `saveBlock`. -/
def saveBlock (env : Env) (c : BallotChecker) (w : World) : Out :=
  match insertMissingTransaction env c w with
  | (w1, some e) => ⟨c, w1, some e⟩
  | (w1, none) =>
    match env.OpenBatchErr w1.storage with
    | some e => ⟨c, w1, some e⟩
    | none =>
      let w2 := w1.emit Event.OpenBatch
      match env.getProposedTransactions w2.storage c.Ballot.Transactions w2.TransactionPool with
      | .error e => ⟨c, w2, some e⟩
      | .ok proposedTransactions =>
        let c1 := { c with
          LatestUpdatedSources := addSources c.LatestUpdatedSources proposedTransactions }
        match env.finishBallotWithProposedTxs w2.storage c.Ballot w2.TransactionPool.Pending
            proposedTransactions with
        | (_, .error e) => ⟨c1, w2.emit Event.Discard, some e⟩
        | (bs, .ok theBlock) =>
          match env.CommitErr bs with
          | some e =>
            if e ≠ Err.NotCommittable then
              ⟨c1, (w2.emit (Event.Commit (some e))).emit Event.Discard, some e⟩
            else
              ⟨c1, (w2.emit (Event.Commit (some e))).emit
                (Event.SavingBlockOperationsSave theBlock), none⟩
          | none =>
            ⟨c1, ({ (w2.emit (Event.Commit none)) with storage := bs }).emit
              (Event.SavingBlockOperationsSave theBlock), none⟩

/-- The function `reorganizeTransactionPool` (it always returns nil). -/
def reorganizeTransactionPool (env : Env) (c : BallotChecker) (w : World) : World :=
  let basisIndex := c.Ballot.VotingBasis.Index
  let proposer := c.Ballot.Proposer
  let pool1 :=
    match w.isaac.RunningRounds.lookup basisIndex with
    | some rr => w.TransactionPool.Remove ((rr.Transactions.lookup proposer).getD [])
    | none => w.TransactionPool
  let invalids := c.LatestUpdatedSources.filterMap (fun source =>
    match pool1.GetFromSource source with
    | none => none
    | some tx => if (env.ValidateTx w.storage tx).isSome then some tx.Hash else none)
  { w with TransactionPool := pool1.Remove invalids }

/-- The check `FinishedBallotStore`. -/
def FinishedBallotStore (env : Env) (c : BallotChecker) (w : World) : Out :=
  if !c.VotingFinished then ⟨c, w, none⟩
  else
    let basis := c.Ballot.VotingBasis
    match c.FinishedVotingHole with
    | Hole.YES =>
      match saveBlock env c w with
      | ⟨c1, w1, some e⟩ => ⟨c1, w1, some e⟩
      | ⟨c1, w1, none⟩ =>
        let w2 := w1.emit (Event.TransitISAACState c1.Ballot.VotingBasis BallotState.ALLCONFIRM)
        let w3 := { w2 with isaac := w2.isaac.SetLatestVotingBasis basis }
        let w4 := reorganizeTransactionPool env c1 w3
        let w5 := { w4 with isaac := w4.isaac.RemoveRunningRoundsWithSameHeight basis.Height }
        ⟨c1, w5, some (Err.StopCloseConsensus "ballot got consensus and will be stored")⟩
    | Hole.NO | Hole.EXP =>
      let w1 := { w with isaacStateManager := w.isaacStateManager.IncreaseRound }
      let w2 := { w1 with isaac := w1.isaac.SetLatestVotingBasis basis }
      let w3 := { w2 with isaac := w2.isaac.RemoveRunningRoundsWithSameHeight basis.Height }
      ⟨c, w3, some (Err.StopCloseConsensus "ballot got consensus")⟩
    | Hole.NOTYET => ⟨c, w, some (Err.New "invalid voting.Hole, `NOTYET`")⟩

/-! ## SYNC check -/

/-- Subtraction of Go `uint64` values, which wraps around below zero. -/
def subUint64 (a b : Nat) : Nat :=
  (a + 2 ^ 64 - b % 2 ^ 64) % 2 ^ 64

/-- The function `isBallotAcceptYes`. -/
def isBallotAcceptYes (b : Ballot) : Bool :=
  b.State == BallotState.ACCEPT && b.Vote == Hole.YES

/-- The function `hasBallotValidProposer`. -/
def hasBallotValidProposer (env : Env) (b : Ballot) : Bool :=
  b.Proposer == env.SelectProposer b.VotingBasis.Height b.VotingBasis.Round

/-- The deferred function of `BallotCheckSYNC`: on every return after
`GetSyncInfo` succeeded, a ballot at the sync height becomes `LatestBallot`. -/
def deferLatestBallot (b : Ballot) (syncHeight : Nat) (w : World) : World :=
  if b.VotingBasis.Height = syncHeight then
    { w with isaac := { w.isaac with LatestBallot := b } }
  else w

/-- One call `finishBallot(Storage(), ballot, TransactionPool, ...)` from
`BallotCheckSYNC`: the call is recorded and the storage is what it leaves. -/
def callFinishBallot (env : Env) (b : Ballot) (w : World) : World × Option Err :=
  let r := env.finishBallot w.storage b w.TransactionPool
  ({ (w.emit (Event.finishBallot b)) with storage := r.1 }, r.2)

/-- The ISAAC state `BallotCheckSYNC` has built when it calls `GetSyncInfo`:
the ballot fills an empty `LatestBallot` slot (`H.Hash == ""`) and the
height of its source is saved. -/
def recordPeer (is : ISAAC) (b : Ballot) : ISAAC :=
  (if is.LatestBallot.Hash = "" then { is with LatestBallot := b } else is).SaveNodeHeight
    b.Source b.VotingBasis.Height

/-- The check `BallotCheckSYNC`. -/
def BallotCheckSYNC (env : Env) (c : BallotChecker) (w : World) : Out :=
  let b := c.Ballot
  let latestHeight := w.isaac.LatestBlock.Height
  if latestHeight ≥ b.VotingBasis.Height then ⟨c, w, none⟩
  else if !isBallotAcceptYes b then ⟨c, w, none⟩
  else if !hasBallotValidProposer env b then ⟨c, w, none⟩
  else
    let w1 := { w with isaac := recordPeer w.isaac b }
    match env.GetSyncInfo w1.isaac with
    | .error e => ⟨c, w1, some e⟩
    | .ok (syncHeight, nodeAddrs) =>
      if latestHeight < subUint64 syncHeight 1 then
        let w2 := w1.emit (Event.StartSync syncHeight nodeAddrs)
        ⟨c, deferLatestBallot b syncHeight w2,
          some (Err.StopCloseConsensus "ballot makes node in sync")⟩
      else
        let r1 : World × Option Err :=
          if latestHeight = subUint64 syncHeight 1 then
            callFinishBallot env w1.isaac.LatestBallot w1
          else (w1, none)
        match r1 with
        | (w2, some e) => ⟨c, deferLatestBallot b syncHeight w2, some e⟩
        | (w2, none) =>
          match callFinishBallot env c.Ballot w2 with
          | (w3, some e) => ⟨c, deferLatestBallot b syncHeight w3, some e⟩
          | (w3, none) =>
            let w4 := w3.emit Event.SetConsensus
            let w5 := w4.emit (Event.TransitISAACState b.VotingBasis BallotState.ALLCONFIRM)
            ⟨c, deferLatestBallot b syncHeight w5,
              some (Err.StopCloseConsensus "ballot got consensus")⟩

/-! ## Same proposer and INIT validation -/

/-- The check `BallotIsSameProposer`. -/
def BallotIsSameProposer (c : BallotChecker) (w : World) : Out :=
  if c.VotingHole ≠ Hole.NOTYET then ⟨c, w, none⟩
  else if c.Ballot.IsFromProposer && c.Ballot.Source == w.NodeAddress then ⟨c, w, none⟩
  else if !w.isaac.HasRunningRound c.Ballot.VotingBasis.Index then
    ⟨c, w, some (Err.New "`RunningRound` not found")⟩
  else if !w.isaac.HasSameProposer c.Ballot then ⟨{ c with VotingHole := Hole.NO }, w, none⟩
  else ⟨c, w, none⟩

/-- Modelled from the spec: `common.RunChecker` is not in the sources; the
check functions run in list order on the shared record and the first error
(a stop sentinel included) ends the run and is returned. -/
def RunChecker : List TransactionCheckerFunc → BallotTransactionChecker → World →
    BallotTransactionChecker × World × Option Err
  | [], tc, w => (tc, w, none)
  | f :: rest, tc, w =>
    match f tc w with
    | (tc1, w1, some e) => (tc1, w1, some e)
    | (tc1, w1, none) => RunChecker rest tc1 w1

/-- The type assertion `err.(common.CheckerErrorStop)`. -/
def Err.isCheckerErrorStop : Err → Bool
  | .CheckerErrorStop _ => true
  | _ => false

/-- The sub-pipeline run of `INITBallotValidateTransactions`: a fresh
`BallotTransactionChecker` for the ballot, with `VotingHole = NOTYET`, is run
through `INITBallotTransactionCheckerFuncs`. -/
def runTransactionsChecker (env : Env) (c : BallotChecker) (w : World) :
    BallotTransactionChecker × World × Option Err :=
  RunChecker env.INITBallotTransactionCheckerFuncs
    { LocalNode := c.LocalNode
      Ballot := c.Ballot
      Transactions := c.Ballot.Transactions
      VotingHole := Hole.NOTYET } w

/-- The check `INITBallotValidateTransactions`. -/
def INITBallotValidateTransactions (env : Env) (c : BallotChecker) (w : World) : Out :=
  if c.VotingFinished then ⟨c, w, none⟩
  else
    let r := env.IsVotedByNode w.isaac c.Ballot c.LocalNode
    if r.1 || r.2.isSome then ⟨c, w, some Err.BallotAlreadyVoted⟩
    else if c.VotingHole ≠ Hole.NOTYET then ⟨c, w, none⟩
    else
      match runTransactionsChecker env c w with
      | (transactionsChecker, w1, some e) =>
        if !e.isCheckerErrorStop then ⟨{ c with VotingHole := Hole.NO }, w1, none⟩
        else if transactionsChecker.VotingHole = Hole.NO then
          ⟨{ c with VotingHole := Hole.NO }, w1, none⟩
        else ⟨{ c with VotingHole := Hole.YES }, w1, none⟩
      | (transactionsChecker, w1, none) =>
        if transactionsChecker.VotingHole = Hole.NO then
          ⟨{ c with VotingHole := Hole.NO }, w1, none⟩
        else ⟨{ c with VotingHole := Hole.YES }, w1, none⟩

/-- The sub-checker that `INITBallotValidateTransactions` builds for the
ballot of the checker, before any transaction check ran. -/
def newTransactionsChecker (c : BallotChecker) : BallotTransactionChecker :=
  { LocalNode := c.LocalNode
    Ballot := c.Ballot
    Transactions := c.Ballot.Transactions
    VotingHole := Hole.NOTYET }

/-- Every transaction check of the list returns nil when the list is run in
order from the sub-checker `tc` and the node `w`, each check on what the
previous one left. -/
def allChecksReturnNil : List TransactionCheckerFunc → BallotTransactionChecker → World → Prop
  | [], _, _ => True
  | f :: rest, tc, w => (f tc w).2.2 = none ∧ allChecksReturnNil rest (f tc w).1 (f tc w).2.1

/-- The sub-checker and the node after every transaction check of the list
ran in order from `tc` and `w`, each check on what the previous one left. -/
def afterChecks : List TransactionCheckerFunc → BallotTransactionChecker → World →
    BallotTransactionChecker × World
  | [], tc, w => (tc, w)
  | f :: rest, tc, w => afterChecks rest (f tc w).1 (f tc w).2.1

/-- Calls made while fetching missing transactions or handling a batch. -/
def Event.isFetchOrBatch : Event → Bool
  | .GetTransactions _ _ => true
  | .OpenBatch => true
  | .Commit _ => true
  | .Discard => true
  | _ => false

/-! ## A four-validator test network -/

namespace Fixture

/-- The basis `(1, 0, genesis)`. -/
def basis : Basis := { Height := 1, Round := 0, BlockHash := "genesis" }

/-- A pooled transaction of account `A`. -/
def txA : Transaction := { Hash := "tx_a", Source := "A" }

/-- The latest block of the node, at height 1. -/
def genesis : Block :=
  { Hash := "genesis", PreviousHash := "", Height := 1, Confirmed := "t0",
    Transactions := [], Proposer := "P0" }

/-- An ACCEPT/YES ballot of validator P1 for the proposal of P0 at `basis`. -/
def ballot : Ballot :=
  { Hash := "b1", Source := "P1", Proposer := "P0", VotingBasis := basis,
    State := BallotState.ACCEPT, Vote := Hole.YES, Transactions := ["tx_a"] }

/-- An empty ballot slot (`H.Hash` is the empty string). -/
def noBallot : Ballot :=
  { Hash := "", Source := "", Proposer := "",
    VotingBasis := { Height := 0, Round := 0, BlockHash := "" },
    State := BallotState.INIT, Vote := Hole.NOTYET, Transactions := [] }

/-- The running round of `basis`, elected proposer P0, with the proposal of P0. -/
def runningRound : RunningRound :=
  { VotingBasis := basis, Proposer := "P0", Transactions := [("P0", ["tx_a"])],
    Voted := [("P0", { SIGN := [("P1", Hole.YES)], ACCEPT := [("P1", Hole.YES)] })] }

/-- Node P3 at height 1 with `txA` pooled and the running round of `basis`. -/
def world : World :=
  { NodeAddress := "P3"
    storage := []
    TransactionPool := { Pool := [("tx_a", txA)], Sources := [("A", "tx_a")], Pending := ["tx_a"] }
    isaac :=
      { LatestBlock := genesis
        RunningRounds := [(basis.Index, runningRound)]
        LatestRounds := []
        LatestVotingBasis := { Height := 0, Round := 0, BlockHash := "" }
        LatestBallot := noBallot
        nodesHeight := [] }
    isaacStateManager := { Height := 1, Round := 0, State := BallotState.ACCEPT }
    events := [] }

/-- The node `world` with `ballot` cached as `LatestBallot`. -/
def worldCached : World :=
  { world with isaac := { world.isaac with LatestBallot := ballot } }

/-- The checker of P3 after the ACCEPT tally of `ballot` finished with `hole`. -/
def checker (hole : Hole) : BallotChecker :=
  { LocalNode := "P3", IsNew := false, Ballot := ballot, VotingHole := Hole.YES,
    VotingFinished := true, FinishedVotingHole := hole, LatestUpdatedSources := [] }

/-- The block a finished ballot becomes in the test network. -/
def blockOf (b : Ballot) : Block :=
  { Hash := "blk-" ++ b.Hash, PreviousHash := b.VotingBasis.BlockHash,
    Height := b.VotingBasis.Height + 1, Confirmed := "t1",
    Transactions := b.Transactions, Proposer := b.Proposer }

/-- Resolve proposed hashes in the pool; a missing one is an error. -/
def resolve (pool : TransactionPool) : List String → Except Err (List Transaction)
  | [] => .ok []
  | h :: rest =>
    match pool.Pool.lookup h, resolve pool rest with
    | some tx, .ok txs => .ok (tx :: txs)
    | none, _ => .error Err.TransactionNotFound
    | _, .error e => .error e

/-- The ballot of P1 moved to the basis height `h`. -/
def ballotAt (h : Nat) : Ballot :=
  { ballot with
    Hash := "b-ahead"
    VotingBasis := { Height := h, Round := 0, BlockHash := "ahead" } }

/-- An INIT ballot at `basis` that names P3 as proposer and is signed by P3. -/
def ownBallot : Ballot :=
  { Hash := "b-own", Source := "P3", Proposer := "P3", VotingBasis := basis,
    State := BallotState.INIT, Vote := Hole.YES, Transactions := ["tx_a"] }

/-- The INIT ballot of the elected proposer P0 at `basis`, proposing `hashes`. -/
def initBallot (hashes : List String) : Ballot :=
  { Hash := "b-init", Source := "P0", Proposer := "P0", VotingBasis := basis,
    State := BallotState.INIT, Vote := Hole.YES, Transactions := hashes }

/-- A transaction check of the test network: every proposed hash is pooled. -/
def checkPooled : TransactionCheckerFunc := fun tc w =>
  if tc.Transactions.all (fun h => w.TransactionPool.Has h) then (tc, w, none)
  else (tc, w, some Err.TransactionNotFound)

/-- The checker of P3 at the start of the pipeline for the ballot `b`. -/
def fresh (b : Ballot) : BallotChecker :=
  { LocalNode := "P3", IsNew := false, Ballot := b, VotingHole := Hole.NOTYET,
    VotingFinished := false, FinishedVotingHole := Hole.NOTYET, LatestUpdatedSources := [] }

/-- Collaborators of the test network: P0 is always elected, the sync target
is the highest reported height, storage never fails. -/
def env : Env :=
  { SelectProposer := fun _ _ => "P0"
    GetSyncInfo := fun is => .ok ((is.nodesHeight.map (fun e => e.2)).foldl max 0,
      is.nodesHeight.map (fun e => e.1))
    finishBallot := fun st b _ =>
      (st.Set (GetBlockKey (blockOf b).Hash) (Record.block (blockOf b)), none)
    ExistsTransactionPool := fun st h => .ok (st.Get (GetTransactionPoolKey h)).isSome
    GetConnection := fun _ => true
    GetTransactions := fun _ _ => .ok []
    UnmarshalNodeItemResponse := fun _ => .ok NodeItem.NodeItemOther
    TransactionIsWellFormed := fun _ => none
    ValidateTx := fun _ _ => none
    OpenBatchErr := fun _ => none
    CommitErr := fun _ => none
    SaveTransactionPoolErr := fun _ _ => none
    getProposedTransactions := fun _ hashes pool => resolve pool hashes
    finishBallotWithProposedTxs := fun bs b _ _ =>
      (bs.Set (GetBlockKey (blockOf b).Hash) (Record.block (blockOf b)), .ok (blockOf b))
    IsVotedByNode := fun _ _ _ => (false, none)
    INITBallotTransactionCheckerFuncs := [checkPooled]
    CommonAccountAddress := "COMMON"
    InitialBalance := 1000000000
    InflationRatioString := "0.0000001"
    BlockHeightEndOfInflation := 36000000
    CalculateInflation := fun initialBalance => .ok (initialBalance / 10000000)
    CollectTxFee := fun ptx =>
      match ptx.Operations with
      | OperationBody.CollectTxFee opb :: _ => .ok opb
      | _ => .error Err.InvalidOperation
    Inflation := fun ptx =>
      match ptx.Operations with
      | _ :: OperationBody.Inflation opb :: _ => .ok opb
      | _ => .error Err.InvalidOperation
    SignedHash := fun b address => "signed-" ++ address ++ "-" ++ b.Hash }

/-- The test network with a store whose `Commit` fails. -/
def envCommitFails : Env :=
  { env with CommitErr := fun _ => some (Err.Other "commit failed") }

end Fixture

/-! ## Proposer transaction checks and ACCEPT broadcast -/

/-- The check `BallotValidateOperationBodyCollectTxFee`. -/
def BallotValidateOperationBodyCollectTxFee (env : Env) (c : BallotChecker) (w : World) : Out :=
  match env.CollectTxFee c.Ballot.ProposerTransaction with
  | .error e => ⟨c, w, some e⟩
  | .ok opb =>
    if opb.Target ≠ env.CommonAccountAddress then ⟨c, w, some Err.InvalidOperation⟩
    else ⟨c, w, none⟩

/-- The check `BallotValidateOperationBodyInflation`.  The expected amount
starts as the zero `common.Amount` and is computed only while the height of
the latest block is at most `BlockHeightEndOfInflation`. -/
def BallotValidateOperationBodyInflation (env : Env) (c : BallotChecker) (w : World) : Out :=
  match env.Inflation c.Ballot.ProposerTransaction with
  | .error e => ⟨c, w, some e⟩
  | .ok opb =>
    if opb.Target ≠ env.CommonAccountAddress then ⟨c, w, some Err.InvalidOperation⟩
    else if opb.InitialBalance ≠ env.InitialBalance then ⟨c, w, some Err.InvalidOperation⟩
    else if opb.Ratio ≠ env.InflationRatioString then ⟨c, w, some Err.InvalidOperation⟩
    else if w.isaac.LatestBlock.Height ≤ env.BlockHeightEndOfInflation then
      match env.CalculateInflation env.InitialBalance with
      | .error e => ⟨c, w, some e⟩
      | .ok expectedInflation =>
        if opb.Amount ≠ expectedInflation then ⟨c, w, some Err.InvalidOperation⟩
        else ⟨c, w, none⟩
    else if opb.Amount ≠ 0 then ⟨c, w, some Err.InvalidOperation⟩
    else ⟨c, w, none⟩

/-- Modelled from the spec: `Ballot.SetSource` is not in the sources; it sets
the source (signer) address. -/
def Ballot.SetSource (b : Ballot) (source : String) : Ballot :=
  { b with Source := source }

/-- Modelled from the spec: `Ballot.SetVote(state, vote)` is not in the
sources; it sets the state and the vote. -/
def Ballot.SetVote (b : Ballot) (state : BallotState) (vote : Hole) : Ballot :=
  { b with State := state, Vote := vote }

/-- Modelled from the spec: `Ballot.Sign(keypair, networkID)` is not in the
sources; signing replaces the signature and with it the hash `H.Hash`. -/
def Ballot.Sign (env : Env) (b : Ballot) (address : String) : Ballot :=
  { b with Hash := env.SignedHash b address }

/-- The check `ACCEPTBallotBroadcast`. -/
def ACCEPTBallotBroadcast (env : Env) (c : BallotChecker) (w : World) : Out :=
  if !c.VotingFinished then ⟨c, w, none⟩
  else
    let newBallot :=
      ((c.Ballot.SetSource c.LocalNode).SetVote BallotState.ACCEPT c.FinishedVotingHole).Sign
        env c.LocalNode
    if !w.isaac.HasRunningRound c.Ballot.VotingBasis.Index then
      ⟨c, w, some (Err.New "RunningRound not found")⟩
    else ⟨c, w.emit (Event.Broadcast newBallot), none⟩

/-- Whether a batch is left open after the calls: `OpenBatch` opens one, a
`Commit` that returned nil or a `Discard` closes it. -/
def batchLeftOpen (events : List Event) : Bool :=
  events.foldl (fun isOpen e =>
    match e with
    | Event.OpenBatch => true
    | Event.Commit none => false
    | Event.Discard => false
    | _ => isOpen) false

/-! ## Storage backend and block records (`lib/block.go`) -/

/-- Failures of the storage backend (`LevelDBBackend`), arbitrary functions
of the store, the key and the value written. -/
structure Backend where
  /-- Error of `st.Has(key)`, if any. -/
  HasErr : Storage → String → Option Err
  /-- Error of `st.New(key, value)`, if any. -/
  NewErr : Storage → String → Record → Option Err

/-- Modelled from the spec: `st.Has(key)` of the storage backend is not in
the sources; it reports whether a record is under the key. -/
def Backend.Has (bk : Backend) (st : Storage) (key : String) : Bool × Option Err :=
  match bk.HasErr st key with
  | some e => (false, some e)
  | none => ((st.Get key).isSome, none)

/-- Modelled from the spec: `st.New(key, value)` of the storage backend is
not in the sources; unless it fails it puts the value under the key. -/
def Backend.New (bk : Backend) (st : Storage) (key : String) (v : Record) :
    Storage × Option Err :=
  match bk.NewErr st key v with
  | some e => (st, some e)
  | none => (st.Set key v, none)

/-- The function `GetBlockKeyPrefixConfirmed`. -/
def GetBlockKeyPrefixConfirmed (confirmed : String) : String :=
  "b-confirmed-" ++ confirmed ++ "-"

/-- The method `Block.NewBlockKeyConfirmed`; `uuid` is what
`GetUniqueIDFromUUID()` returns at the call. -/
def Block.NewBlockKeyConfirmed (b : Block) (uuid : String) : String :=
  GetBlockKeyPrefixConfirmed b.Confirmed ++ uuid

/-- The method `Block.Save`: the store it leaves and the error. -/
def Block.Save (bk : Backend) (uuid : String) (b : Block) (st : Storage) :
    Storage × Option Err :=
  let key := GetBlockKey b.Hash
  match bk.Has st key with
  | (_, some e) => (st, some e)
  | (true, none) => (st, some Err.ErrorBlockAlreadyExists)
  | (false, none) =>
    match bk.New st key (Record.block b) with
    | (st1, some e) => (st1, some e)
    | (st1, none) => bk.New st1 (b.NewBlockKeyConfirmed uuid) (Record.str b.Hash)

/-! ## Transaction history (`lib/node_runner_checker.go`) -/

/-- Modelled from the spec: the key of a transaction record in history,
`tx-<hash>`; the function that builds it is not in the sources. -/
def GetBlockTransactionHistoryKey (hash : String) : String :=
  "tx-" ++ hash

/-- Modelled from the spec: `ExistsBlockTransactionHistory(storage, hash)` is
not in the sources; it asks the store for the key `tx-<hash>`. -/
def ExistsBlockTransactionHistory (bk : Backend) (st : Storage) (hash : String) :
    Bool × Option Err :=
  bk.Has st (GetBlockTransactionHistoryKey hash)

/-- Modelled from the spec: `GetBlockTransactionHistory(storage, hash)` is not
in the sources; it reads the record under `tx-<hash>`. -/
def GetBlockTransactionHistory (st : Storage) (hash : String) : Option Record :=
  st.Get (GetBlockTransactionHistoryKey hash)

/-- Modelled from the spec: `NewTransactionHistoryFromTransaction(tx, raw)` is
not in the sources; the history record of a transaction carries its hash,
its source and the raw message. -/
def NewTransactionHistoryFromTransaction (tx : Transaction) (raw : List Nat) :
    BlockTransactionHistory :=
  { Hash := tx.Hash, Source := tx.Source, Message := raw }

/-- Modelled from the spec: `BlockTransactionHistory.Save(storage)` is not in
the sources; it saves the record to the transaction-history store under
`tx-<hash>`. -/
def BlockTransactionHistory.Save (bk : Backend) (bt : BlockTransactionHistory) (st : Storage) :
    Storage × Option Err :=
  bk.New st (GetBlockTransactionHistoryKey bt.Hash) (Record.history bt)

/-- The check `CheckNodeRunnerHandleMessageHistory` on the transaction and the
raw message data of the checker: the store it leaves and the error. -/
def CheckNodeRunnerHandleMessageHistory (bk : Backend) (tx : Transaction) (data : List Nat)
    (st : Storage) : Storage × Option Err :=
  let r := ExistsBlockTransactionHistory bk st tx.Hash
  if r.1 && r.2.isNone then (st, some Err.ErrorNewButKnownMessage)
  else
    let bt := NewTransactionHistoryFromTransaction tx data
    bt.Save bk st

/-! ## Legacy ballot checker (`lib/node_runner_checker.go`) -/

namespace Legacy

/-- The fields of a round the legacy checker reads: `Number`, `BlockHeight`
and `BlockHash`. -/
structure Round where
  Number : Nat
  BlockHeight : Nat
  BlockHash : String
  deriving DecidableEq, Repr

/-- The fields of a legacy ballot the checker reads: `GetHash()`, `Source()`,
`Proposer()`, `Round()`, `State()`, `Vote()` and `Transactions()`. -/
structure Ballot where
  Hash : String
  Source : String
  Proposer : String
  Round : Round
  State : BallotState
  Vote : Hole
  Transactions : List String
  deriving DecidableEq, Repr

/-- The legacy running round: its round, the elected proposer and, per
proposer, the proposed hashes (`Transactions`) and the round vote (`Voted`). -/
structure RunningRound where
  Round : Round
  Proposer : String
  Transactions : List (String × List String)
  Voted : List (String × RoundVote)
  deriving DecidableEq, Repr

/-- The fields of `NodeRunnerHandleBallotChecker` the check reads or writes. -/
structure NodeRunnerHandleBallotChecker where
  LocalNode : String
  IsNew : Bool
  Ballot : Ballot
  VotingHole : Hole
  RoundVote : Option RoundVote
  VotingFinished : Bool
  FinishedVotingHole : Hole
  deriving DecidableEq, Repr

/-- Collaborators of the legacy checker whose code is not in the sources. -/
structure Env where
  /-- Go `Round.Hash()`. -/
  RoundHash : Round → String
  /-- Go `NodeRunner.CalculateProposer(blockHeight, roundNumber)`. -/
  CalculateProposer : Nat → Nat → String
  /-- Go `NewRunningRound(proposer, ballot)`. -/
  NewRunningRound : String → Ballot → Except Err RunningRound
  /-- Go `RunningRound.Vote(ballot)`: the running round it leaves. -/
  Vote : RunningRound → Ballot → RunningRound
  /-- Go `RunningRound.RoundVote(proposer)`. -/
  RoundVote : RunningRound → String → Except Err RoundVote

/-- Put a running round under a round hash in the map `RunningRounds`. -/
def setRunningRound (rr : List (String × RunningRound)) (roundHash : String)
    (runningRound : RunningRound) : List (String × RunningRound) :=
  (roundHash, runningRound) :: rr.filter (fun e => e.1 != roundHash)

/-- Modelled from the spec: whether the `(source, phase, proposer)` of the
ballot is already recorded in the running round, that is, the source is in
the phase map (SIGN or ACCEPT) of the round vote of the proposer. -/
def RunningRound.IsVoted (runningRound : RunningRound) (b : Ballot) : Bool :=
  match runningRound.Voted.lookup b.Proposer with
  | none => false
  | some rv =>
    match b.State with
    | BallotState.SIGN => (rv.SIGN.lookup b.Source).isSome
    | BallotState.ACCEPT => (rv.ACCEPT.lookup b.Source).isSome
    | _ => false

/-- The check `CheckNodeRunnerHandleBallotAddRunningRounds` on the checker and
the map `Consensus().RunningRounds`. -/
def CheckNodeRunnerHandleBallotAddRunningRounds (env : Env)
    (c : NodeRunnerHandleBallotChecker) (rr : List (String × RunningRound)) :
    NodeRunnerHandleBallotChecker × List (String × RunningRound) × Option Err :=
  let roundHash := env.RoundHash c.Ballot.Round
  match rr.lookup roundHash with
  | none =>
    let proposer := env.CalculateProposer c.Ballot.Round.BlockHeight c.Ballot.Round.Number
    match env.NewRunningRound proposer c.Ballot with
    | .error e => (c, rr, some e)
    | .ok runningRound =>
      let rr1 := setRunningRound rr roundHash runningRound
      match env.RoundVote runningRound c.Ballot.Proposer with
      | .error e => ({ c with IsNew := true, RoundVote := none }, rr1, some e)
      | .ok rv => ({ c with IsNew := true, RoundVote := some rv }, rr1, none)
  | some runningRound =>
    let isNew := (runningRound.Voted.lookup c.Ballot.Proposer).isNone
    let runningRound1 := env.Vote runningRound c.Ballot
    let rr1 := setRunningRound rr roundHash runningRound1
    match env.RoundVote runningRound1 c.Ballot.Proposer with
    | .error e => ({ c with IsNew := isNew, RoundVote := none }, rr1, some e)
    | .ok rv => ({ c with IsNew := isNew, RoundVote := some rv }, rr1, none)

end Legacy

/-! ## New blocks, pool invariant, legacy ACCEPT store -/

/-- The function `NewBlock` of `lib/block.go`.  The height is a Go `uint64`,
so the increment wraps at `2 ^ 64`; `MakeHash` stands for
`base58.Encode(MustMakeObjectHash(b))` of the block before its hash is set. -/
def NewBlock (MakeHash : Block → String) (propser : String) (round : Legacy.Round)
    (transactions : List String) (confirmed : String) : Block :=
  let b : Block :=
    { Hash := ""
      PreviousHash := round.BlockHash
      Height := (round.BlockHeight + 1) % 2 ^ 64
      Confirmed := confirmed
      Transactions := transactions
      Proposer := propser }
  { b with Hash := MakeHash b }

/-- The hashes `reorganizeTransactionPool` removes first: the list the running
round of the basis of the ballot records for the proposer of the ballot, and
nothing when that running round is not found. -/
def roundTransactions (c : BallotChecker) (w : World) : List String :=
  match w.isaac.RunningRounds.lookup c.Ballot.VotingBasis.Index with
  | some rr => (rr.Transactions.lookup c.Ballot.Proposer).getD []
  | none => []

/-- Modelled from the spec: the invariant of the transaction pool.  Every
pooled transaction is stored under its own hash and indexed under its source,
and every index entry of a source points to a transaction of that source (or
to none). -/
def TransactionPool.WellFormed (p : TransactionPool) : Bool :=
  p.Pool.all (fun e => e.2.Hash == e.1 && p.Sources.lookup e.2.Source == some e.1)
  && p.Sources.all (fun e =>
    match p.Pool.lookup e.2 with
    | some tx => tx.Source == e.1
    | none => true)

namespace Legacy

/-- Calls of `CheckNodeRunnerHandleACCEPTBallotStore` into collaborators, in
call order. -/
inductive Event where
  | FinishBallot (b : Ballot)
  /-- The call `Consensus().CloseConsensus(proposer, round, votingHole)`. -/
  | ConsensusCloseConsensus (proposer : String) (round : Round) (votingHole : Hole)
  /-- The call `NodeRunner.CloseConsensus(round, willStore)`. -/
  | NodeRunnerCloseConsensus (round : Round) (willStore : Bool)
  deriving DecidableEq, Repr

/-- The legacy node runner as `CheckNodeRunnerHandleACCEPTBallotStore` sees it. -/
structure NodeRunner where
  /-- Go `NodeRunner.Storage()`. -/
  storage : Storage
  /-- Go `Consensus().TransactionPool`. -/
  TransactionPool : TransactionPool
  /-- The block set by `Consensus().SetLatestConsensusedBlock`. -/
  LatestConsensusedBlock : Block
  /-- Calls into collaborators so far, oldest first. -/
  events : List Event
  deriving DecidableEq, Repr

/-- Append a collaborator call to the legacy node runner. -/
def NodeRunner.emit (nr : NodeRunner) (e : Event) : NodeRunner :=
  { nr with events := nr.events ++ [e] }

/-- Modelled from the spec: `Ballot.TransactionsLength()` is not in the
sources; it is the number of proposed transaction hashes. -/
def Ballot.TransactionsLength (b : Ballot) : Nat :=
  b.Transactions.length

/-- The legacy function `FinishBallot(storage, ballot, pool)`, not in the
sources: the store and the pool it leaves and the block or the error. -/
abbrev FinishBallotFunc :=
  Storage → Ballot → TransactionPool → Storage × TransactionPool × Except Err Block

/-- The check `CheckNodeRunnerHandleACCEPTBallotStore`. -/
def CheckNodeRunnerHandleACCEPTBallotStore (FinishBallot : FinishBallotFunc)
    (c : NodeRunnerHandleBallotChecker) (nr : NodeRunner) :
    NodeRunnerHandleBallotChecker × NodeRunner × Option Err :=
  if !c.VotingFinished then (c, nr, none)
  else
    let willStore := c.FinishedVotingHole == Hole.YES
    let close (willStore : Bool) (nr1 : NodeRunner) (err : Option Err) :=
      (c, ((nr1.emit (Event.ConsensusCloseConsensus c.Ballot.Proposer c.Ballot.Round
        c.VotingHole)).emit (Event.NodeRunnerCloseConsensus c.Ballot.Round willStore)), err)
    if c.FinishedVotingHole == Hole.YES then
      if c.Ballot.TransactionsLength < 1 then
        close false nr (some (Err.CheckerErrorStop "ballot got consensus and will be stored"))
      else
        let nr1 := nr.emit (Event.FinishBallot c.Ballot)
        match FinishBallot nr1.storage c.Ballot nr1.TransactionPool with
        | (st, pool, .error e) => (c, { nr1 with storage := st, TransactionPool := pool }, some e)
        | (st, pool, .ok block) =>
          close willStore
            { nr1 with storage := st, TransactionPool := pool, LatestConsensusedBlock := block }
            (some (Err.CheckerErrorStop "ballot got consensus and will be stored"))
    else close willStore nr (some (Err.CheckerErrorStop "ballot got consensus"))

end Legacy

/-! ## Ballot dispatch of `IsaacBA` (`lib/consensus/isaac_ba.go`) -/

/-- The two handlers `IsaacBA.ReceiveBallot` dispatches to, as functions of
the ballot and the ballot boxes: the boxes they leave, the voting state
staging and the error.  `State` is `ballot.State()`. -/
structure IsaacBAHandlers (Ballot Boxes Staging : Type) where
  State : Ballot → BallotState
  receiveBallotStateINIT : Ballot → Boxes → Boxes × Staging × Option Err
  receiveBallotVotingStates : Ballot → Boxes → Boxes × Staging × Option Err

/-- The method `IsaacBA.ReceiveBallot`; `zero` is the zero value of
`VotingStateStaging` that the named result holds when no handler runs. -/
def IsaacBA.ReceiveBallot {Ballot Boxes Staging : Type}
    (h : IsaacBAHandlers Ballot Boxes Staging) (zero : Staging) (ballot : Ballot)
    (boxes : Boxes) : Boxes × Staging × Option Err :=
  match h.State ballot with
  | BallotState.INIT => h.receiveBallotStateINIT ballot boxes
  | BallotState.ALLCONFIRM => (boxes, zero, some Err.ErrorBallotHasInvalidState)
  | _ => h.receiveBallotVotingStates ballot boxes

/-! ## Utilities (`lib/util/util.go`) -/

/-- A check function of `util.Checker` (`util.CheckerFunc`).  The Go target is
an `interface{}` that holds a pointer, so a check function may change what it
points to: the function maps the context and the state of the target to the
new context, the new state of the target and the error. -/
abbrev CheckerFunc (Ctx Target : Type) := Ctx → Target → Ctx × Target × Option Err

/-- The function returned by `util.Checker(ctx, checkFuncs...)`, applied to a
target: the loop over the check functions.  The result is the returned
context, the state in which the target is left, and the returned error. -/
def Checker {Ctx Target : Type} (ctx : Ctx) (checkFuncs : List (CheckerFunc Ctx Target))
    (target : Target) : Ctx × Target × Option Err :=
  match checkFuncs with
  | [] => (ctx, target, none)
  | f :: rest =>
    match f ctx target with
    | (ctx1, target1, some err) => (ctx1, target1, some err)
    | (ctx1, target1, none) => Checker ctx1 rest target1

/-- Every check function of the list returns nil when the list is run from
`ctx` and `target`, each on the context and the target state left by the
previous one. -/
def allReturnNil {Ctx Target : Type} (ctx : Ctx) (checkFuncs : List (CheckerFunc Ctx Target))
    (target : Target) : Prop :=
  match checkFuncs with
  | [] => True
  | f :: rest =>
    (f ctx target).2.2 = none ∧ allReturnNil (f ctx target).1 rest (f ctx target).2.1

/-- The context and the target state after every check function of the list
ran in list order from `ctx` and `target`, each on what the previous one
left, whatever errors they returned. -/
def stateAfter {Ctx Target : Type} (ctx : Ctx) (checkFuncs : List (CheckerFunc Ctx Target))
    (target : Target) : Ctx × Target :=
  match checkFuncs with
  | [] => (ctx, target)
  | f :: rest => stateAfter (f ctx target).1 rest (f ctx target).2.1

/-- The call `bytes.Index(b, [0])`: the index of the first zero byte, `none`
for the Go result -1. -/
def bytesIndexZero : List Nat → Option Nat
  | [] => none
  | x :: xs => if x = 0 then some 0 else (bytesIndexZero xs).map (fun i => i + 1)

/-- The call `bytes.LastIndex(b, [0])`: the index of the last zero byte,
`none` for the Go result -1. -/
def bytesLastIndexZero : List Nat → Option Nat
  | [] => none
  | x :: xs =>
    match bytesLastIndexZero xs with
    | some i => some (i + 1)
    | none => if x = 0 then some 0 else none

/-- The first step of `StripZero`: cut at the first zero byte. -/
def stripAtFirstZero (b : List Nat) : List Nat :=
  match bytesIndexZero b with
  | some n => b.take n
  | none => b

/-- The function `StripZero` on a byte slice. -/
def StripZero (b : List Nat) : List Nat :=
  let b1 := stripAtFirstZero b
  match bytesLastIndexZero b1 with
  | some n => b1.drop (n + 1)
  | none => b1

/-! ## Block header (`lib/header.go`) -/

/-- The field of `ConsensusResult` that the header reads. -/
structure ConsensusResult where
  BlockHash : String
  deriving DecidableEq, Repr

/-- The struct `Header`; `Timestamp` is the reading of the clock. -/
structure Header where
  Version : Nat
  PrevBlockHash : String
  TransactionsRoot : String
  Timestamp : String
  Height : Nat
  TotalTxs : Nat
  PrevConsensusResult : ConsensusResult
  BlockHash : String
  prevTotalTxs : Nat
  prevConsensusResultHash : String
  deriving DecidableEq, Repr

/-- The method `Header.fill`; `MakeHash` stands for
`sebakcommon.MustMakeObjectHashString`. -/
def Header.fill (MakeHash : Header → String) (h : Header) : Header :=
  let h1 :=
    if h.PrevBlockHash = "" then
      if h.Height ≠ 0 ∧ h.PrevConsensusResult.BlockHash ≠ "" then
        { h with PrevBlockHash := h.PrevConsensusResult.BlockHash }
      else h
    else h
  if h1.BlockHash = "" then { h1 with BlockHash := MakeHash h1 } else h1

/-- The function `NewHeader`; `now` is what `time.Now()` returns at the call.
`TotalTxs` is a sum of Go `uint64` values. -/
def NewHeader (MakeHash : Header → String) (now : String) (height : Nat) (prevBlockHash : String)
    (prevResult : ConsensusResult) (prevTotalTxs currentTxs : Nat) (txRoot : String) : Header :=
  let p : Header :=
    { Version := 0
      PrevBlockHash := prevBlockHash
      TransactionsRoot := txRoot
      Timestamp := now
      Height := height
      TotalTxs := (prevTotalTxs + currentTxs) % 2 ^ 64
      PrevConsensusResult := prevResult
      BlockHash := ""
      prevTotalTxs := 0
      prevConsensusResultHash := "" }
  p.fill MakeHash

/-! ## Test network: proposer transactions, storage faults, legacy rounds -/

namespace Fixture

/-- A proposer transaction whose inflation operation pays `amount` to `target`. -/
def proposerTx (target : String) (amount : Nat) : ProposerTransaction :=
  { Operations :=
      [OperationBody.CollectTxFee { Target := "COMMON", Amount := 0 },
       OperationBody.Inflation
        { Target := target, InitialBalance := 1000000000, Ratio := "0.0000001",
          Amount := amount }] }

/-- The INIT ballot of P0 for `[tx_a]` carrying the proposer transaction `ptx`. -/
def ballotWith (ptx : ProposerTransaction) : Ballot :=
  { initBallot ["tx_a"] with ProposerTransaction := ptx }

/-- The node `world` without any running round. -/
def worldNoRound : World :=
  { world with isaac := { world.isaac with RunningRounds := [] } }

/-- The test network with a store whose `Commit` reports `NotCommittable`. -/
def envNotCommittable : Env :=
  { env with CommitErr := fun _ => some Err.NotCommittable }

/-- The test network with a store that cannot be read when the proposed
transactions are resolved. -/
def envResolveFails : Env :=
  { env with getProposedTransactions := fun _ _ _ => .error (Err.Other "storage read failed") }

/-- A transaction of account `B` that P3 has not pooled. -/
def txB : Transaction := { Hash := "tx_b", Source := "B" }

/-- The test network with a proposer that answers `GetTransactions` with two
lines, both the transaction `txB`, and a persistent pool that refuses a key
it already holds. -/
def envFetchTwice : Env :=
  { env with
    GetTransactions := fun _ _ => .ok [1, 10, 1, 10]
    UnmarshalNodeItemResponse := fun _ => .ok (NodeItem.NodeItemTransaction txB)
    SaveTransactionPoolErr := fun bs tx =>
      if (bs.Get (GetTransactionPoolKey tx.Hash)).isSome then some (Err.Other "key already exists")
      else none }

/-- The checker of P3 finishing a YES tally for a ballot that proposes `hashes`. -/
def checkerFor (hashes : List String) : BallotChecker :=
  { checker Hole.YES with Ballot := { ballot with Transactions := hashes } }

/-- A storage backend without failures. -/
def backend : Backend :=
  { HasErr := fun _ _ => none, NewErr := fun _ _ _ => none }

/-- The legacy round at block height 1, number 0. -/
def legacyRound : Legacy.Round := { Number := 0, BlockHeight := 1, BlockHash := "genesis" }

/-- A legacy SIGN ballot of `source` for the proposal of `proposer` in `legacyRound`. -/
def legacyBallot (source proposer : String) : Legacy.Ballot :=
  { Hash := "lb-" ++ source, Source := source, Proposer := proposer, Round := legacyRound,
    State := BallotState.SIGN, Vote := Hole.YES, Transactions := ["tx_a"] }

/-- Collaborators of the legacy checker in the test network. -/
def legacyEnv : Legacy.Env :=
  { RoundHash := fun r => toString r.BlockHeight ++ "-" ++ toString r.Number ++ "-" ++ r.BlockHash
    CalculateProposer := fun _ _ => "P0"
    NewRunningRound := fun proposer b =>
      .ok { Round := b.Round, Proposer := proposer, Transactions := [(b.Proposer, b.Transactions)],
            Voted := [(b.Proposer, { SIGN := [(b.Source, b.Vote)], ACCEPT := [] })] }
    Vote := fun runningRound b =>
      match runningRound.Voted.lookup b.Proposer with
      | none =>
        { runningRound with
          Voted := (b.Proposer, { SIGN := [(b.Source, b.Vote)], ACCEPT := [] }) ::
            runningRound.Voted }
      | some rv =>
        { runningRound with
          Voted := (b.Proposer, { rv with SIGN := (b.Source, b.Vote) :: rv.SIGN }) ::
            runningRound.Voted.filter (fun e => e.1 != b.Proposer) }
    RoundVote := fun runningRound proposer =>
      match runningRound.Voted.lookup proposer with
      | none => .error (Err.Other "round vote not found")
      | some rv => .ok rv }

/-- The legacy running rounds of P3: `legacyRound` with the SIGN vote of P1
for the proposal of P0. -/
def legacyRunningRounds : List (String × Legacy.RunningRound) :=
  [(legacyEnv.RoundHash legacyRound,
    { Round := legacyRound, Proposer := "P0", Transactions := [("P0", ["tx_a"])],
      Voted := [("P0", { SIGN := [("P1", Hole.YES)], ACCEPT := [] })] })]

/-- The legacy checker of P3 at the start of the pipeline for the ballot `b`. -/
def legacyChecker (b : Legacy.Ballot) : Legacy.NodeRunnerHandleBallotChecker :=
  { LocalNode := "P3", IsNew := false, Ballot := b, VotingHole := Hole.NOTYET,
    RoundVote := none, VotingFinished := false, FinishedVotingHole := Hole.NOTYET }

end Fixture

/-! ## Test network: blocks, headers, legacy node runner -/

namespace Fixture

/-- A stand-in for the object hash of a block. -/
def blockHash (b : Block) : String :=
  "blk-" ++ toString b.Height ++ "-" ++ b.PreviousHash

/-- The legacy round at the largest `uint64` block height. -/
def lastRound : Legacy.Round :=
  { Number := 0, BlockHeight := 18446744073709551615, BlockHash := "tip" }

/-- The checker of P3 finishing a YES tally for a ballot of P0 that lists
`tx_c`, while the running round of `basis` records `[tx_a]` for P0. -/
def checkerOther : BallotChecker := checkerFor ["tx_c"]

/-- The checker of P3 after `saveBlock` recorded the source `A` as updated. -/
def checkerUpdated : BallotChecker :=
  { checker Hole.YES with LatestUpdatedSources := ["A"] }

/-- The test network with a sync coordinator that reports the sync height 0. -/
def envSyncZero : Env :=
  { env with GetSyncInfo := fun _ => .ok (0, ["P1"]) }

/-- The legacy `FinishBallot` of the test network: it stores the block of the
ballot and leaves the pool as it is. -/
def legacyFinishBallot : Legacy.FinishBallotFunc := fun st b pool =>
  (st.Set (GetBlockKey ("blk-" ++ b.Hash))
      (Record.block (NewBlock blockHash b.Proposer b.Round b.Transactions "t1")),
    pool, .ok (NewBlock blockHash b.Proposer b.Round b.Transactions "t1"))

/-- The legacy node runner of P3 with `genesis` as latest consensused block. -/
def legacyNodeRunner : Legacy.NodeRunner :=
  { storage := [], TransactionPool := world.TransactionPool, LatestConsensusedBlock := genesis,
    events := [] }

/-- The legacy checker of P3 after the ACCEPT tally of a ballot of P0 that
proposes `hashes` finished with YES. -/
def legacyFinished (hashes : List String) : Legacy.NodeRunnerHandleBallotChecker :=
  { LocalNode := "P3", IsNew := false,
    Ballot := { Hash := "lb-P1", Source := "P1", Proposer := "P0", Round := legacyRound,
                State := BallotState.ACCEPT, Vote := Hole.YES, Transactions := hashes },
    VotingHole := Hole.YES, RoundVote := none, VotingFinished := true,
    FinishedVotingHole := Hole.YES }

/-- Handlers of the test network for the ballot dispatch: the boxes are the
list of the ballot hashes received, the staging is the phase reached. -/
def handlers : IsaacBAHandlers Legacy.Ballot (List String) BallotState :=
  { State := fun b => b.State
    receiveBallotStateINIT := fun b boxes => (b.Hash :: boxes, BallotState.INIT, none)
    receiveBallotVotingStates := fun b boxes => (b.Hash :: boxes, b.State, none) }

/-- A check function that passes: it appends `name` to the context and adds
one to the target. -/
def passing (name : String) : CheckerFunc (List String) Nat :=
  fun ctx target => (ctx ++ [name], target + 1, none)

/-- A check function that fails: it appends `name` to the context, leaves the
target and returns an error. -/
def failing (name : String) : CheckerFunc (List String) Nat :=
  fun ctx target => (ctx ++ [name], target, some (Err.Other name))

/-- A stand-in for the object hash of a header. -/
def headerHash (h : Header) : String :=
  "hdr-" ++ toString h.Height ++ "-" ++ h.PrevBlockHash ++ "-" ++ h.TransactionsRoot

/-- A storage backend whose `Has` fails and whose `New` succeeds. -/
def backendHasFails : Backend :=
  { HasErr := fun _ _ => some (Err.Other "storage"), NewErr := fun _ _ _ => none }

/-- A store whose transaction history holds `tx_a`, received earlier as the
raw message `[9]`. -/
def historyStore : Storage :=
  [(GetBlockTransactionHistoryKey "tx_a",
    Record.history { Hash := "tx_a", Source := "A", Message := [9] })]

/-- A transaction check of the test network that votes NO on a ballot that
proposes more than one transaction and stops the sub-pipeline. -/
def checkSingle : TransactionCheckerFunc := fun tc w =>
  if tc.Transactions.length ≤ 1 then (tc, w, none)
  else ({ tc with VotingHole := Hole.NO }, w, some (Err.CheckerErrorStop "too many"))

/-- The node `world` with a second pooled transaction `txB` of account `B`. -/
def worldTwo : World :=
  { world with
    TransactionPool :=
      { Pool := [("tx_a", txA), ("tx_b", txB)]
        Sources := [("A", "tx_a"), ("B", "tx_b")]
        Pending := ["tx_a", "tx_b"] } }

end Fixture

/-! ## Frame lemmas -/

theorem txpool_key_ne_block_key (x h : String) : GetTransactionPoolKey x ≠ GetBlockKey h := by
  intro heq
  have hd := congrArg String.data heq
  simp [GetTransactionPoolKey, GetBlockKey] at hd

theorem lookup_filter_ne (st : Storage) (k k2 : String) (hne : k2 ≠ k) :
    (st.filter (fun e => e.1 != k)).lookup k2 = st.lookup k2 := by
  induction st with
  | nil => rfl
  | cons e rest ih =>
    obtain ⟨a, b⟩ := e
    by_cases hak : a = k
    · subst hak
      have h2 : (k2 == a) = false := by simpa using hne
      simp [List.filter_cons, List.lookup_cons, h2, ih]
    · have h3 : (a != k) = true := by simpa using hak
      simp only [List.filter_cons, h3, if_true, List.lookup_cons]
      rw [ih]

theorem lookup_set_ne (st : Storage) (k k2 : String) (v : Record) (hne : k2 ≠ k) :
    (st.Set k v).Get k2 = st.Get k2 := by
  unfold Storage.Set Storage.Get
  have h1 : (k2 == k) = false := by simpa using hne
  rw [List.lookup_cons, h1]
  exact lookup_filter_ne st k k2 hne

theorem saveReceived_GetBlock (env : Env) (txs : List Transaction) (bs : Storage) (h : String) :
    GetBlock (saveReceived env bs txs).1 h = GetBlock bs h := by
  induction txs generalizing bs with
  | nil => rfl
  | cons tx rest ih =>
    unfold saveReceived SaveTransactionPool
    cases hs : env.SaveTransactionPoolErr bs tx with
    | some e => simp
    | none =>
      simp only
      rw [ih]
      unfold GetBlock
      exact lookup_set_ne bs _ _ _ (fun heq => txpool_key_ne_block_key _ _ heq.symm)

theorem insertMissingTransaction_frame (env : Env) (c : BallotChecker) (w : World) :
    (insertMissingTransaction env c w).1.NodeAddress = w.NodeAddress
    ∧ (insertMissingTransaction env c w).1.TransactionPool = w.TransactionPool
    ∧ (insertMissingTransaction env c w).1.isaac = w.isaac
    ∧ (insertMissingTransaction env c w).1.isaacStateManager = w.isaacStateManager
    ∧ (∀ h, GetBlock (insertMissingTransaction env c w).1.storage h = GetBlock w.storage h)
    ∧ ∃ evs, (insertMissingTransaction env c w).1.events = w.events ++ evs
        ∧ ∀ ev ∈ evs, ev.isFetchOrBatch = true := by
  unfold insertMissingTransaction
  split
  · exact ⟨rfl, rfl, rfl, rfl, fun _ => rfl, [], by simp, by simp⟩
  · split
    · exact ⟨rfl, rfl, rfl, rfl, fun _ => rfl, [], by simp, by simp⟩
    · split
      · exact ⟨rfl, rfl, rfl, rfl, fun _ => rfl, [], by simp, by simp⟩
      · simp only
        split
        · exact ⟨rfl, rfl, rfl, rfl, fun _ => rfl, _, rfl, by simp [Event.isFetchOrBatch]⟩
        · split
          · exact ⟨rfl, rfl, rfl, rfl, fun _ => rfl, _, rfl, by simp [Event.isFetchOrBatch]⟩
          · split
            · exact ⟨rfl, rfl, rfl, rfl, fun _ => rfl, _, rfl, by simp [Event.isFetchOrBatch]⟩
            · split
              · exact ⟨rfl, rfl, rfl, rfl, fun _ => rfl, _,
                  by simp [World.emit, List.append_assoc]; rfl,
                  by simp [Event.isFetchOrBatch]⟩
              · rename_i bs hsave
                split
                · refine ⟨rfl, rfl, rfl, rfl, fun _ => rfl, ?_⟩
                  simp only [World.emit, List.append_assoc]
                  exact ⟨_, rfl, by simp [Event.isFetchOrBatch]⟩
                · refine ⟨rfl, rfl, rfl, rfl, ?_, ?_⟩
                  · intro h
                    have := saveReceived_GetBlock env ‹_›
                      (w.emit (Event.GetTransactions c.Ballot.Proposer ‹_›)).storage h
                    simp only [World.emit] at this hsave ⊢
                    rw [hsave] at this
                    exact this
                  · simp only [World.emit, List.append_assoc]
                    exact ⟨_, rfl, by simp [Event.isFetchOrBatch]⟩

theorem saveBlock_frame (env : Env) (c : BallotChecker) (w : World) :
    (saveBlock env c w).checker.Ballot = c.Ballot
    ∧ (saveBlock env c w).world.NodeAddress = w.NodeAddress
    ∧ (saveBlock env c w).world.TransactionPool = w.TransactionPool
    ∧ (saveBlock env c w).world.isaac = w.isaac
    ∧ (saveBlock env c w).world.isaacStateManager = w.isaacStateManager := by
  obtain ⟨h1, h2, h3, h4, -, -⟩ := insertMissingTransaction_frame env c w
  unfold saveBlock
  rcases hi : insertMissingTransaction env c w with ⟨w1, e1⟩
  rw [hi] at h1 h2 h3 h4
  simp only at h1 h2 h3 h4
  cases e1 with
  | some e => exact ⟨rfl, h1, h2, h3, h4⟩
  | none =>
    simp only
    split
    · exact ⟨rfl, h1, h2, h3, h4⟩
    · split
      · exact ⟨rfl, h1, h2, h3, h4⟩
      · split
        · exact ⟨rfl, h1, h2, h3, h4⟩
        · split
          · split
            · exact ⟨rfl, h1, h2, h3, h4⟩
            · exact ⟨rfl, h1, h2, h3, h4⟩
          · exact ⟨rfl, h1, h2, h3, h4⟩

theorem saveBlock_fail_frame (env : Env) (c : BallotChecker) (w : World) (e : Err)
    (hfail : (saveBlock env c w).err = some e) :
    (∀ h, GetBlock (saveBlock env c w).world.storage h = GetBlock w.storage h)
    ∧ ∃ evs, (saveBlock env c w).world.events = w.events ++ evs
        ∧ ∀ ev ∈ evs, ev.isFetchOrBatch = true := by
  obtain ⟨-, -, -, -, h5, evs, h6, h7⟩ := insertMissingTransaction_frame env c w
  revert hfail
  unfold saveBlock
  rcases hi : insertMissingTransaction env c w with ⟨w1, e1⟩
  rw [hi] at h5 h6
  simp only at h5 h6
  cases e1 with
  | some e => intro _; exact ⟨h5, evs, h6, h7⟩
  | none =>
    simp only
    split
    · intro _; exact ⟨h5, evs, h6, h7⟩
    · split
      · intro _
        refine ⟨h5, evs ++ [Event.OpenBatch], ?_, ?_⟩
        · simp [World.emit, h6]
        · intro ev hev
          rcases List.mem_append.1 hev with h | h
          · exact h7 ev h
          · simp at h; subst h; rfl
      · split
        · intro _
          refine ⟨h5, evs ++ [Event.OpenBatch, Event.Discard], ?_, ?_⟩
          · simp [World.emit, h6]
          · intro ev hev
            rcases List.mem_append.1 hev with h | h
            · exact h7 ev h
            · simp at h; rcases h with h | h <;> subst h <;> rfl
        · split
          · rename_i e2 _
            split
            · intro _
              refine ⟨h5, evs ++ [Event.OpenBatch, Event.Commit (some e2), Event.Discard],
                ?_, ?_⟩
              · simp [World.emit, h6]
              · intro ev hev
                rcases List.mem_append.1 hev with h | h
                · exact h7 ev h
                · simp at h; rcases h with h | h | h <;> subst h <;> rfl
            · intro h; simp at h
          · intro h; simp at h

theorem reorganizeTransactionPool_frame (env : Env) (c : BallotChecker) (w : World) :
    (reorganizeTransactionPool env c w).isaac = w.isaac
    ∧ (reorganizeTransactionPool env c w).events = w.events
    ∧ (reorganizeTransactionPool env c w).storage = w.storage
    ∧ (reorganizeTransactionPool env c w).isaacStateManager = w.isaacStateManager :=
  ⟨rfl, rfl, rfl, rfl⟩

theorem SetLatestVotingBasis_mem (is : ISAAC) (basis : Basis) :
    basis.Index ∈ (is.SetLatestVotingBasis basis).LatestRounds := by
  unfold ISAAC.SetLatestVotingBasis
  by_cases h : is.LatestRounds.contains basis.Index = true
  · simp only [h, if_true]
    simpa using h
  · rw [if_neg h]
    exact List.mem_cons_self _ _

theorem RemoveRunningRoundsWithSameHeight_none (is : ISAAC) (height : Nat) :
    ∀ e ∈ (is.RemoveRunningRoundsWithSameHeight height).RunningRounds,
      e.2.VotingBasis.Height ≠ height := by
  intro e he
  unfold ISAAC.RemoveRunningRoundsWithSameHeight at he
  simp only [List.mem_filter] at he
  simpa using he.2

/-! ## Finished store -/

/-- C1: with `VotingFinished` and `FinishedVotingHole = YES`, when `saveBlock`
succeeds `FinishedBallotStore` requests the transition to ALLCONFIRM for the
voting basis of the ballot right after the calls of `saveBlock`, records the basis
as latest voting basis and in `LatestRounds`, leaves no running round at the
basis height, and returns the stop sentinel. -/
theorem FinishedBallotStore_yes_stored (env : Env) (c : BallotChecker) (w : World)
    (hfin : c.VotingFinished = true) (hyes : c.FinishedVotingHole = Hole.YES)
    (hsave : (saveBlock env c w).err = none) :
    (FinishedBallotStore env c w).world.events =
        (saveBlock env c w).world.events ++
          [Event.TransitISAACState c.Ballot.VotingBasis BallotState.ALLCONFIRM]
    ∧ (FinishedBallotStore env c w).world.isaac.LatestVotingBasis = c.Ballot.VotingBasis
    ∧ c.Ballot.VotingBasis.Index ∈ (FinishedBallotStore env c w).world.isaac.LatestRounds
    ∧ (∀ e ∈ (FinishedBallotStore env c w).world.isaac.RunningRounds,
        e.2.VotingBasis.Height ≠ c.Ballot.VotingBasis.Height)
    ∧ (FinishedBallotStore env c w).err =
        some (Err.StopCloseConsensus "ballot got consensus and will be stored")
    ∧ (∃ e, (FinishedBallotStore env c w).err = some e ∧ e.isStop = true) := by
  have hb := (saveBlock_frame env c w).1
  obtain ⟨ln, isNew, b, vh, vf, fvh, lus⟩ := c
  simp only at hfin hyes hb
  subst hfin
  subst hyes
  unfold FinishedBallotStore
  rcases hs : saveBlock env _ w with ⟨c1, w1, e1⟩
  rw [hs] at hsave hb
  simp only at hsave hb
  subst hsave
  refine ⟨?_, rfl, ?_, ?_, rfl, _, rfl, rfl⟩
  · rw [← hb]
    rfl
  · exact SetLatestVotingBasis_mem _ _
  · exact RemoveRunningRoundsWithSameHeight_none _ _

/-- C1 at the test network: the ballot of P0 with `[tx_a]` is stored at P3. -/
theorem FinishedBallotStore_yes_stored_witness :
    (Fixture.checker Hole.YES).VotingFinished = true
    ∧ (saveBlock Fixture.env (Fixture.checker Hole.YES) Fixture.world).err = none
    ∧ Fixture.basis.Index ∈
        (FinishedBallotStore Fixture.env (Fixture.checker Hole.YES)
          Fixture.world).world.isaac.LatestRounds
    ∧ (FinishedBallotStore Fixture.env (Fixture.checker Hole.YES) Fixture.world).err =
        some (Err.StopCloseConsensus "ballot got consensus and will be stored") :=
  ⟨by decide, by decide,
    (FinishedBallotStore_yes_stored Fixture.env (Fixture.checker Hole.YES) Fixture.world
      (by decide) (by decide) (by decide)).2.2.1,
    (FinishedBallotStore_yes_stored Fixture.env (Fixture.checker Hole.YES) Fixture.world
      (by decide) (by decide) (by decide)).2.2.2.2.1⟩

/-- C2: with `VotingFinished` and `FinishedVotingHole = YES`, when `saveBlock`
fails with an error `FinishedBallotStore` returns that error; no block record
is added or changed under any block key, no block is handed to the saving
operations, the transaction pool is unchanged, no transition is requested and
the ISAAC state (latest voting basis, finished rounds, running rounds) and
the state manager are unchanged. -/
theorem FinishedBallotStore_yes_save_fails (env : Env) (c : BallotChecker) (w : World) (e : Err)
    (hfin : c.VotingFinished = true) (hyes : c.FinishedVotingHole = Hole.YES)
    (hfail : (saveBlock env c w).err = some e) :
    (FinishedBallotStore env c w).err = some e
    ∧ (∀ h, GetBlock (FinishedBallotStore env c w).world.storage h = GetBlock w.storage h)
    ∧ (∀ blk,
        Event.SavingBlockOperationsSave blk ∈ (FinishedBallotStore env c w).world.events →
        Event.SavingBlockOperationsSave blk ∈ w.events)
    ∧ (FinishedBallotStore env c w).world.TransactionPool = w.TransactionPool
    ∧ (∀ basis state,
        Event.TransitISAACState basis state ∈ (FinishedBallotStore env c w).world.events →
        Event.TransitISAACState basis state ∈ w.events)
    ∧ (FinishedBallotStore env c w).world.isaac = w.isaac
    ∧ (FinishedBallotStore env c w).world.isaacStateManager = w.isaacStateManager := by
  obtain ⟨-, -, hp, hi, hm⟩ := saveBlock_frame env c w
  obtain ⟨hg, evs, hev, hall⟩ := saveBlock_fail_frame env c w e hfail
  have hout : FinishedBallotStore env c w = saveBlock env c w := by
    unfold FinishedBallotStore
    rcases hs : saveBlock env c w with ⟨c1, w1, e1⟩
    rw [hs] at hfail
    simp only at hfail
    subst hfail
    simp [hfin, hyes]
  rw [hout]
  refine ⟨hfail, hg, ?_, hp, ?_, hi, hm⟩
  · intro blk hmem
    rw [hev] at hmem
    rcases List.mem_append.1 hmem with h | h
    · exact h
    · have := hall _ h
      simp [Event.isFetchOrBatch] at this
  · intro basis state hmem
    rw [hev] at hmem
    rcases List.mem_append.1 hmem with h | h
    · exact h
    · have := hall _ h
      simp [Event.isFetchOrBatch] at this

/-- C2 at the test network with a failing `Commit`: the error comes back and
`tx_a` is still pooled. -/
theorem FinishedBallotStore_yes_save_fails_witness :
    (saveBlock Fixture.envCommitFails (Fixture.checker Hole.YES) Fixture.world).err =
        some (Err.Other "commit failed")
    ∧ (FinishedBallotStore Fixture.envCommitFails (Fixture.checker Hole.YES) Fixture.world).err =
        some (Err.Other "commit failed")
    ∧ (FinishedBallotStore Fixture.envCommitFails (Fixture.checker Hole.YES)
        Fixture.world).world.TransactionPool = Fixture.world.TransactionPool :=
  ⟨by decide,
    (FinishedBallotStore_yes_save_fails Fixture.envCommitFails (Fixture.checker Hole.YES)
      Fixture.world (Err.Other "commit failed") (by decide) (by decide) (by decide)).1,
    (FinishedBallotStore_yes_save_fails Fixture.envCommitFails (Fixture.checker Hole.YES)
      Fixture.world (Err.Other "commit failed") (by decide) (by decide) (by decide)).2.2.2.1⟩

/-- C3: with `VotingFinished` and `FinishedVotingHole` NO or EXP,
`FinishedBallotStore` increments the round of the state manager by one, sets
the latest voting basis to the basis of the ballot, leaves no running round at the
basis height and returns the stop sentinel; storage, transaction pool and the
list of collaborator calls (so no batch, no stored block) are unchanged. -/
theorem FinishedBallotStore_no_exp_dropped (env : Env) (c : BallotChecker) (w : World)
    (hfin : c.VotingFinished = true)
    (hhole : c.FinishedVotingHole = Hole.NO ∨ c.FinishedVotingHole = Hole.EXP) :
    (FinishedBallotStore env c w).world.isaacStateManager.Round = w.isaacStateManager.Round + 1
    ∧ (FinishedBallotStore env c w).world.isaacStateManager.Height = w.isaacStateManager.Height
    ∧ (FinishedBallotStore env c w).world.isaac.LatestVotingBasis = c.Ballot.VotingBasis
    ∧ (∀ e ∈ (FinishedBallotStore env c w).world.isaac.RunningRounds,
        e.2.VotingBasis.Height ≠ c.Ballot.VotingBasis.Height)
    ∧ (FinishedBallotStore env c w).err = some (Err.StopCloseConsensus "ballot got consensus")
    ∧ (∃ e, (FinishedBallotStore env c w).err = some e ∧ e.isStop = true)
    ∧ (FinishedBallotStore env c w).world.storage = w.storage
    ∧ (FinishedBallotStore env c w).world.events = w.events
    ∧ (FinishedBallotStore env c w).world.TransactionPool = w.TransactionPool := by
  obtain ⟨ln, isNew, b, vh, vf, fvh, lus⟩ := c
  simp only at hfin hhole
  subst hfin
  unfold FinishedBallotStore
  rcases hhole with h | h <;> subst h <;>
    exact ⟨rfl, rfl, rfl, RemoveRunningRoundsWithSameHeight_none _ _, rfl, ⟨_, rfl, rfl⟩,
      rfl, rfl, rfl⟩

/-- C3 at the test network: a NO result moves P3 from round 0 to round 1. -/
theorem FinishedBallotStore_no_exp_dropped_witness :
    (Fixture.checker Hole.NO).VotingFinished = true
    ∧ (FinishedBallotStore Fixture.env (Fixture.checker Hole.NO)
        Fixture.world).world.isaacStateManager.Round = 0 + 1
    ∧ (FinishedBallotStore Fixture.env (Fixture.checker Hole.NO)
        Fixture.world).world.TransactionPool = Fixture.world.TransactionPool :=
  ⟨by decide,
    (FinishedBallotStore_no_exp_dropped Fixture.env (Fixture.checker Hole.NO) Fixture.world
      (by decide) (Or.inl (by decide))).1,
    (FinishedBallotStore_no_exp_dropped Fixture.env (Fixture.checker Hole.NO) Fixture.world
      (by decide) (Or.inl (by decide))).2.2.2.2.2.2.2.2⟩

/-- C4: with `VotingFinished` and `FinishedVotingHole = NOTYET`,
`FinishedBallotStore` returns an error that is not the stop sentinel and
leaves the checker and the whole node state (round, latest basis, running
rounds, storage, pool, collaborator calls) unchanged. -/
theorem FinishedBallotStore_notyet_fails (env : Env) (c : BallotChecker) (w : World)
    (hfin : c.VotingFinished = true) (hhole : c.FinishedVotingHole = Hole.NOTYET) :
    (FinishedBallotStore env c w).err = some (Err.New "invalid voting.Hole, `NOTYET`")
    ∧ (∃ e, (FinishedBallotStore env c w).err = some e ∧ e.isStop = false)
    ∧ (FinishedBallotStore env c w).world = w
    ∧ (FinishedBallotStore env c w).checker = c := by
  obtain ⟨ln, isNew, b, vh, vf, fvh, lus⟩ := c
  simp only at hfin hhole
  subst hfin
  subst hhole
  exact ⟨rfl, ⟨_, rfl, rfl⟩, rfl, rfl⟩

/-- C4 at the test network. -/
theorem FinishedBallotStore_notyet_fails_witness :
    (Fixture.checker Hole.NOTYET).VotingFinished = true
    ∧ (FinishedBallotStore Fixture.env (Fixture.checker Hole.NOTYET) Fixture.world).world =
        Fixture.world :=
  ⟨by decide,
    (FinishedBallotStore_notyet_fails Fixture.env (Fixture.checker Hole.NOTYET) Fixture.world
      (by decide) (by decide)).2.2.1⟩

/-! ## SYNC check -/

/-- C5, as stated, fails: an ACCEPT/YES ballot of the elected proposer whose
basis height is `latestBlock.height + 1` is handled as sync; the check does
not return nil and the peer-height map changes. -/
theorem BallotCheckSYNC_next_height_counterexample :
    (Fixture.ballotAt 2).VotingBasis.Height ≤ Fixture.world.isaac.LatestBlock.Height + 1
    ∧ (BallotCheckSYNC Fixture.env (Fixture.fresh (Fixture.ballotAt 2)) Fixture.world).err =
        some (Err.StopCloseConsensus "ballot got consensus")
    ∧ (BallotCheckSYNC Fixture.env (Fixture.fresh (Fixture.ballotAt 2))
        Fixture.world).world.isaac.nodesHeight = [("P1", 2)]
    ∧ ¬ ((BallotCheckSYNC Fixture.env (Fixture.fresh (Fixture.ballotAt 2)) Fixture.world).err =
          none
        ∧ (BallotCheckSYNC Fixture.env (Fixture.fresh (Fixture.ballotAt 2)) Fixture.world).world =
          Fixture.world) := by
  decide

/-- C5, amended: a ballot whose basis height is at most `latestBlock.height`
makes `BallotCheckSYNC` return nil with the checker and the whole node state
unchanged; so the check does anything else only for a basis height above
`latestBlock.height`. -/
theorem BallotCheckSYNC_in_consensus (env : Env) (c : BallotChecker) (w : World)
    (hle : c.Ballot.VotingBasis.Height ≤ w.isaac.LatestBlock.Height) :
    (BallotCheckSYNC env c w).err = none
    ∧ (BallotCheckSYNC env c w).world = w
    ∧ (BallotCheckSYNC env c w).checker = c := by
  unfold BallotCheckSYNC
  simp only [ge_iff_le, hle, if_true]
  exact ⟨trivial, trivial, trivial⟩

/-- C5, amended, at the test network: a ballot at the height of the latest block. -/
theorem BallotCheckSYNC_in_consensus_witness :
    (Fixture.ballotAt 1).VotingBasis.Height ≤ Fixture.world.isaac.LatestBlock.Height
    ∧ (BallotCheckSYNC Fixture.env (Fixture.fresh (Fixture.ballotAt 1)) Fixture.world).world =
        Fixture.world :=
  ⟨by decide,
    (BallotCheckSYNC_in_consensus Fixture.env (Fixture.fresh (Fixture.ballotAt 1)) Fixture.world
      (by decide)).2.1⟩

theorem deferLatestBallot_frame (b : Ballot) (syncHeight : Nat) (w : World) :
    (deferLatestBallot b syncHeight w).events = w.events
    ∧ (deferLatestBallot b syncHeight w).storage = w.storage
    ∧ (deferLatestBallot b syncHeight w).TransactionPool = w.TransactionPool := by
  unfold deferLatestBallot
  split <;> exact ⟨rfl, rfl, rfl⟩

/-- C6: for a ballot that passes the SYNC gates and a sync target
`(syncHeight, nodeAddrs)` returned by `GetSyncInfo` with
`latestHeight < syncHeight - 1` (Go `uint64` subtraction), the only
collaborator call `BallotCheckSYNC` makes is `StartSync(syncHeight, nodeAddrs)`:
no ballot is finalized, no transition is requested, storage and pool are
unchanged, and the stop sentinel is returned. -/
theorem BallotCheckSYNC_starts_sync (env : Env) (c : BallotChecker) (w : World)
    (syncHeight : Nat) (nodeAddrs : List String)
    (hheight : w.isaac.LatestBlock.Height < c.Ballot.VotingBasis.Height)
    (hacc : isBallotAcceptYes c.Ballot = true)
    (hprop : hasBallotValidProposer env c.Ballot = true)
    (hsync : env.GetSyncInfo (recordPeer w.isaac c.Ballot) = .ok (syncHeight, nodeAddrs))
    (hlt : w.isaac.LatestBlock.Height < subUint64 syncHeight 1) :
    (BallotCheckSYNC env c w).world.events = w.events ++ [Event.StartSync syncHeight nodeAddrs]
    ∧ (BallotCheckSYNC env c w).world.storage = w.storage
    ∧ (BallotCheckSYNC env c w).world.TransactionPool = w.TransactionPool
    ∧ (BallotCheckSYNC env c w).err = some (Err.StopCloseConsensus "ballot makes node in sync")
    ∧ (∃ e, (BallotCheckSYNC env c w).err = some e ∧ e.isStop = true) := by
  have h1 : ¬ (w.isaac.LatestBlock.Height ≥ c.Ballot.VotingBasis.Height) := by omega
  have hout : BallotCheckSYNC env c w =
      ⟨c, deferLatestBallot c.Ballot syncHeight
        (({ w with isaac := recordPeer w.isaac c.Ballot } : World).emit
          (Event.StartSync syncHeight nodeAddrs)),
        some (Err.StopCloseConsensus "ballot makes node in sync")⟩ := by
    unfold BallotCheckSYNC
    simp only [h1, if_false, hacc, hprop, Bool.not_true, Bool.false_eq_true, hsync, hlt, if_true]
  rw [hout]
  obtain ⟨he, hs, hp⟩ := deferLatestBallot_frame c.Ballot syncHeight
    (({ w with isaac := recordPeer w.isaac c.Ballot } : World).emit
      (Event.StartSync syncHeight nodeAddrs))
  exact ⟨he, hs, hp, rfl, _, rfl, rfl⟩

/-- C6 at the test network: P3 at height 1 sees an ACCEPT/YES ballot at height 5. -/
theorem BallotCheckSYNC_starts_sync_witness :
    Fixture.world.isaac.LatestBlock.Height < subUint64 5 1
    ∧ (BallotCheckSYNC Fixture.env (Fixture.fresh (Fixture.ballotAt 5))
        Fixture.world).world.events =
        [Event.StartSync 5 ["P1"]]
    ∧ (BallotCheckSYNC Fixture.env (Fixture.fresh (Fixture.ballotAt 5)) Fixture.world).err =
        some (Err.StopCloseConsensus "ballot makes node in sync") :=
  ⟨by decide,
    (BallotCheckSYNC_starts_sync Fixture.env (Fixture.fresh (Fixture.ballotAt 5)) Fixture.world
      5 ["P1"] (by decide) (by decide) (by decide) rfl (by decide)).1,
    (BallotCheckSYNC_starts_sync Fixture.env (Fixture.fresh (Fixture.ballotAt 5)) Fixture.world
      5 ["P1"] (by decide) (by decide) (by decide) rfl (by decide)).2.2.2.1⟩

/-- C7: for a ballot that passes the SYNC gates and a sync target with
`latestHeight = syncHeight - 1`, `BallotCheckSYNC` first finalizes the cached
`LatestBallot` (the incoming ballot itself when the slot was empty) and then
the incoming ballot, on the storage the first call left.  If the first call
fails its error is returned after that one call; if the second fails its
error is returned after the two calls; otherwise the calls are followed by
`SetConsensus` and the request to move to ALLCONFIRM for the basis of the ballot,
and the stop sentinel is returned.  `StartSync` is in none of the three call
lists. -/
theorem BallotCheckSYNC_off_by_one (env : Env) (c : BallotChecker) (w : World)
    (syncHeight : Nat) (nodeAddrs : List String)
    (hheight : w.isaac.LatestBlock.Height < c.Ballot.VotingBasis.Height)
    (hacc : isBallotAcceptYes c.Ballot = true)
    (hprop : hasBallotValidProposer env c.Ballot = true)
    (hsync : env.GetSyncInfo (recordPeer w.isaac c.Ballot) = .ok (syncHeight, nodeAddrs))
    (heq : w.isaac.LatestBlock.Height = subUint64 syncHeight 1) :
    (∀ e, (env.finishBallot w.storage (recordPeer w.isaac c.Ballot).LatestBallot
          w.TransactionPool).2 = some e →
        (BallotCheckSYNC env c w).err = some e
        ∧ (BallotCheckSYNC env c w).world.events =
            w.events ++ [Event.finishBallot (recordPeer w.isaac c.Ballot).LatestBallot])
    ∧ (∀ e, (env.finishBallot w.storage (recordPeer w.isaac c.Ballot).LatestBallot
          w.TransactionPool).2 = none →
        (env.finishBallot (env.finishBallot w.storage (recordPeer w.isaac c.Ballot).LatestBallot
          w.TransactionPool).1 c.Ballot w.TransactionPool).2 = some e →
        (BallotCheckSYNC env c w).err = some e
        ∧ (BallotCheckSYNC env c w).world.events =
            w.events ++ [Event.finishBallot (recordPeer w.isaac c.Ballot).LatestBallot,
              Event.finishBallot c.Ballot])
    ∧ ((env.finishBallot w.storage (recordPeer w.isaac c.Ballot).LatestBallot
          w.TransactionPool).2 = none →
        (env.finishBallot (env.finishBallot w.storage (recordPeer w.isaac c.Ballot).LatestBallot
          w.TransactionPool).1 c.Ballot w.TransactionPool).2 = none →
        (BallotCheckSYNC env c w).err = some (Err.StopCloseConsensus "ballot got consensus")
        ∧ (BallotCheckSYNC env c w).world.events =
            w.events ++ [Event.finishBallot (recordPeer w.isaac c.Ballot).LatestBallot,
              Event.finishBallot c.Ballot, Event.SetConsensus,
              Event.TransitISAACState c.Ballot.VotingBasis BallotState.ALLCONFIRM]) := by
  have h1 : ¬ (w.isaac.LatestBlock.Height ≥ c.Ballot.VotingBasis.Height) := by omega
  have h2 : ¬ (w.isaac.LatestBlock.Height < subUint64 syncHeight 1) := by omega
  have h3 := eq_true heq
  refine ⟨?_, ?_, ?_⟩
  · intro e he
    have hout : BallotCheckSYNC env c w =
        ⟨c, deferLatestBallot c.Ballot syncHeight
          (callFinishBallot env (recordPeer w.isaac c.Ballot).LatestBallot
            { w with isaac := recordPeer w.isaac c.Ballot }).1, some e⟩ := by
      unfold BallotCheckSYNC
      simp only [h1, if_false, hacc, hprop, Bool.not_true, Bool.false_eq_true, hsync, h2, h3,
        if_true, callFinishBallot, he]
    rw [hout]
    exact ⟨rfl, (deferLatestBallot_frame _ _ _).1⟩
  · intro e he1 he2
    have hout : BallotCheckSYNC env c w =
        ⟨c, deferLatestBallot c.Ballot syncHeight
          (callFinishBallot env c.Ballot
            (callFinishBallot env (recordPeer w.isaac c.Ballot).LatestBallot
              { w with isaac := recordPeer w.isaac c.Ballot }).1).1, some e⟩ := by
      unfold BallotCheckSYNC
      simp only [h1, if_false, hacc, hprop, Bool.not_true, Bool.false_eq_true, hsync, h2, h3,
        if_true, callFinishBallot, he1, World.emit, he2]
    rw [hout]
    refine ⟨rfl, ?_⟩
    rw [(deferLatestBallot_frame _ _ _).1]
    simp [callFinishBallot, World.emit]
  · intro he1 he2
    have hout : BallotCheckSYNC env c w =
        ⟨c, deferLatestBallot c.Ballot syncHeight
          (((callFinishBallot env c.Ballot
            (callFinishBallot env (recordPeer w.isaac c.Ballot).LatestBallot
              { w with isaac := recordPeer w.isaac c.Ballot }).1).1.emit Event.SetConsensus).emit
            (Event.TransitISAACState c.Ballot.VotingBasis BallotState.ALLCONFIRM)),
          some (Err.StopCloseConsensus "ballot got consensus")⟩ := by
      unfold BallotCheckSYNC
      simp only [h1, if_false, hacc, hprop, Bool.not_true, Bool.false_eq_true, hsync, h2, h3,
        if_true, callFinishBallot, he1, World.emit, he2]
    rw [hout]
    refine ⟨rfl, ?_⟩
    rw [(deferLatestBallot_frame _ _ _).1]
    simp [callFinishBallot, World.emit]

/-- C7 at the test network: P3 at height 1 holds the ballot of height 1 as
`LatestBallot` and sees an ACCEPT/YES ballot at height 2. -/
theorem BallotCheckSYNC_off_by_one_witness :
    Fixture.worldCached.isaac.LatestBlock.Height = subUint64 2 1
    ∧ (BallotCheckSYNC Fixture.env (Fixture.fresh (Fixture.ballotAt 2)) Fixture.worldCached).err =
        some (Err.StopCloseConsensus "ballot got consensus")
    ∧ (BallotCheckSYNC Fixture.env (Fixture.fresh (Fixture.ballotAt 2))
        Fixture.worldCached).world.events =
        [Event.finishBallot Fixture.ballot, Event.finishBallot (Fixture.ballotAt 2),
          Event.SetConsensus,
          Event.TransitISAACState (Fixture.ballotAt 2).VotingBasis BallotState.ALLCONFIRM] :=
  ⟨by decide,
    ((BallotCheckSYNC_off_by_one Fixture.env (Fixture.fresh (Fixture.ballotAt 2))
      Fixture.worldCached 2 ["P1"] (by decide) (by decide) (by decide) rfl
      (by decide)).2.2 (by decide) (by decide)).1,
    ((BallotCheckSYNC_off_by_one Fixture.env (Fixture.fresh (Fixture.ballotAt 2))
      Fixture.worldCached 2 ["P1"] (by decide) (by decide) (by decide) rfl
      (by decide)).2.2 (by decide) (by decide)).2⟩

/-- C8: a ballot that is not ACCEPT with vote YES, or whose proposer is not
`SelectProposer(basis.Height, basis.Round)`, makes `BallotCheckSYNC` return
nil with the checker and the whole node state unchanged (latest ballot,
peer-height map, storage, and no `StartSync` or `finishBallot` call), whatever
the height of the ballot. -/
theorem BallotCheckSYNC_gates (env : Env) (c : BallotChecker) (w : World)
    (hgate : ¬ (c.Ballot.State = BallotState.ACCEPT ∧ c.Ballot.Vote = Hole.YES)
      ∨ c.Ballot.Proposer ≠
          env.SelectProposer c.Ballot.VotingBasis.Height c.Ballot.VotingBasis.Round) :
    (BallotCheckSYNC env c w).err = none
    ∧ (BallotCheckSYNC env c w).world = w
    ∧ (BallotCheckSYNC env c w).checker = c := by
  unfold BallotCheckSYNC
  simp only
  split
  · exact ⟨rfl, rfl, rfl⟩
  · split
    · exact ⟨rfl, rfl, rfl⟩
    · rename_i hacc
      split
      · exact ⟨rfl, rfl, rfl⟩
      · rename_i hprop
        exfalso
        simp only [isBallotAcceptYes, hasBallotValidProposer, Bool.not_eq_true, Bool.not_eq_false,
          Bool.and_eq_true, beq_iff_eq, Bool.not_eq_eq_eq_not, Bool.not_true] at hacc hprop
        rcases hgate with h | h
        · exact h hacc
        · exact h hprop

/-- C8 at the test network: a SIGN ballot four heights ahead changes nothing. -/
theorem BallotCheckSYNC_gates_witness :
    (BallotCheckSYNC Fixture.env
      (Fixture.fresh { Fixture.ballotAt 5 with State := BallotState.SIGN }) Fixture.world).world =
        Fixture.world
    ∧ (BallotCheckSYNC Fixture.env
      (Fixture.fresh { Fixture.ballotAt 5 with State := BallotState.SIGN }) Fixture.world).err =
        none :=
  ⟨(BallotCheckSYNC_gates Fixture.env
      (Fixture.fresh { Fixture.ballotAt 5 with State := BallotState.SIGN }) Fixture.world
      (Or.inl (by decide))).2.1,
    (BallotCheckSYNC_gates Fixture.env
      (Fixture.fresh { Fixture.ballotAt 5 with State := BallotState.SIGN }) Fixture.world
      (Or.inl (by decide))).1⟩

/-! ## Same proposer and INIT validation -/

/-- C9, as stated, fails: the running round of the basis exists and elected P0,
the ballot names another proposer, and `BallotIsSameProposer` returns nil
without setting `VotingHole` to NO, (a) when the ballot is the own proposal
of the local node and (b) when `VotingHole` was already decided on entry. -/
theorem BallotIsSameProposer_counterexample :
    (Fixture.world.isaac.RunningRounds.lookup Fixture.ownBallot.VotingBasis.Index =
        some Fixture.runningRound
      ∧ Fixture.runningRound.Proposer ≠ Fixture.ownBallot.Proposer
      ∧ (BallotIsSameProposer (Fixture.fresh Fixture.ownBallot) Fixture.world).checker.VotingHole =
          Hole.NOTYET
      ∧ (BallotIsSameProposer (Fixture.fresh Fixture.ownBallot) Fixture.world).err = none)
    ∧ (Fixture.world.isaac.RunningRounds.lookup (Fixture.initBallot []).VotingBasis.Index =
        some Fixture.runningRound
      ∧ Fixture.runningRound.Proposer ≠ ({ Fixture.initBallot [] with Proposer := "P1" } : Ballot).Proposer
      ∧ (BallotIsSameProposer
          { Fixture.fresh { Fixture.initBallot [] with Proposer := "P1" } with VotingHole := Hole.YES }
          Fixture.world).checker.VotingHole = Hole.YES
      ∧ (BallotIsSameProposer
          { Fixture.fresh { Fixture.initBallot [] with Proposer := "P1" } with VotingHole := Hole.YES }
          Fixture.world).err = none) := by
  decide

/-- C9, amended: when `VotingHole` is NOTYET on entry and the ballot is not
the own proposal of the local node (source = proposer = local node address), a
ballot whose running round exists and whose proposer differs from the
proposer elected for that running round makes `BallotIsSameProposer` set
`VotingHole = NO` and return nil, with the node state unchanged; when
`VotingHole` is not NOTYET on entry, and when the ballot is the own proposal
of the local node, it returns nil and leaves the checker, `VotingHole`
included, and the node state as they were. -/
theorem BallotIsSameProposer_votes_no (c : BallotChecker) (w : World) :
    (∀ rr : RunningRound, c.VotingHole = Hole.NOTYET →
      ¬ (c.Ballot.Source = c.Ballot.Proposer ∧ c.Ballot.Source = w.NodeAddress) →
      w.isaac.RunningRounds.lookup c.Ballot.VotingBasis.Index = some rr →
      rr.Proposer ≠ c.Ballot.Proposer →
      (BallotIsSameProposer c w).checker.VotingHole = Hole.NO
      ∧ (BallotIsSameProposer c w).err = none
      ∧ (BallotIsSameProposer c w).world = w)
    ∧ (c.VotingHole ≠ Hole.NOTYET →
      BallotIsSameProposer c w = ⟨c, w, none⟩
      ∧ (BallotIsSameProposer c w).err = none
      ∧ (BallotIsSameProposer c w).checker.VotingHole = c.VotingHole)
    ∧ ((c.Ballot.Source = c.Ballot.Proposer ∧ c.Ballot.Source = w.NodeAddress) →
      BallotIsSameProposer c w = ⟨c, w, none⟩
      ∧ (BallotIsSameProposer c w).err = none
      ∧ (BallotIsSameProposer c w).checker.VotingHole = c.VotingHole) := by
  refine ⟨?_, ?_, ?_⟩
  · intro rr hnotyet hown hrr hdiff
    have h1 : (c.Ballot.IsFromProposer && c.Ballot.Source == w.NodeAddress) = false := by
      simpa [Ballot.IsFromProposer] using hown
    have h2 : w.isaac.HasRunningRound c.Ballot.VotingBasis.Index = true := by
      simp [ISAAC.HasRunningRound, hrr]
    have h3 : w.isaac.HasSameProposer c.Ballot = false := by
      simp [ISAAC.HasSameProposer, hrr, hdiff]
    have hout : BallotIsSameProposer c w = ⟨{ c with VotingHole := Hole.NO }, w, none⟩ := by
      unfold BallotIsSameProposer
      simp [hnotyet, h1, h2, h3]
    rw [hout]
    exact ⟨rfl, rfl, rfl⟩
  · intro hdecided
    have hout : BallotIsSameProposer c w = ⟨c, w, none⟩ := by
      unfold BallotIsSameProposer
      simp [hdecided]
    rw [hout]
    exact ⟨rfl, rfl, rfl⟩
  · intro hown
    have h1 : (c.Ballot.IsFromProposer && c.Ballot.Source == w.NodeAddress) = true := by
      simpa [Ballot.IsFromProposer] using hown
    have hout : BallotIsSameProposer c w = ⟨c, w, none⟩ := by
      unfold BallotIsSameProposer
      by_cases hn : c.VotingHole = Hole.NOTYET
      · simp [hn, h1]
      · simp [hn]
    rw [hout]
    exact ⟨rfl, rfl, rfl⟩

/-- C9, amended, at the test network: P3 votes NO on a ballot of P1 that names
P1 as proposer while P0 is elected; on its own proposal, and on the same
ballot of P1 when it already voted YES, P3 returns nil and keeps its vote. -/
theorem BallotIsSameProposer_votes_no_witness :
    ((BallotIsSameProposer
      (Fixture.fresh { Fixture.initBallot [] with Source := "P1", Proposer := "P1" })
      Fixture.world).checker.VotingHole = Hole.NO
    ∧ (BallotIsSameProposer
      (Fixture.fresh { Fixture.initBallot [] with Source := "P1", Proposer := "P1" })
      Fixture.world).err = none)
    ∧ BallotIsSameProposer (Fixture.fresh Fixture.ownBallot) Fixture.world =
        ⟨Fixture.fresh Fixture.ownBallot, Fixture.world, none⟩
    ∧ BallotIsSameProposer
        { Fixture.fresh { Fixture.initBallot [] with Source := "P1", Proposer := "P1" } with
          VotingHole := Hole.YES } Fixture.world =
        ⟨{ Fixture.fresh { Fixture.initBallot [] with Source := "P1", Proposer := "P1" } with
          VotingHole := Hole.YES }, Fixture.world, none⟩ :=
  ⟨⟨((BallotIsSameProposer_votes_no
      (Fixture.fresh { Fixture.initBallot [] with Source := "P1", Proposer := "P1" })
      Fixture.world).1 Fixture.runningRound (by decide) (by decide) (by decide) (by decide)).1,
    ((BallotIsSameProposer_votes_no
      (Fixture.fresh { Fixture.initBallot [] with Source := "P1", Proposer := "P1" })
      Fixture.world).1 Fixture.runningRound (by decide) (by decide) (by decide) (by decide)).2.1⟩,
    ((BallotIsSameProposer_votes_no (Fixture.fresh Fixture.ownBallot) Fixture.world).2.2
      (by decide)).1,
    ((BallotIsSameProposer_votes_no
      { Fixture.fresh { Fixture.initBallot [] with Source := "P1", Proposer := "P1" } with
        VotingHole := Hole.YES } Fixture.world).2.1 (by decide)).1⟩

theorem RunChecker_of_allChecksReturnNil (fs : List TransactionCheckerFunc) :
    ∀ (tc : BallotTransactionChecker) (w : World), allChecksReturnNil fs tc w →
      RunChecker fs tc w = ((afterChecks fs tc w).1, (afterChecks fs tc w).2, none) := by
  induction fs with
  | nil => intro tc w _; rfl
  | cons f rest ih =>
    intro tc w hall
    obtain ⟨h1, h2⟩ := hall
    have ih2 := ih _ _ h2
    rcases hf : f tc w with ⟨tc1, w1, e⟩
    rw [hf] at h1 ih2
    simp only at h1 ih2
    subst h1
    simp only [RunChecker, afterChecks, hf]
    exact ih2

theorem RunChecker_append_failing (pre : List TransactionCheckerFunc) :
    ∀ (tc : BallotTransactionChecker) (w : World) (f : TransactionCheckerFunc)
      (post : List TransactionCheckerFunc) (e : Err),
      allChecksReturnNil pre tc w →
      (f (afterChecks pre tc w).1 (afterChecks pre tc w).2).2.2 = some e →
      RunChecker (pre ++ f :: post) tc w =
        f (afterChecks pre tc w).1 (afterChecks pre tc w).2 := by
  induction pre with
  | nil =>
    intro tc w f post e _ herr
    simp only [afterChecks] at herr
    rcases hf : f tc w with ⟨tc1, w1, e1⟩
    rw [hf] at herr
    simp only at herr
    subst herr
    simp only [List.nil_append, RunChecker, afterChecks, hf]
  | cons g rest ih =>
    intro tc w f post e hall herr
    obtain ⟨h1, h2⟩ := hall
    simp only [afterChecks] at herr
    have ih2 := ih _ _ f post e h2 herr
    rcases hg : g tc w with ⟨tc1, w1, e1⟩
    rw [hg] at h1 ih2
    simp only at h1 ih2
    subst h1
    simp only [List.cons_append, RunChecker, afterChecks, hg]
    exact ih2

theorem INITBallotValidateTransactions_of_run (env : Env) (c : BallotChecker) (w : World)
    (hfin : c.VotingFinished = false) (hnotyet : c.VotingHole = Hole.NOTYET)
    (hvoted : env.IsVotedByNode w.isaac c.Ballot c.LocalNode = (false, none)) :
    (INITBallotValidateTransactions env c w).err = none
    ∧ (INITBallotValidateTransactions env c w).checker.VotingHole ≠ Hole.NOTYET
    ∧ (((∀ e, (runTransactionsChecker env c w).2.2 = some e → e.isCheckerErrorStop = true)
          ∧ (runTransactionsChecker env c w).1.VotingHole ≠ Hole.NO) →
        (INITBallotValidateTransactions env c w).checker.VotingHole = Hole.YES)
    ∧ (((∃ e, (runTransactionsChecker env c w).2.2 = some e ∧ e.isCheckerErrorStop = false)
          ∨ (runTransactionsChecker env c w).1.VotingHole = Hole.NO) →
        (INITBallotValidateTransactions env c w).checker.VotingHole = Hole.NO) := by
  unfold INITBallotValidateTransactions
  simp only [hfin, hvoted, hnotyet, Bool.false_eq_true, if_false, Option.isSome_none,
    Bool.or_self, ne_eq, not_true_eq_false]
  rcases hr : runTransactionsChecker env c w with ⟨tc, w1, e⟩
  cases e with
  | none =>
    by_cases hno : tc.VotingHole = Hole.NO
    · simp [hno]
    · simp [hno]
  | some e =>
    by_cases hstop : e.isCheckerErrorStop = true
    · by_cases hno : tc.VotingHole = Hole.NO
      · simp [hstop, hno]
      · simp [hstop, hno]
    · simp [hstop]

/-- C10: with `VotingFinished = false`, `VotingHole = NOTYET` and
`IsVotedByNode` reporting that the local node has not voted,
`INITBallotValidateTransactions` returns nil and leaves `VotingHole` YES or NO,
never NOTYET.  With the checks of `INITBallotTransactionCheckerFuncs` run in
list order on the sub-checker built for the ballot: when every check returns
nil, `VotingHole` is YES unless the sub-checker was left voting NO, and then
it is NO; when the checks before a check `f` return nil and `f` returns an
error, `VotingHole` is NO if the error is not the stop sentinel or `f` left
the sub-checker voting NO, and YES otherwise, whatever checks follow `f`.
The same holds in terms of the result of the run of the sub-pipeline. -/
theorem INITBallotValidateTransactions_votes (env : Env) (c : BallotChecker) (w : World)
    (hfin : c.VotingFinished = false) (hnotyet : c.VotingHole = Hole.NOTYET)
    (hvoted : env.IsVotedByNode w.isaac c.Ballot c.LocalNode = (false, none)) :
    (INITBallotValidateTransactions env c w).err = none
    ∧ (INITBallotValidateTransactions env c w).checker.VotingHole ≠ Hole.NOTYET
    ∧ (((∀ e, (runTransactionsChecker env c w).2.2 = some e → e.isCheckerErrorStop = true)
          ∧ (runTransactionsChecker env c w).1.VotingHole ≠ Hole.NO) →
        (INITBallotValidateTransactions env c w).checker.VotingHole = Hole.YES)
    ∧ (((∃ e, (runTransactionsChecker env c w).2.2 = some e ∧ e.isCheckerErrorStop = false)
          ∨ (runTransactionsChecker env c w).1.VotingHole = Hole.NO) →
        (INITBallotValidateTransactions env c w).checker.VotingHole = Hole.NO)
    ∧ (allChecksReturnNil env.INITBallotTransactionCheckerFuncs (newTransactionsChecker c) w →
        ((afterChecks env.INITBallotTransactionCheckerFuncs (newTransactionsChecker c)
              w).1.VotingHole ≠ Hole.NO →
          (INITBallotValidateTransactions env c w).checker.VotingHole = Hole.YES)
        ∧ ((afterChecks env.INITBallotTransactionCheckerFuncs (newTransactionsChecker c)
              w).1.VotingHole = Hole.NO →
          (INITBallotValidateTransactions env c w).checker.VotingHole = Hole.NO))
    ∧ (∀ (pre post : List TransactionCheckerFunc) (f : TransactionCheckerFunc) (e : Err),
        env.INITBallotTransactionCheckerFuncs = pre ++ f :: post →
        allChecksReturnNil pre (newTransactionsChecker c) w →
        (f (afterChecks pre (newTransactionsChecker c) w).1
            (afterChecks pre (newTransactionsChecker c) w).2).2.2 = some e →
        (e.isCheckerErrorStop = false →
          (INITBallotValidateTransactions env c w).checker.VotingHole = Hole.NO)
        ∧ ((f (afterChecks pre (newTransactionsChecker c) w).1
              (afterChecks pre (newTransactionsChecker c) w).2).1.VotingHole = Hole.NO →
          (INITBallotValidateTransactions env c w).checker.VotingHole = Hole.NO)
        ∧ (e.isCheckerErrorStop = true →
          (f (afterChecks pre (newTransactionsChecker c) w).1
              (afterChecks pre (newTransactionsChecker c) w).2).1.VotingHole ≠ Hole.NO →
          (INITBallotValidateTransactions env c w).checker.VotingHole = Hole.YES)) := by
  obtain ⟨h1, h2, h3, h4⟩ := INITBallotValidateTransactions_of_run env c w hfin hnotyet hvoted
  have hrun : runTransactionsChecker env c w =
      RunChecker env.INITBallotTransactionCheckerFuncs (newTransactionsChecker c) w := rfl
  refine ⟨h1, h2, h3, h4, ?_, ?_⟩
  · intro hall
    have hr := RunChecker_of_allChecksReturnNil _ _ _ hall
    rw [← hrun] at hr
    refine ⟨?_, ?_⟩
    · intro hne
      apply h3
      rw [hr]
      exact ⟨fun e he => by simp at he, hne⟩
    · intro hno
      apply h4
      rw [hr]
      exact Or.inr hno
  · intro pre post f e hfs hall herr
    have hr := RunChecker_append_failing pre _ _ f post e hall herr
    rw [← hfs, ← hrun] at hr
    refine ⟨?_, ?_, ?_⟩
    · intro hstop
      apply h4
      rw [hr]
      exact Or.inl ⟨e, herr, hstop⟩
    · intro hno
      apply h4
      rw [hr]
      exact Or.inr hno
    · intro hstop hne
      apply h3
      rw [hr]
      refine ⟨?_, hne⟩
      intro e2 he2
      rw [herr] at he2
      have : e = e2 := by simpa using he2
      rw [← this]
      exact hstop

/-- C10 at the test network: the proposal `[tx_a]` of P0 is pooled at P3, so
the check passes and P3 votes YES; the proposal `[tx_a, tx_zz]` has a hash
that is not pooled, so the check fails and P3 votes NO, still returning nil;
with a check that stops the sub-pipeline after voting NO, P3 votes NO. -/
theorem INITBallotValidateTransactions_votes_witness :
    (Fixture.fresh (Fixture.initBallot ["tx_a"])).VotingHole = Hole.NOTYET
    ∧ (INITBallotValidateTransactions Fixture.env (Fixture.fresh (Fixture.initBallot ["tx_a"]))
        Fixture.world).err = none
    ∧ (INITBallotValidateTransactions Fixture.env (Fixture.fresh (Fixture.initBallot ["tx_a"]))
        Fixture.world).checker.VotingHole = Hole.YES
    ∧ (INITBallotValidateTransactions Fixture.env
        (Fixture.fresh (Fixture.initBallot ["tx_a", "tx_zz"])) Fixture.world).err = none
    ∧ (INITBallotValidateTransactions Fixture.env
        (Fixture.fresh (Fixture.initBallot ["tx_a", "tx_zz"])) Fixture.world).checker.VotingHole =
        Hole.NO
    ∧ (INITBallotValidateTransactions
        { Fixture.env with
          INITBallotTransactionCheckerFuncs := [Fixture.checkSingle, Fixture.checkPooled] }
        (Fixture.fresh (Fixture.initBallot ["tx_a", "tx_zz"])) Fixture.world).checker.VotingHole =
        Hole.NO :=
  ⟨by decide,
    (INITBallotValidateTransactions_votes Fixture.env (Fixture.fresh (Fixture.initBallot ["tx_a"]))
      Fixture.world (by decide) (by decide) rfl).1,
    ((INITBallotValidateTransactions_votes Fixture.env (Fixture.fresh (Fixture.initBallot ["tx_a"]))
      Fixture.world (by decide) (by decide) rfl).2.2.2.2.1 ⟨by decide, trivial⟩).1 (by decide),
    (INITBallotValidateTransactions_votes Fixture.env
      (Fixture.fresh (Fixture.initBallot ["tx_a", "tx_zz"])) Fixture.world
      (by decide) (by decide) rfl).1,
    ((INITBallotValidateTransactions_votes Fixture.env
      (Fixture.fresh (Fixture.initBallot ["tx_a", "tx_zz"])) Fixture.world
      (by decide) (by decide) rfl).2.2.2.2.2 [] [] Fixture.checkPooled Err.TransactionNotFound
      rfl trivial (by decide)).1 (by decide),
    ((INITBallotValidateTransactions_votes
      { Fixture.env with
        INITBallotTransactionCheckerFuncs := [Fixture.checkSingle, Fixture.checkPooled] }
      (Fixture.fresh (Fixture.initBallot ["tx_a", "tx_zz"])) Fixture.world
      (by decide) (by decide) rfl).2.2.2.2.2 [] [Fixture.checkPooled] Fixture.checkSingle
      (Err.CheckerErrorStop "too many") rfl trivial (by decide)).2.1 (by decide)⟩

/-! ## Proposer transaction checks -/

/-- C11: for a proposer transaction carrying an inflation operation, with
`CalculateInflation(InitialBalance)` returning `expected` whenever the height
of the latest block is at most `BlockHeightEndOfInflation`,
`BallotValidateOperationBodyInflation` returns nil if and only if the target
is the common account, the initial balance is the configured one, the ratio
is the configured ratio string and the amount is `expected` while the height
is at most the end of inflation and 0 otherwise; in every other case it
returns `InvalidOperation`.  The checker and the node state are unchanged. -/
theorem BallotValidateOperationBodyInflation_iff (env : Env) (c : BallotChecker) (w : World)
    (opb : Inflation) (expected : Nat)
    (hop : env.Inflation c.Ballot.ProposerTransaction = .ok opb)
    (hcalc : w.isaac.LatestBlock.Height ≤ env.BlockHeightEndOfInflation →
      env.CalculateInflation env.InitialBalance = .ok expected) :
    ((BallotValidateOperationBodyInflation env c w).err = none ↔
        opb.Target = env.CommonAccountAddress
        ∧ opb.InitialBalance = env.InitialBalance
        ∧ opb.Ratio = env.InflationRatioString
        ∧ opb.Amount =
            (if w.isaac.LatestBlock.Height ≤ env.BlockHeightEndOfInflation then expected else 0))
    ∧ ((BallotValidateOperationBodyInflation env c w).err ≠ none →
        (BallotValidateOperationBodyInflation env c w).err = some Err.InvalidOperation)
    ∧ (BallotValidateOperationBodyInflation env c w).world = w
    ∧ (BallotValidateOperationBodyInflation env c w).checker = c := by
  unfold BallotValidateOperationBodyInflation
  simp only [hop]
  by_cases ht : opb.Target = env.CommonAccountAddress
  · by_cases hi : opb.InitialBalance = env.InitialBalance
    · by_cases hr : opb.Ratio = env.InflationRatioString
      · by_cases hh : w.isaac.LatestBlock.Height ≤ env.BlockHeightEndOfInflation
        · by_cases ha : opb.Amount = expected
          · simp [ht, hi, hr, hh, hcalc hh, ha]
          · simp [ht, hi, hr, hh, hcalc hh, ha]
        · by_cases ha : opb.Amount = 0
          · simp [ht, hi, hr, hh, ha]
          · simp [ht, hi, hr, hh, ha]
      · simp [ht, hi, hr]
    · simp [ht, hi]
  · simp [ht]

/-- C11 at the test network: the inflation of 100 for the initial balance
1000000000 at height 1 passes. -/
theorem BallotValidateOperationBodyInflation_iff_witness :
    Fixture.env.Inflation (Fixture.ballotWith (Fixture.proposerTx "COMMON" 100)).ProposerTransaction =
        .ok { Target := "COMMON", InitialBalance := 1000000000, Ratio := "0.0000001", Amount := 100 }
    ∧ (BallotValidateOperationBodyInflation Fixture.env
        (Fixture.fresh (Fixture.ballotWith (Fixture.proposerTx "COMMON" 100))) Fixture.world).err =
        none :=
  ⟨rfl,
    ((BallotValidateOperationBodyInflation_iff Fixture.env
      (Fixture.fresh (Fixture.ballotWith (Fixture.proposerTx "COMMON" 100))) Fixture.world
      { Target := "COMMON", InitialBalance := 1000000000, Ratio := "0.0000001", Amount := 100 }
      100 rfl (fun _ => rfl)).1).2 ⟨by decide, by decide, by decide, by decide⟩⟩

/-- C12: for a proposer transaction carrying a collect-tx-fee operation,
`BallotValidateOperationBodyCollectTxFee` returns `InvalidOperation` exactly
when the target of that operation differs from the common account, and nil
otherwise; for one carrying an inflation operation whose target differs from
the common account, `BallotValidateOperationBodyInflation` returns
`InvalidOperation` whatever the other fields are. -/
theorem proposerTransaction_target_common (env : Env) (c : BallotChecker) (w : World) :
    (∀ opb, env.CollectTxFee c.Ballot.ProposerTransaction = .ok opb →
      ((BallotValidateOperationBodyCollectTxFee env c w).err = some Err.InvalidOperation ↔
          opb.Target ≠ env.CommonAccountAddress)
      ∧ ((BallotValidateOperationBodyCollectTxFee env c w).err = none ↔
          opb.Target = env.CommonAccountAddress))
    ∧ (∀ opb, env.Inflation c.Ballot.ProposerTransaction = .ok opb →
      opb.Target ≠ env.CommonAccountAddress →
      (BallotValidateOperationBodyInflation env c w).err = some Err.InvalidOperation) := by
  refine ⟨?_, ?_⟩
  · intro opb hop
    unfold BallotValidateOperationBodyCollectTxFee
    simp only [hop]
    by_cases ht : opb.Target = env.CommonAccountAddress
    · simp [ht]
    · simp [ht]
  · intro opb hop ht
    unfold BallotValidateOperationBodyInflation
    simp [hop, ht]

/-- C12 at the test network: an inflation operation paying the account `MALLORY`. -/
theorem proposerTransaction_target_common_witness :
    (BallotValidateOperationBodyCollectTxFee Fixture.env
        (Fixture.fresh (Fixture.ballotWith (Fixture.proposerTx "MALLORY" 100))) Fixture.world).err =
        none
    ∧ (BallotValidateOperationBodyInflation Fixture.env
        (Fixture.fresh (Fixture.ballotWith (Fixture.proposerTx "MALLORY" 100))) Fixture.world).err =
        some Err.InvalidOperation :=
  ⟨(((proposerTransaction_target_common Fixture.env
      (Fixture.fresh (Fixture.ballotWith (Fixture.proposerTx "MALLORY" 100))) Fixture.world).1
      { Target := "COMMON", Amount := 0 } rfl).2).2 (by decide),
    (proposerTransaction_target_common Fixture.env
      (Fixture.fresh (Fixture.ballotWith (Fixture.proposerTx "MALLORY" 100))) Fixture.world).2
      { Target := "MALLORY", InitialBalance := 1000000000, Ratio := "0.0000001", Amount := 100 }
      rfl (by decide)⟩

/-! ## ACCEPT broadcast -/

/-- C13: `ACCEPTBallotBroadcast` returns nil with nothing broadcast when
`VotingFinished` is false; when `VotingFinished` is true and the running round
of the basis exists, the only call it adds is the broadcast of one ballot
whose source is the local node address, whose state is ACCEPT, whose vote is
`FinishedVotingHole` and whose basis, proposer and transactions are those of
the incoming ballot, and it returns nil; when the running round does not
exist it returns an error and the calls are unchanged. -/
theorem ACCEPTBallotBroadcast_spec (env : Env) (c : BallotChecker) (w : World) :
    (c.VotingFinished = false →
      (ACCEPTBallotBroadcast env c w).err = none ∧ (ACCEPTBallotBroadcast env c w).world = w)
    ∧ (c.VotingFinished = true → w.isaac.HasRunningRound c.Ballot.VotingBasis.Index = true →
      (ACCEPTBallotBroadcast env c w).err = none
      ∧ ∃ newBallot,
          (ACCEPTBallotBroadcast env c w).world.events = w.events ++ [Event.Broadcast newBallot]
          ∧ newBallot.Source = c.LocalNode
          ∧ newBallot.State = BallotState.ACCEPT
          ∧ newBallot.Vote = c.FinishedVotingHole
          ∧ newBallot.VotingBasis = c.Ballot.VotingBasis
          ∧ newBallot.Proposer = c.Ballot.Proposer
          ∧ newBallot.Transactions = c.Ballot.Transactions)
    ∧ (c.VotingFinished = true → w.isaac.HasRunningRound c.Ballot.VotingBasis.Index = false →
      (ACCEPTBallotBroadcast env c w).err = some (Err.New "RunningRound not found")
      ∧ (ACCEPTBallotBroadcast env c w).world = w) := by
  refine ⟨?_, ?_, ?_⟩
  · intro hf
    have hout : ACCEPTBallotBroadcast env c w = ⟨c, w, none⟩ := by
      unfold ACCEPTBallotBroadcast
      simp [hf]
    rw [hout]
    exact ⟨rfl, rfl⟩
  · intro hf hrr
    have hout : ACCEPTBallotBroadcast env c w =
        ⟨c, w.emit (Event.Broadcast
          (((c.Ballot.SetSource c.LocalNode).SetVote BallotState.ACCEPT c.FinishedVotingHole).Sign
            env c.LocalNode)), none⟩ := by
      unfold ACCEPTBallotBroadcast
      simp [hf, hrr]
    rw [hout]
    exact ⟨rfl, _, rfl, rfl, rfl, rfl, rfl, rfl, rfl⟩
  · intro hf hrr
    have hout : ACCEPTBallotBroadcast env c w =
        ⟨c, w, some (Err.New "RunningRound not found")⟩ := by
      unfold ACCEPTBallotBroadcast
      simp [hf, hrr]
    rw [hout]
    exact ⟨rfl, rfl⟩

/-- C13 at the test network: P3 broadcasts its ACCEPT ballot with the
finished vote EXP, not its own vote YES. -/
theorem ACCEPTBallotBroadcast_spec_witness :
    (Fixture.checker Hole.EXP).VotingHole = Hole.YES
    ∧ (ACCEPTBallotBroadcast Fixture.env (Fixture.checker Hole.EXP) Fixture.world).err = none
    ∧ ∃ newBallot,
        (ACCEPTBallotBroadcast Fixture.env (Fixture.checker Hole.EXP) Fixture.world).world.events =
          Fixture.world.events ++ [Event.Broadcast newBallot]
        ∧ newBallot.Source = "P3"
        ∧ newBallot.State = BallotState.ACCEPT
        ∧ newBallot.Vote = Hole.EXP
        ∧ newBallot.VotingBasis = Fixture.basis
        ∧ newBallot.Proposer = "P0"
        ∧ newBallot.Transactions = ["tx_a"] :=
  ⟨by decide,
    (ACCEPTBallotBroadcast_spec Fixture.env (Fixture.checker Hole.EXP) Fixture.world).2.1
      (by decide) (by decide)⟩

/-! ## Pool after a commit -/

theorem lookup_filter_removed {α : Type} (l : List (String × α)) (hs : List String) (h : String)
    (hmem : h ∈ hs) : (l.filter (fun e => !hs.contains e.1)).lookup h = none := by
  induction l with
  | nil => rfl
  | cons e rest ih =>
    obtain ⟨a, b⟩ := e
    by_cases ha : a ∈ hs
    · have hc : (!hs.contains a) = false := by simp [ha]
      simp only [List.filter_cons, hc, Bool.false_eq_true, if_false]
      exact ih
    · have hc : (!hs.contains a) = true := by simp [ha]
      have hne : (h == a) = false := by
        simp only [beq_eq_false_iff_ne, ne_eq]
        intro heq
        exact ha (heq ▸ hmem)
      simp only [List.filter_cons, hc, if_true, List.lookup_cons, hne]
      exact ih

theorem lookup_filter_none {α : Type} (l : List (String × α)) (p : String × α → Bool) (h : String)
    (hnone : l.lookup h = none) : (l.filter p).lookup h = none := by
  induction l with
  | nil => rfl
  | cons e rest ih =>
    obtain ⟨a, b⟩ := e
    by_cases hne : (h == a) = true
    · simp [List.lookup_cons, hne] at hnone
    · have hne2 : (h == a) = false := by simpa using hne
      simp only [List.lookup_cons, hne2] at hnone
      by_cases hp : p (a, b) = true
      · simp only [List.filter_cons, hp, if_true, List.lookup_cons, hne2]
        exact ih hnone
      · simp only [List.filter_cons, hp, Bool.false_eq_true, if_false]
        exact ih hnone

theorem Remove_Has_of_mem (p : TransactionPool) (hs : List String) (h : String) (hmem : h ∈ hs) :
    (p.Remove hs).Has h = false ∧ h ∉ (p.Remove hs).Pending := by
  unfold TransactionPool.Remove TransactionPool.Has
  simp only [lookup_filter_removed p.Pool hs h hmem, Option.isSome_none, List.mem_filter,
    true_and]
  simp [hmem]

theorem Remove_Has_of_absent (p : TransactionPool) (hs : List String) (h : String)
    (habs : p.Has h = false ∧ h ∉ p.Pending) :
    (p.Remove hs).Has h = false ∧ h ∉ (p.Remove hs).Pending := by
  obtain ⟨h1, h2⟩ := habs
  unfold TransactionPool.Has at h1
  have h3 : p.Pool.lookup h = none := by
    cases hl : p.Pool.lookup h with
    | none => rfl
    | some v => simp [hl] at h1
  unfold TransactionPool.Remove TransactionPool.Has
  simp only [lookup_filter_none p.Pool _ h h3, Option.isSome_none, List.mem_filter, true_and]
  intro hc
  exact h2 hc.1

/-- C14, as stated, fails: without a running round for the basis of the
ballot, `reorganizeTransactionPool` leaves the proposed hash `tx_a` in the
pool, also when it runs inside `FinishedBallotStore` after the block was
committed. -/
theorem reorganizeTransactionPool_counterexample :
    "tx_a" ∈ (Fixture.checker Hole.YES).Ballot.Transactions
    ∧ (reorganizeTransactionPool Fixture.env (Fixture.checker Hole.YES)
        Fixture.worldNoRound).TransactionPool.Has "tx_a" = true
    ∧ (FinishedBallotStore Fixture.env (Fixture.checker Hole.YES) Fixture.worldNoRound).err =
        some (Err.StopCloseConsensus "ballot got consensus and will be stored")
    ∧ (FinishedBallotStore Fixture.env (Fixture.checker Hole.YES)
        Fixture.worldNoRound).world.TransactionPool.Has "tx_a" = true := by
  decide

/-- C14, amended: when the running round of the basis of the ballot is found
and its transaction list for the proposer of the ballot holds every hash of
the proposed transaction list of the ballot, then after
`reorganizeTransactionPool` none of these hashes is in the pool (neither in
the mapping nor pending). -/
theorem reorganizeTransactionPool_removes_proposed (env : Env) (c : BallotChecker) (w : World)
    (rr : RunningRound)
    (hrr : w.isaac.RunningRounds.lookup c.Ballot.VotingBasis.Index = some rr)
    (hsub : ∀ h ∈ c.Ballot.Transactions,
      h ∈ (rr.Transactions.lookup c.Ballot.Proposer).getD []) :
    ∀ h ∈ c.Ballot.Transactions,
      (reorganizeTransactionPool env c w).TransactionPool.Has h = false
      ∧ h ∉ (reorganizeTransactionPool env c w).TransactionPool.Pending := by
  intro h hmem
  unfold reorganizeTransactionPool
  simp only [hrr]
  exact Remove_Has_of_absent _ _ h (Remove_Has_of_mem _ _ h (hsub h hmem))

/-- C14, amended, at the test network: the running round of `basis` records
`[tx_a]` for P0, so `tx_a` leaves the pool. -/
theorem reorganizeTransactionPool_removes_proposed_witness :
    Fixture.world.TransactionPool.Has "tx_a" = true
    ∧ (reorganizeTransactionPool Fixture.env (Fixture.checker Hole.YES)
        Fixture.world).TransactionPool.Has "tx_a" = false :=
  ⟨by decide,
    (reorganizeTransactionPool_removes_proposed Fixture.env (Fixture.checker Hole.YES)
      Fixture.world Fixture.runningRound (by decide) (by decide) "tx_a" (by decide)).1⟩

/-! ## Commit and batch life cycle in `saveBlock` -/

/-- C15, as stated, fails: when `Commit` returns `NotCommittable`, `saveBlock`
returns nil without calling `Discard`; the calls are `OpenBatch`, the failed
`Commit` and the hand-over of the block to the saving operations. -/
theorem saveBlock_NotCommittable_counterexample :
    (saveBlock Fixture.envNotCommittable (Fixture.checker Hole.YES) Fixture.world).err = none
    ∧ Event.Discard ∉
        (saveBlock Fixture.envNotCommittable (Fixture.checker Hole.YES) Fixture.world).world.events
    ∧ (saveBlock Fixture.envNotCommittable (Fixture.checker Hole.YES) Fixture.world).world.events =
        [Event.OpenBatch, Event.Commit (some Err.NotCommittable),
          Event.SavingBlockOperationsSave (Fixture.blockOf Fixture.ballot)] := by
  decide

/-- C15, amended: when `saveBlock` reaches `Commit` and it fails with `e`,
then for `e = NotCommittable` no error is returned, `Discard` is not called
and the block is handed to the saving operations; for every other `e` the
batch is discarded and `e` is returned.  In both cases the store is as
`insertMissingTransaction` left it. -/
theorem saveBlock_commit_fails (env : Env) (c : BallotChecker) (w w1 : World)
    (txs : List Transaction) (bs : Storage) (theBlock : Block) (e : Err)
    (hins : insertMissingTransaction env c w = (w1, none))
    (hopen : env.OpenBatchErr w1.storage = none)
    (hres : env.getProposedTransactions w1.storage c.Ballot.Transactions w1.TransactionPool =
      .ok txs)
    (hfin : env.finishBallotWithProposedTxs w1.storage c.Ballot w1.TransactionPool.Pending txs =
      (bs, .ok theBlock))
    (hcommit : env.CommitErr bs = some e) :
    (e = Err.NotCommittable →
      (saveBlock env c w).err = none
      ∧ (saveBlock env c w).world.events =
          w1.events ++ [Event.OpenBatch, Event.Commit (some e),
            Event.SavingBlockOperationsSave theBlock])
    ∧ (e ≠ Err.NotCommittable →
      (saveBlock env c w).err = some e
      ∧ (saveBlock env c w).world.events =
          w1.events ++ [Event.OpenBatch, Event.Commit (some e), Event.Discard])
    ∧ (saveBlock env c w).world.storage = w1.storage := by
  have hres2 : env.getProposedTransactions (w1.emit Event.OpenBatch).storage c.Ballot.Transactions
      (w1.emit Event.OpenBatch).TransactionPool = .ok txs := hres
  have hfin2 : env.finishBallotWithProposedTxs (w1.emit Event.OpenBatch).storage c.Ballot
      (w1.emit Event.OpenBatch).TransactionPool.Pending txs = (bs, .ok theBlock) := hfin
  by_cases hne : e = Err.NotCommittable
  · have hout : saveBlock env c w =
        ⟨{ c with LatestUpdatedSources := addSources c.LatestUpdatedSources txs },
          ((w1.emit Event.OpenBatch).emit (Event.Commit (some e))).emit
            (Event.SavingBlockOperationsSave theBlock), none⟩ := by
      unfold saveBlock
      simp only [hins, hopen, hres2, hfin2, hcommit]
      simp [hne]
    rw [hout]
    refine ⟨fun _ => ⟨rfl, ?_⟩, fun h => absurd hne h, rfl⟩
    simp [World.emit]
  · have hout : saveBlock env c w =
        ⟨{ c with LatestUpdatedSources := addSources c.LatestUpdatedSources txs },
          ((w1.emit Event.OpenBatch).emit (Event.Commit (some e))).emit Event.Discard,
          some e⟩ := by
      unfold saveBlock
      simp only [hins, hopen, hres2, hfin2, hcommit]
      simp [hne]
    rw [hout]
    refine ⟨fun h => absurd h hne, fun _ => ⟨rfl, ?_⟩, rfl⟩
    simp [World.emit]

/-- C15, amended, at the test network with a failing `Commit`: the batch is
discarded and the error returned. -/
theorem saveBlock_commit_fails_witness :
    (saveBlock Fixture.envCommitFails (Fixture.checker Hole.YES) Fixture.world).err =
        some (Err.Other "commit failed")
    ∧ (saveBlock Fixture.envCommitFails (Fixture.checker Hole.YES) Fixture.world).world.events =
        Fixture.world.events ++
          [Event.OpenBatch, Event.Commit (some (Err.Other "commit failed")), Event.Discard] :=
  (saveBlock_commit_fails Fixture.envCommitFails (Fixture.checker Hole.YES) Fixture.world
    Fixture.world [Fixture.txA]
    (Fixture.world.storage.Set (GetBlockKey (Fixture.blockOf Fixture.ballot).Hash)
      (Record.block (Fixture.blockOf Fixture.ballot)))
    (Fixture.blockOf Fixture.ballot) (Err.Other "commit failed") rfl rfl rfl rfl rfl).2.1
    (by decide)

/-- C16, evaluated at two failing inputs: in `saveBlock`, when the proposed
transactions cannot be resolved, and in `insertMissingTransaction`, when the
proposer sends the same transaction twice and the second
`SaveTransactionPool` fails, the function returns the error with the batch it
opened neither committed nor discarded. -/
theorem batch_left_open_at_failing_inputs :
    ((saveBlock Fixture.envResolveFails (Fixture.checker Hole.YES) Fixture.world).err =
        some (Err.Other "storage read failed")
      ∧ (saveBlock Fixture.envResolveFails (Fixture.checker Hole.YES) Fixture.world).world.events =
        [Event.OpenBatch]
      ∧ batchLeftOpen
        (saveBlock Fixture.envResolveFails (Fixture.checker Hole.YES) Fixture.world).world.events =
        true)
    ∧ ((insertMissingTransaction Fixture.envFetchTwice (Fixture.checkerFor ["tx_b"])
        Fixture.world).2 = some (Err.Other "key already exists")
      ∧ (insertMissingTransaction Fixture.envFetchTwice (Fixture.checkerFor ["tx_b"])
        Fixture.world).1.events = [Event.GetTransactions "P0" ["tx_b"], Event.OpenBatch]
      ∧ batchLeftOpen (insertMissingTransaction Fixture.envFetchTwice (Fixture.checkerFor ["tx_b"])
        Fixture.world).1.events = true) := by
  decide

/-! ## Legacy ballot checker -/

/-- C17, as stated, fails: the running round holds the SIGN vote of P1 for
the proposal of P0, so the `(source, phase, proposer)` of the SIGN ballot of
P2 for P0 is unseen, yet `CheckNodeRunnerHandleBallotAddRunningRounds` sets
`IsNew` to false. -/
theorem AddRunningRounds_counterexample :
    (∃ runningRound,
      Fixture.legacyRunningRounds.lookup (Fixture.legacyEnv.RoundHash Fixture.legacyRound) =
        some runningRound
      ∧ runningRound.IsVoted (Fixture.legacyBallot "P2" "P0") = false)
    ∧ (Legacy.CheckNodeRunnerHandleBallotAddRunningRounds Fixture.legacyEnv
        (Fixture.legacyChecker (Fixture.legacyBallot "P2" "P0"))
        Fixture.legacyRunningRounds).1.IsNew = false
    ∧ (Legacy.CheckNodeRunnerHandleBallotAddRunningRounds Fixture.legacyEnv
        (Fixture.legacyChecker (Fixture.legacyBallot "P2" "P0"))
        Fixture.legacyRunningRounds).2.2 = none :=
  ⟨⟨_, rfl, by decide⟩, by decide, by decide⟩

/-- C17, amended: when the running round of the round of the ballot does not
exist yet and `NewRunningRound` succeeds, `IsNew` is set to true; when it
exists, `IsNew` is set to true exactly when the running round has no round
vote for the proposer of the ballot, whatever the source and the phase. -/
theorem AddRunningRounds_IsNew (env : Legacy.Env) (c : Legacy.NodeRunnerHandleBallotChecker)
    (rr : List (String × Legacy.RunningRound)) :
    (rr.lookup (env.RoundHash c.Ballot.Round) = none →
      ∀ runningRound,
        env.NewRunningRound
          (env.CalculateProposer c.Ballot.Round.BlockHeight c.Ballot.Round.Number) c.Ballot =
          .ok runningRound →
        (Legacy.CheckNodeRunnerHandleBallotAddRunningRounds env c rr).1.IsNew = true)
    ∧ (∀ runningRound, rr.lookup (env.RoundHash c.Ballot.Round) = some runningRound →
        ((Legacy.CheckNodeRunnerHandleBallotAddRunningRounds env c rr).1.IsNew = true ↔
          runningRound.Voted.lookup c.Ballot.Proposer = none)) := by
  refine ⟨?_, ?_⟩
  · intro hnone runningRound hnew
    unfold Legacy.CheckNodeRunnerHandleBallotAddRunningRounds
    simp only [hnone, hnew]
    split <;> rfl
  · intro runningRound hsome
    unfold Legacy.CheckNodeRunnerHandleBallotAddRunningRounds
    simp only [hsome]
    split <;> simp [Option.isNone_iff_eq_none]

/-- C17, amended, at the test network: the first ballot for the proposal of
P1 in the running round is new. -/
theorem AddRunningRounds_IsNew_witness :
    (Legacy.CheckNodeRunnerHandleBallotAddRunningRounds Fixture.legacyEnv
      (Fixture.legacyChecker (Fixture.legacyBallot "P1" "P1"))
      Fixture.legacyRunningRounds).1.IsNew = true :=
  ((AddRunningRounds_IsNew Fixture.legacyEnv
    (Fixture.legacyChecker (Fixture.legacyBallot "P1" "P1")) Fixture.legacyRunningRounds).2
    _ rfl).2 (by decide)

/-! ## Transaction history and block records -/

theorem lookup_set_self (st : Storage) (k : String) (v : Record) : (st.Set k v).Get k = some v := by
  simp [Storage.Set, Storage.Get, List.lookup_cons]

/-- C19, as stated, fails in its second part: `tx_a` is already in the
history, the lookup `ExistsBlockTransactionHistory` fails, and
`CheckNodeRunnerHandleMessageHistory` returns nil and replaces the record of
`tx_a` by the one of the new raw message. -/
theorem CheckNodeRunnerHandleMessageHistory_counterexample :
    GetBlockTransactionHistory Fixture.historyStore Fixture.txA.Hash =
        some (Record.history { Hash := "tx_a", Source := "A", Message := [9] })
    ∧ (CheckNodeRunnerHandleMessageHistory Fixture.backendHasFails Fixture.txA [1, 2]
        Fixture.historyStore).2 = none
    ∧ (CheckNodeRunnerHandleMessageHistory Fixture.backendHasFails Fixture.txA [1, 2]
        Fixture.historyStore).1 ≠ Fixture.historyStore
    ∧ GetBlockTransactionHistory
        (CheckNodeRunnerHandleMessageHistory Fixture.backendHasFails Fixture.txA [1, 2]
          Fixture.historyStore).1 Fixture.txA.Hash =
        some (Record.history { Hash := "tx_a", Source := "A", Message := [1, 2] }) := by
  decide

/-- C19, amended: when `CheckNodeRunnerHandleMessageHistory` returns nil,
`GetBlockTransactionHistory` of the hash of the transaction finds a history
record whose `Hash` is that hash; when the transaction is already in the
history and `ExistsBlockTransactionHistory` answers without an error, the
check returns `ErrorNewButKnownMessage` and the store is unchanged; when
`ExistsBlockTransactionHistory` returns an error or does not find the
transaction, the check returns what saving the new history record returns. -/
theorem CheckNodeRunnerHandleMessageHistory_spec (bk : Backend) (tx : Transaction)
    (data : List Nat) (st : Storage) :
    ((CheckNodeRunnerHandleMessageHistory bk tx data st).2 = none →
      ∃ h, GetBlockTransactionHistory (CheckNodeRunnerHandleMessageHistory bk tx data st).1 tx.Hash =
          some (Record.history h)
        ∧ h.Hash = tx.Hash)
    ∧ (ExistsBlockTransactionHistory bk st tx.Hash = (true, none) →
      (CheckNodeRunnerHandleMessageHistory bk tx data st).2 = some Err.ErrorNewButKnownMessage
      ∧ (CheckNodeRunnerHandleMessageHistory bk tx data st).1 = st)
    ∧ (∀ r, GetBlockTransactionHistory st tx.Hash = some r →
      (ExistsBlockTransactionHistory bk st tx.Hash).2 = none →
      (CheckNodeRunnerHandleMessageHistory bk tx data st).2 = some Err.ErrorNewButKnownMessage
      ∧ (CheckNodeRunnerHandleMessageHistory bk tx data st).1 = st)
    ∧ (((ExistsBlockTransactionHistory bk st tx.Hash).2 ≠ none
        ∨ (ExistsBlockTransactionHistory bk st tx.Hash).1 = false) →
      CheckNodeRunnerHandleMessageHistory bk tx data st =
        (NewTransactionHistoryFromTransaction tx data).Save bk st) := by
  have hknown : ExistsBlockTransactionHistory bk st tx.Hash = (true, none) →
      (CheckNodeRunnerHandleMessageHistory bk tx data st).2 = some Err.ErrorNewButKnownMessage
      ∧ (CheckNodeRunnerHandleMessageHistory bk tx data st).1 = st := by
    intro hex
    unfold CheckNodeRunnerHandleMessageHistory
    simp [hex]
  refine ⟨?_, hknown, ?_, ?_⟩
  · unfold CheckNodeRunnerHandleMessageHistory
    simp only
    split
    · intro h
      simp at h
    · unfold BlockTransactionHistory.Save Backend.New
      split
      · intro h
        simp at h
      · intro _
        exact ⟨_, lookup_set_self _ _ _, rfl⟩
  · intro r hget hans
    apply hknown
    unfold ExistsBlockTransactionHistory Backend.Has at hans ⊢
    unfold GetBlockTransactionHistory at hget
    cases hh : bk.HasErr st (GetBlockTransactionHistoryKey tx.Hash) with
    | some e => simp [hh] at hans
    | none => simp [hget]
  · intro hor
    unfold CheckNodeRunnerHandleMessageHistory
    rcases hex : ExistsBlockTransactionHistory bk st tx.Hash with ⟨found, e⟩
    rw [hex] at hor
    rcases hor with he | hf
    · cases e with
      | none => exact absurd rfl he
      | some e => simp
    · simp only at hf
      subst hf
      simp

/-- C19, amended, at the test network: the transaction `tx_a` is saved in the
empty history; received again while in the history, with a backend that
answers, it is refused with `ErrorNewButKnownMessage` and nothing is
written. -/
theorem CheckNodeRunnerHandleMessageHistory_spec_witness :
    ((CheckNodeRunnerHandleMessageHistory Fixture.backend Fixture.txA [1, 2] []).2 = none
      ∧ ∃ h, GetBlockTransactionHistory
          (CheckNodeRunnerHandleMessageHistory Fixture.backend Fixture.txA [1, 2] []).1
          Fixture.txA.Hash = some (Record.history h)
        ∧ h.Hash = Fixture.txA.Hash)
    ∧ (CheckNodeRunnerHandleMessageHistory Fixture.backend Fixture.txA [1, 2]
        Fixture.historyStore).2 = some Err.ErrorNewButKnownMessage
    ∧ (CheckNodeRunnerHandleMessageHistory Fixture.backend Fixture.txA [1, 2]
        Fixture.historyStore).1 = Fixture.historyStore :=
  ⟨⟨by decide,
    (CheckNodeRunnerHandleMessageHistory_spec Fixture.backend Fixture.txA [1, 2] []).1
      (by decide)⟩,
    (CheckNodeRunnerHandleMessageHistory_spec Fixture.backend Fixture.txA [1, 2]
      Fixture.historyStore).2.2.1
      (Record.history { Hash := "tx_a", Source := "A", Message := [9] }) (by decide) (by decide)⟩

theorem confirmed_key_ne_block_key (b : Block) (uuid h : String) :
    b.NewBlockKeyConfirmed uuid ≠ GetBlockKey h := by
  intro heq
  have hd := congrArg String.data heq
  simp [Block.NewBlockKeyConfirmed, GetBlockKeyPrefixConfirmed, GetBlockKey] at hd

/-- C20: after a successful `Block.Save` the block record is under the key
`b-hash-` followed by the hash, the hash is under the key `b-confirmed-`
followed by the confirmed time, `-` and the unique id, and `GetBlock` of the
hash returns the block; a successful save also means that no record was
under the block key before. -/
theorem Block_Save_GetBlock (bk : Backend) (uuid : String) (b : Block) (st : Storage)
    (hsave : (b.Save bk uuid st).2 = none) :
    (b.Save bk uuid st).1.Get ("b-hash-" ++ b.Hash) = some (Record.block b)
    ∧ (b.Save bk uuid st).1.Get ("b-confirmed-" ++ b.Confirmed ++ "-" ++ uuid) =
        some (Record.str b.Hash)
    ∧ GetBlock (b.Save bk uuid st).1 b.Hash = some (Record.block b)
    ∧ st.Get (GetBlockKey b.Hash) = none := by
  revert hsave
  unfold Block.Save Backend.Has
  simp only
  cases hh : bk.HasErr st (GetBlockKey b.Hash) with
  | some e => intro h; simp at h
  | none =>
    simp only
    cases hg : st.Get (GetBlockKey b.Hash) with
    | some r => intro h; simp at h
    | none =>
      simp only [Option.isSome_none]
      unfold Backend.New
      cases hn1 : bk.NewErr st (GetBlockKey b.Hash) (Record.block b) with
      | some e => intro h; simp at h
      | none =>
        simp only
        cases hn2 : bk.NewErr (st.Set (GetBlockKey b.Hash) (Record.block b))
            (b.NewBlockKeyConfirmed uuid) (Record.str b.Hash) with
        | some e => intro h; simp at h
        | none =>
          intro _
          have hkey : (((st.Set (GetBlockKey b.Hash) (Record.block b)).Set
              (b.NewBlockKeyConfirmed uuid) (Record.str b.Hash)).Get (GetBlockKey b.Hash)) =
              some (Record.block b) := by
            rw [lookup_set_ne _ _ _ _ (fun heq => confirmed_key_ne_block_key b uuid b.Hash heq.symm)]
            exact lookup_set_self _ _ _
          exact ⟨hkey, lookup_set_self _ _ _, hkey, trivial⟩

/-- C20 at the test network: the block `genesis` is saved into the empty store. -/
theorem Block_Save_GetBlock_witness :
    GetBlock [] Fixture.genesis.Hash = none
    ∧ GetBlock (Fixture.genesis.Save Fixture.backend "uuid-1" []).1 Fixture.genesis.Hash =
        some (Record.block Fixture.genesis) :=
  ⟨by decide,
    (Block_Save_GetBlock Fixture.backend "uuid-1" Fixture.genesis [] (by decide)).2.2.1⟩


/-! ## New blocks -/

/-- C21, as stated, fails: at the largest `uint64` block height the increment
wraps, and `NewBlock` returns a block of height 0, not above the height of
the round. -/
theorem NewBlock_height_counterexample :
    (NewBlock Fixture.blockHash "P0" Fixture.lastRound ["tx_a"] "t1").Height = 0
    ∧ ¬ ((NewBlock Fixture.blockHash "P0" Fixture.lastRound ["tx_a"] "t1").Height >
        Fixture.lastRound.BlockHeight) := by
  decide

/-- C21, amended: for every round whose block height is below `2 ^ 64 - 1`,
`NewBlock` returns a block whose height is the block height of the round plus
one, so strictly greater; for every round the previous hash is the block hash
of the round and proposer, transactions and confirmed time are the arguments
unchanged, and the height is the increment modulo `2 ^ 64`. -/
theorem NewBlock_fields (MakeHash : Block → String) (propser : String) (round : Legacy.Round)
    (transactions : List String) (confirmed : String) :
    (round.BlockHeight + 1 < 2 ^ 64 →
      (NewBlock MakeHash propser round transactions confirmed).Height = round.BlockHeight + 1
      ∧ (NewBlock MakeHash propser round transactions confirmed).Height > round.BlockHeight)
    ∧ (NewBlock MakeHash propser round transactions confirmed).Height =
        (round.BlockHeight + 1) % 2 ^ 64
    ∧ (NewBlock MakeHash propser round transactions confirmed).PreviousHash = round.BlockHash
    ∧ (NewBlock MakeHash propser round transactions confirmed).Proposer = propser
    ∧ (NewBlock MakeHash propser round transactions confirmed).Transactions = transactions
    ∧ (NewBlock MakeHash propser round transactions confirmed).Confirmed = confirmed := by
  refine ⟨?_, rfl, rfl, rfl, rfl, rfl⟩
  intro hlt
  have hh : (NewBlock MakeHash propser round transactions confirmed).Height =
      round.BlockHeight + 1 := by
    show (round.BlockHeight + 1) % 2 ^ 64 = round.BlockHeight + 1
    exact Nat.mod_eq_of_lt hlt
  rw [hh]
  exact ⟨rfl, Nat.lt_succ_self _⟩

/-- C21, amended, at the test network: the block after the round at height 1. -/
theorem NewBlock_fields_witness :
    Fixture.legacyRound.BlockHeight + 1 < 2 ^ 64
    ∧ (NewBlock Fixture.blockHash "P0" Fixture.legacyRound ["tx_a"] "t1").Height = 1 + 1 :=
  ⟨by decide,
    ((NewBlock_fields Fixture.blockHash "P0" Fixture.legacyRound ["tx_a"] "t1").1
      (by decide)).1⟩


/-! ## Pool after a commit: re-validation -/

theorem lookup_filter_key_some {α : Type} (l : List (String × α)) (q : String → Bool)
    (k : String) (v : α) (h : (l.filter (fun e => q e.1)).lookup k = some v) :
    l.lookup k = some v ∧ q k = true := by
  induction l with
  | nil => simp at h
  | cons e rest ih =>
    obtain ⟨a, b⟩ := e
    by_cases hq : q a = true
    · simp only [List.filter_cons, hq, if_true, List.lookup_cons] at h ⊢
      by_cases hk : (k == a) = true
      · simp only [hk] at h ⊢
        have hka : k = a := by simpa using hk
        exact ⟨h, hka ▸ hq⟩
      · have hk2 : (k == a) = false := by simpa using hk
        simp only [hk2] at h ⊢
        exact ih h
    · simp only [List.filter_cons, hq, Bool.false_eq_true, if_false] at h
      have hr := ih h
      have hk2 : (k == a) = false := by
        simp only [beq_eq_false_iff_ne, ne_eq]
        intro hka
        exact hq (hka ▸ hr.2)
      simp only [List.lookup_cons, hk2]
      exact hr

theorem lookup_filter_keep {α : Type} (l : List (String × α)) (p : String × α → Bool)
    (k : String) (v : α) (h : l.lookup k = some v) (hp : p (k, v) = true) :
    (l.filter p).lookup k = some v := by
  induction l with
  | nil => simp at h
  | cons e rest ih =>
    obtain ⟨a, b⟩ := e
    by_cases hk : (k == a) = true
    · have hka : k = a := by simpa using hk
      simp only [List.lookup_cons, hk, Option.some.injEq] at h
      subst hka
      subst h
      simp only [List.filter_cons, hp, if_true, List.lookup_cons, hk]
    · have hk2 : (k == a) = false := by simpa using hk
      simp only [List.lookup_cons, hk2] at h
      by_cases hpe : p (a, b) = true
      · simp only [List.filter_cons, hpe, if_true, List.lookup_cons, hk2]
        exact ih h
      · simp only [List.filter_cons, hpe, Bool.false_eq_true, if_false]
        exact ih h

theorem lookup_mem {α : Type} (l : List (String × α)) (k : String) (v : α)
    (h : l.lookup k = some v) : (k, v) ∈ l := by
  induction l with
  | nil => simp at h
  | cons e rest ih =>
    obtain ⟨a, b⟩ := e
    by_cases hk : (k == a) = true
    · have hka : k = a := by simpa using hk
      simp only [List.lookup_cons, hk, Option.some.injEq] at h
      subst hka
      subst h
      exact List.mem_cons_self _ _
    · have hk2 : (k == a) = false := by simpa using hk
      simp only [List.lookup_cons, hk2] at h
      exact List.mem_cons_of_mem _ (ih h)

theorem WellFormed_pool (p : TransactionPool) (hwf : p.WellFormed = true) (h : String)
    (tx : Transaction) (hl : p.Pool.lookup h = some tx) :
    tx.Hash = h ∧ p.Sources.lookup tx.Source = some h := by
  unfold TransactionPool.WellFormed at hwf
  simp only [Bool.and_eq_true, List.all_eq_true] at hwf
  have := hwf.1 (h, tx) (lookup_mem _ _ _ hl)
  simpa using this

theorem WellFormed_sources (p : TransactionPool) (hwf : p.WellFormed = true) (s h : String)
    (tx : Transaction) (hm : (s, h) ∈ p.Sources) (hl : p.Pool.lookup h = some tx) :
    tx.Source = s := by
  unfold TransactionPool.WellFormed at hwf
  simp only [Bool.and_eq_true, List.all_eq_true] at hwf
  have := hwf.2 (s, h) hm
  simp only [hl] at this
  simpa using this

theorem Remove_nil (p : TransactionPool) : p.Remove [] = p := by
  unfold TransactionPool.Remove
  simp

theorem reorganizeTransactionPool_eq (env : Env) (c : BallotChecker) (w : World) :
    (reorganizeTransactionPool env c w).TransactionPool =
      (w.TransactionPool.Remove (roundTransactions c w)).Remove
        (c.LatestUpdatedSources.filterMap (fun source =>
          match (w.TransactionPool.Remove (roundTransactions c w)).GetFromSource source with
          | none => none
          | some tx => if (env.ValidateTx w.storage tx).isSome then some tx.Hash else none)) := by
  unfold reorganizeTransactionPool roundTransactions
  cases hrr : w.isaac.RunningRounds.lookup c.Ballot.VotingBasis.Index with
  | some rr => simp only [hrr]
  | none => simp only [hrr, Remove_nil]


/-- C22, as stated, fails in its second part: the running round of the basis
records `[tx_a]` for the proposer while the ballot lists only `tx_c`; the
pooled transaction `tx_a` is not listed in the block and its source is not in
`LatestUpdatedSources`, yet `reorganizeTransactionPool` removes it. -/
theorem reorganizeTransactionPool_frame_counterexample :
    Fixture.world.TransactionPool.WellFormed = true
    ∧ Fixture.world.TransactionPool.Pool.lookup "tx_a" = some Fixture.txA
    ∧ "tx_a" ∉ Fixture.checkerOther.Ballot.Transactions
    ∧ Fixture.txA.Source ∉ Fixture.checkerOther.LatestUpdatedSources
    ∧ (reorganizeTransactionPool Fixture.env Fixture.checkerOther
        Fixture.world).TransactionPool.Pool.lookup "tx_a" = none := by
  decide

/-- C22, amended: for a pool that satisfies its invariant, after
`reorganizeTransactionPool` the pool holds, for every source in
`LatestUpdatedSources`, no transaction of that source that fails `ValidateTx`
against the storage; and a pooled transaction that is not in the list the
running round of the basis records for the proposer of the ballot, and either
has a source outside `LatestUpdatedSources` or passes `ValidateTx`, is still
in the pool afterwards. -/
theorem reorganizeTransactionPool_revalidates (env : Env) (c : BallotChecker) (w : World)
    (hwf : w.TransactionPool.WellFormed = true) :
    (∀ s ∈ c.LatestUpdatedSources, ∀ h tx,
      (reorganizeTransactionPool env c w).TransactionPool.Pool.lookup h = some tx →
      tx.Source = s → env.ValidateTx w.storage tx = none)
    ∧ (∀ tx, w.TransactionPool.Pool.lookup tx.Hash = some tx →
      tx.Hash ∉ roundTransactions c w →
      (tx.Source ∉ c.LatestUpdatedSources ∨ env.ValidateTx w.storage tx = none) →
      (reorganizeTransactionPool env c w).TransactionPool.Pool.lookup tx.Hash = some tx) := by
  rw [reorganizeTransactionPool_eq]
  refine ⟨?_, ?_⟩
  · intro s hs h tx hl hsrc
    obtain ⟨hl1, hninv⟩ := lookup_filter_key_some _ (fun k => !List.contains _ k) h tx hl
    obtain ⟨hl0, hnr⟩ := lookup_filter_key_some _ (fun k => !List.contains _ k) h tx hl1
    obtain ⟨hhash, hidx⟩ := WellFormed_pool _ hwf h tx hl0
    have hidx1 : (w.TransactionPool.Remove (roundTransactions c w)).Sources.lookup s = some h := by
      rw [hsrc] at hidx
      exact lookup_filter_keep _ _ s h hidx hnr
    have hget : (w.TransactionPool.Remove (roundTransactions c w)).GetFromSource s = some tx := by
      unfold TransactionPool.GetFromSource
      rw [hidx1]
      exact hl1
    cases hv : env.ValidateTx w.storage tx with
    | none => rfl
    | some e =>
      exfalso
      have hmem : h ∈ c.LatestUpdatedSources.filterMap (fun source =>
          match (w.TransactionPool.Remove (roundTransactions c w)).GetFromSource source with
          | none => none
          | some tx => if (env.ValidateTx w.storage tx).isSome then some tx.Hash else none) := by
        rw [List.mem_filterMap]
        refine ⟨s, hs, ?_⟩
        simp [hget, hv, hhash]
      simp only [Bool.not_eq_true', List.contains_eq_any_beq, List.any_eq_false, beq_iff_eq] at hninv
      exact hninv h hmem rfl
  · intro tx hl hnr hok
    have hnr2 : (!List.contains (roundTransactions c w) tx.Hash) = true := by
      simpa using hnr
    have hl1 : (w.TransactionPool.Remove (roundTransactions c w)).Pool.lookup tx.Hash = some tx :=
      lookup_filter_keep _ _ tx.Hash tx hl hnr2
    refine lookup_filter_keep _ _ tx.Hash tx hl1 ?_
    simp only [Bool.not_eq_true', List.contains_eq_any_beq, List.any_eq_false, beq_iff_eq]
    intro x hx hxe
    rw [List.mem_filterMap] at hx
    obtain ⟨s, hs, hf⟩ := hx
    cases hget : (w.TransactionPool.Remove (roundTransactions c w)).GetFromSource s with
    | none => simp [hget] at hf
    | some tx2 =>
      simp only [hget] at hf
      by_cases hv : (env.ValidateTx w.storage tx2).isSome = true
      · simp only [hv, if_true, Option.some.injEq] at hf
        unfold TransactionPool.GetFromSource at hget
        cases hsl : (w.TransactionPool.Remove (roundTransactions c w)).Sources.lookup s with
        | none => simp [hsl] at hget
        | some h2 =>
          simp only [hsl] at hget
          obtain ⟨hl2, -⟩ := lookup_filter_key_some _ (fun k => !List.contains _ k) h2 tx2 hget
          obtain ⟨hh2, -⟩ := WellFormed_pool _ hwf h2 tx2 hl2
          have hkey : h2 = tx.Hash := by rw [← hh2, hf, hxe]
          rw [hkey, hl] at hl2
          have htx : tx = tx2 := by simpa using hl2
          have hmem : (s, h2) ∈ w.TransactionPool.Sources :=
            (List.mem_filter.1 (lookup_mem _ _ _ hsl)).1
          have hsrc : tx2.Source = s :=
            WellFormed_sources _ hwf s h2 tx2 hmem (by rw [hkey, hl, htx])
          rcases hok with hout | hval
          · exact hout (by rw [htx, hsrc]; exact hs)
          · rw [htx] at hval
            simp [hval] at hv
      · simp [hv] at hf

/-- C22, amended, at the test network: with `tx_a` recorded by the running
round and the source `A` updated, the transaction `tx_b` of account `B` is
still pooled. -/
theorem reorganizeTransactionPool_revalidates_witness :
    Fixture.worldTwo.TransactionPool.WellFormed = true
    ∧ (reorganizeTransactionPool Fixture.env Fixture.checkerUpdated
        Fixture.worldTwo).TransactionPool.Pool.lookup "tx_b" = some Fixture.txB :=
  ⟨by decide,
    (reorganizeTransactionPool_revalidates Fixture.env Fixture.checkerUpdated Fixture.worldTwo
      (by decide)).2 Fixture.txB (by decide) (by decide) (Or.inl (by decide))⟩


/-! ## SYNC check: cached ballot and wrap-around -/

theorem SaveNodeHeight_LatestBallot (is : ISAAC) (source : String) (height : Nat) :
    (is.SaveNodeHeight source height).LatestBallot = is.LatestBallot := by
  unfold ISAAC.SaveNodeHeight
  split <;> rfl

theorem recordPeer_LatestBallot (is : ISAAC) (b : Ballot) :
    (recordPeer is b).LatestBallot = is.LatestBallot ∨ (recordPeer is b).LatestBallot = b := by
  unfold recordPeer
  rw [SaveNodeHeight_LatestBallot]
  split
  · exact Or.inr rfl
  · exact Or.inl rfl

theorem deferLatestBallot_LatestBallot (b : Ballot) (syncHeight : Nat) (w : World) :
    (deferLatestBallot b syncHeight w).isaac.LatestBallot = w.isaac.LatestBallot
    ∨ (deferLatestBallot b syncHeight w).isaac.LatestBallot = b := by
  unfold deferLatestBallot
  split
  · exact Or.inr rfl
  · exact Or.inl rfl

theorem BallotCheckSYNC_LatestBallot (env : Env) (c : BallotChecker) (w : World) :
    (BallotCheckSYNC env c w).world.isaac.LatestBallot = w.isaac.LatestBallot
    ∨ ((BallotCheckSYNC env c w).world.isaac.LatestBallot = c.Ballot
      ∧ w.isaac.LatestBlock.Height < c.Ballot.VotingBasis.Height
      ∧ isBallotAcceptYes c.Ballot = true
      ∧ hasBallotValidProposer env c.Ballot = true) := by
  have key : ∀ w2 : World, ∀ s : Nat,
      w2.isaac = recordPeer w.isaac c.Ballot →
      (deferLatestBallot c.Ballot s w2).isaac.LatestBallot = w.isaac.LatestBallot
      ∨ (deferLatestBallot c.Ballot s w2).isaac.LatestBallot = c.Ballot := by
    intro w2 s hw2
    rcases deferLatestBallot_LatestBallot c.Ballot s w2 with h | h
    · rw [h, hw2]
      exact recordPeer_LatestBallot _ _
    · exact Or.inr h
  unfold BallotCheckSYNC
  simp only
  split
  · exact Or.inl rfl
  · rename_i hh
    split
    · exact Or.inl rfl
    · rename_i ha
      split
      · exact Or.inl rfl
      · rename_i hp
        have hgates : w.isaac.LatestBlock.Height < c.Ballot.VotingBasis.Height
            ∧ isBallotAcceptYes c.Ballot = true ∧ hasBallotValidProposer env c.Ballot = true := by
          refine ⟨by omega, ?_, ?_⟩
          · simpa using ha
          · simpa using hp
        have fin : ∀ w2 : World, ∀ s : Nat,
            w2.isaac = recordPeer w.isaac c.Ballot →
            (deferLatestBallot c.Ballot s w2).isaac.LatestBallot = w.isaac.LatestBallot
            ∨ ((deferLatestBallot c.Ballot s w2).isaac.LatestBallot = c.Ballot
              ∧ w.isaac.LatestBlock.Height < c.Ballot.VotingBasis.Height
              ∧ isBallotAcceptYes c.Ballot = true
              ∧ hasBallotValidProposer env c.Ballot = true) := by
          intro w2 s hw2
          rcases key w2 s hw2 with h | h
          · exact Or.inl h
          · exact Or.inr ⟨h, hgates⟩
        split
        · rcases recordPeer_LatestBallot w.isaac c.Ballot with h | h
          · exact Or.inl h
          · exact Or.inr ⟨h, hgates⟩
        · split
          · exact fin _ _ rfl
          · split
            · rename_i w2 e heq
              refine fin _ _ ?_
              split at heq
              · simp only [callFinishBallot, World.emit, Prod.mk.injEq] at heq
                rw [← heq.1]
              · simp only [Prod.mk.injEq] at heq
                rw [← heq.1]
            · rename_i w2 heq
              have hw2 : w2.isaac = recordPeer w.isaac c.Ballot := by
                split at heq
                · simp only [callFinishBallot, World.emit, Prod.mk.injEq] at heq
                  rw [← heq.1]
                · simp only [Prod.mk.injEq] at heq
                  rw [← heq.1]
              split
              · rename_i w3 e heq3
                refine fin _ _ ?_
                simp only [callFinishBallot, World.emit, Prod.mk.injEq] at heq3
                rw [← heq3.1]
                exact hw2
              · rename_i w3 heq3
                refine fin _ _ ?_
                simp only [callFinishBallot, World.emit, Prod.mk.injEq] at heq3
                rw [← heq3.1]
                exact hw2


/-- C23: `BallotCheckSYNC` leaves `LatestBallot` as it was or assigns it the
incoming ballot, and the latter only when that ballot passed the height gate
(its basis height is above the height of the latest block), the ACCEPT/YES
gate and the elected-proposer gate; so it keeps the invariant that
`LatestBallot` is empty (`H.Hash` is the empty string) or an ACCEPT ballot
with vote YES. -/
theorem BallotCheckSYNC_cached_ballot (env : Env) (c : BallotChecker) (w : World) :
    ((BallotCheckSYNC env c w).world.isaac.LatestBallot = w.isaac.LatestBallot
      ∨ ((BallotCheckSYNC env c w).world.isaac.LatestBallot = c.Ballot
        ∧ w.isaac.LatestBlock.Height < c.Ballot.VotingBasis.Height
        ∧ isBallotAcceptYes c.Ballot = true
        ∧ hasBallotValidProposer env c.Ballot = true))
    ∧ ((w.isaac.LatestBallot.Hash = "" ∨ isBallotAcceptYes w.isaac.LatestBallot = true) →
      ((BallotCheckSYNC env c w).world.isaac.LatestBallot.Hash = ""
        ∨ isBallotAcceptYes (BallotCheckSYNC env c w).world.isaac.LatestBallot = true)) := by
  have h := BallotCheckSYNC_LatestBallot env c w
  refine ⟨h, ?_⟩
  intro hinv
  rcases h with h | ⟨h, -, hacc, -⟩
  · rw [h]
    exact hinv
  · rw [h]
    exact Or.inr hacc

/-- C23 at the test network: the empty slot of P3 is filled by the gated
ACCEPT/YES ballot at height 5. -/
theorem BallotCheckSYNC_cached_ballot_witness :
    Fixture.world.isaac.LatestBallot.Hash = ""
    ∧ ((BallotCheckSYNC Fixture.env (Fixture.fresh (Fixture.ballotAt 5))
          Fixture.world).world.isaac.LatestBallot.Hash = ""
      ∨ isBallotAcceptYes (BallotCheckSYNC Fixture.env (Fixture.fresh (Fixture.ballotAt 5))
          Fixture.world).world.isaac.LatestBallot = true) :=
  ⟨by decide,
    (BallotCheckSYNC_cached_ballot Fixture.env (Fixture.fresh (Fixture.ballotAt 5))
      Fixture.world).2 (Or.inl (by decide))⟩

theorem BallotCheckSYNC_sync_branch (env : Env) (c : BallotChecker) (w : World)
    (syncHeight : Nat) (nodeAddrs : List String)
    (hheight : w.isaac.LatestBlock.Height < c.Ballot.VotingBasis.Height)
    (hacc : isBallotAcceptYes c.Ballot = true)
    (hprop : hasBallotValidProposer env c.Ballot = true)
    (hsync : env.GetSyncInfo (recordPeer w.isaac c.Ballot) = .ok (syncHeight, nodeAddrs))
    (hlt : w.isaac.LatestBlock.Height < subUint64 syncHeight 1) :
    BallotCheckSYNC env c w =
      ⟨c, deferLatestBallot c.Ballot syncHeight
        (({ w with isaac := recordPeer w.isaac c.Ballot } : World).emit
          (Event.StartSync syncHeight nodeAddrs)),
        some (Err.StopCloseConsensus "ballot makes node in sync")⟩ := by
  have h1 : ¬ (w.isaac.LatestBlock.Height ≥ c.Ballot.VotingBasis.Height) := by omega
  unfold BallotCheckSYNC
  simp only [h1, if_false, hacc, hprop, Bool.not_true, Bool.false_eq_true, hsync, hlt, if_true]

/-- C24: the Go `uint64` subtraction `syncHeight - 1` wraps to `2 ^ 64 - 1` at
`syncHeight = 0`; so for a ballot that passes the gates, a sync target
`(0, nodeAddrs)` from `GetSyncInfo` and a latest height below `2 ^ 64 - 1`,
the only call `BallotCheckSYNC` makes is `StartSync(0, nodeAddrs)`, no ballot
is finalized (the storage is unchanged) and the stop sentinel is returned. -/
theorem BallotCheckSYNC_sync_height_zero (env : Env) (c : BallotChecker) (w : World)
    (nodeAddrs : List String)
    (hheight : w.isaac.LatestBlock.Height < c.Ballot.VotingBasis.Height)
    (hacc : isBallotAcceptYes c.Ballot = true)
    (hprop : hasBallotValidProposer env c.Ballot = true)
    (hsync : env.GetSyncInfo (recordPeer w.isaac c.Ballot) = .ok (0, nodeAddrs))
    (hlatest : w.isaac.LatestBlock.Height < 2 ^ 64 - 1) :
    subUint64 0 1 = 2 ^ 64 - 1
    ∧ (BallotCheckSYNC env c w).world.events = w.events ++ [Event.StartSync 0 nodeAddrs]
    ∧ (BallotCheckSYNC env c w).world.storage = w.storage
    ∧ (BallotCheckSYNC env c w).err = some (Err.StopCloseConsensus "ballot makes node in sync")
    ∧ (∀ b, Event.finishBallot b ∈ (BallotCheckSYNC env c w).world.events →
        Event.finishBallot b ∈ w.events) := by
  have hwrap : subUint64 0 1 = 2 ^ 64 - 1 := by decide
  have hlt : w.isaac.LatestBlock.Height < subUint64 0 1 := by
    rw [hwrap]
    exact hlatest
  rw [BallotCheckSYNC_sync_branch env c w 0 nodeAddrs hheight hacc hprop hsync hlt]
  obtain ⟨he, hs, -⟩ := deferLatestBallot_frame c.Ballot 0
    (({ w with isaac := recordPeer w.isaac c.Ballot } : World).emit
      (Event.StartSync 0 nodeAddrs))
  refine ⟨hwrap, he, hs, rfl, ?_⟩
  intro b hb
  have he2 : (deferLatestBallot c.Ballot 0
      (({ w with isaac := recordPeer w.isaac c.Ballot } : World).emit
        (Event.StartSync 0 nodeAddrs))).events = w.events ++ [Event.StartSync 0 nodeAddrs] := he
  simp only at hb
  rw [he2] at hb
  rcases List.mem_append.1 hb with h | h
  · exact h
  · simp at h

/-- C24 at the test network: with the sync height 0 reported, P3 at height 1
starts a sync to height 0 for the ballot at height 5. -/
theorem BallotCheckSYNC_sync_height_zero_witness :
    Fixture.world.isaac.LatestBlock.Height < 2 ^ 64 - 1
    ∧ (BallotCheckSYNC Fixture.envSyncZero (Fixture.fresh (Fixture.ballotAt 5))
        Fixture.world).world.events = Fixture.world.events ++ [Event.StartSync 0 ["P1"]] :=
  ⟨by decide,
    (BallotCheckSYNC_sync_height_zero Fixture.envSyncZero (Fixture.fresh (Fixture.ballotAt 5))
      Fixture.world ["P1"] (by decide) (by decide) (by decide) rfl (by decide)).2.1⟩


/-! ## Legacy ACCEPT store and ballot dispatch -/

/-- C25: in the legacy pipeline, with `VotingFinished`, `FinishedVotingHole =
YES` and a ballot without transactions, `CheckNodeRunnerHandleACCEPTBallotStore`
does not call `FinishBallot`, leaves the storage, the pool and the latest
consensused block unchanged, closes the consensus (both calls, the second
with `willStore = false`) and returns the stop sentinel; with `VotingFinished`
false it returns nil and changes nothing. -/
theorem ACCEPTBallotStore_empty_ballot (FinishBallot : Legacy.FinishBallotFunc)
    (c : Legacy.NodeRunnerHandleBallotChecker) (nr : Legacy.NodeRunner) :
    (c.VotingFinished = true → c.FinishedVotingHole = Hole.YES →
      c.Ballot.TransactionsLength = 0 →
      (Legacy.CheckNodeRunnerHandleACCEPTBallotStore FinishBallot c nr).2.2 =
          some (Err.CheckerErrorStop "ballot got consensus and will be stored")
      ∧ (Legacy.CheckNodeRunnerHandleACCEPTBallotStore FinishBallot c nr).2.1.events =
          nr.events ++
            [Legacy.Event.ConsensusCloseConsensus c.Ballot.Proposer c.Ballot.Round c.VotingHole,
              Legacy.Event.NodeRunnerCloseConsensus c.Ballot.Round false]
      ∧ (Legacy.CheckNodeRunnerHandleACCEPTBallotStore FinishBallot c nr).2.1.storage =
          nr.storage
      ∧ (Legacy.CheckNodeRunnerHandleACCEPTBallotStore FinishBallot c nr).2.1.TransactionPool =
          nr.TransactionPool
      ∧ (Legacy.CheckNodeRunnerHandleACCEPTBallotStore FinishBallot c
          nr).2.1.LatestConsensusedBlock = nr.LatestConsensusedBlock)
    ∧ (c.VotingFinished = false →
      Legacy.CheckNodeRunnerHandleACCEPTBallotStore FinishBallot c nr = (c, nr, none)) := by
  refine ⟨?_, ?_⟩
  · intro hf hy hl
    have hout : Legacy.CheckNodeRunnerHandleACCEPTBallotStore FinishBallot c nr =
        (c, ((nr.emit (Legacy.Event.ConsensusCloseConsensus c.Ballot.Proposer c.Ballot.Round
          c.VotingHole)).emit (Legacy.Event.NodeRunnerCloseConsensus c.Ballot.Round false)),
          some (Err.CheckerErrorStop "ballot got consensus and will be stored")) := by
      unfold Legacy.CheckNodeRunnerHandleACCEPTBallotStore
      simp [hf, hy, hl]
    rw [hout]
    refine ⟨rfl, ?_, rfl, rfl, rfl⟩
    simp [Legacy.NodeRunner.emit]
  · intro hf
    unfold Legacy.CheckNodeRunnerHandleACCEPTBallotStore
    simp [hf]

/-- C25 at the test network: a finished YES ballot without transactions
stores nothing at P3. -/
theorem ACCEPTBallotStore_empty_ballot_witness :
    (Legacy.CheckNodeRunnerHandleACCEPTBallotStore Fixture.legacyFinishBallot
      (Fixture.legacyFinished []) Fixture.legacyNodeRunner).2.2 =
        some (Err.CheckerErrorStop "ballot got consensus and will be stored")
    ∧ (Legacy.CheckNodeRunnerHandleACCEPTBallotStore Fixture.legacyFinishBallot
      (Fixture.legacyFinished []) Fixture.legacyNodeRunner).2.1.storage =
        Fixture.legacyNodeRunner.storage :=
  ⟨((ACCEPTBallotStore_empty_ballot Fixture.legacyFinishBallot (Fixture.legacyFinished [])
      Fixture.legacyNodeRunner).1 (by decide) (by decide) (by decide)).1,
    ((ACCEPTBallotStore_empty_ballot Fixture.legacyFinishBallot (Fixture.legacyFinished [])
      Fixture.legacyNodeRunner).1 (by decide) (by decide) (by decide)).2.2.1⟩

/-- C26: `IsaacBA.ReceiveBallot` answers a ballot in state ALLCONFIRM with
`ErrorBallotHasInvalidState` and leaves the ballot boxes unchanged; a ballot
in state INIT gets what `receiveBallotStateINIT` returns and a ballot in any
other state what `receiveBallotVotingStates` returns. -/
theorem ReceiveBallot_dispatch {Ballot Boxes Staging : Type}
    (h : IsaacBAHandlers Ballot Boxes Staging) (zero : Staging) (ballot : Ballot)
    (boxes : Boxes) :
    (h.State ballot = BallotState.ALLCONFIRM →
      IsaacBA.ReceiveBallot h zero ballot boxes =
        (boxes, zero, some Err.ErrorBallotHasInvalidState))
    ∧ (h.State ballot = BallotState.INIT →
      IsaacBA.ReceiveBallot h zero ballot boxes = h.receiveBallotStateINIT ballot boxes)
    ∧ (h.State ballot ≠ BallotState.INIT → h.State ballot ≠ BallotState.ALLCONFIRM →
      IsaacBA.ReceiveBallot h zero ballot boxes = h.receiveBallotVotingStates ballot boxes) := by
  unfold IsaacBA.ReceiveBallot
  refine ⟨?_, ?_, ?_⟩
  · intro hs
    rw [hs]
  · intro hs
    rw [hs]
  · intro h1 h2
    cases hs : h.State ballot with
    | INIT => exact absurd hs h1
    | ALLCONFIRM => exact absurd hs h2
    | SIGN => rfl
    | ACCEPT => rfl

/-- C26 at the test network: an ALLCONFIRM ballot is rejected and the boxes
keep their content. -/
theorem ReceiveBallot_dispatch_witness :
    IsaacBA.ReceiveBallot Fixture.handlers BallotState.INIT
      { Fixture.legacyBallot "P1" "P0" with State := BallotState.ALLCONFIRM } ["lb-P0"] =
        (["lb-P0"], BallotState.INIT, some Err.ErrorBallotHasInvalidState) :=
  (ReceiveBallot_dispatch Fixture.handlers BallotState.INIT
    { Fixture.legacyBallot "P1" "P0" with State := BallotState.ALLCONFIRM } ["lb-P0"]).1 rfl

/-! ## Saving a block twice -/

theorem Block_Save_exists (bk : Backend) (uuid : String) (b : Block) (st : Storage) (r : Record)
    (hex : st.Get (GetBlockKey b.Hash) = some r) :
    (b.Save bk uuid st).1 = st
    ∧ (b.Save bk uuid st).2 ≠ none
    ∧ (bk.HasErr st (GetBlockKey b.Hash) = none →
        (b.Save bk uuid st).2 = some Err.ErrorBlockAlreadyExists) := by
  unfold Block.Save Backend.Has
  simp only
  cases hh : bk.HasErr st (GetBlockKey b.Hash) with
  | some e => simp
  | none => simp [hex]

theorem Block_Save_stored (bk : Backend) (uuid : String) (b : Block) (st : Storage)
    (hsave : (b.Save bk uuid st).2 = none) :
    (b.Save bk uuid st).1.Get (GetBlockKey b.Hash) = some (Record.block b) := by
  revert hsave
  unfold Block.Save Backend.Has
  simp only
  cases hh : bk.HasErr st (GetBlockKey b.Hash) with
  | some e => intro h; simp at h
  | none =>
    simp only
    cases hg : st.Get (GetBlockKey b.Hash) with
    | some r => intro h; simp at h
    | none =>
      simp only [Option.isSome_none]
      unfold Backend.New
      cases hn1 : bk.NewErr st (GetBlockKey b.Hash) (Record.block b) with
      | some e => intro h; simp at h
      | none =>
        simp only
        cases hn2 : bk.NewErr (st.Set (GetBlockKey b.Hash) (Record.block b))
            (b.NewBlockKeyConfirmed uuid) (Record.str b.Hash) with
        | some e => intro h; simp at h
        | none =>
          intro _
          simp only
          rw [lookup_set_ne _ _ _ _ (fun heq => confirmed_key_ne_block_key b uuid b.Hash heq.symm)]
          exact lookup_set_self _ _ _

/-- C27: when a record is already under `GetBlockKey(b.Hash)` and `st.Has`
answers, `Block.Save` returns `ErrorBlockAlreadyExists` and the store is
unchanged (no block record, no confirmed-index entry written); so after a
successful save every further save of a block with the same hash fails,
leaves the store as it is, and `GetBlock` still returns the block of the
first save. -/
theorem Block_Save_twice (bk : Backend) (uuid : String) (b : Block) (st : Storage) :
    (∀ r, st.Get (GetBlockKey b.Hash) = some r → bk.HasErr st (GetBlockKey b.Hash) = none →
      (b.Save bk uuid st).2 = some Err.ErrorBlockAlreadyExists ∧ (b.Save bk uuid st).1 = st)
    ∧ ((b.Save bk uuid st).2 = none →
      ∀ (uuid2 : String) (b2 : Block), b2.Hash = b.Hash →
        (b2.Save bk uuid2 (b.Save bk uuid st).1).2 ≠ none
        ∧ (b2.Save bk uuid2 (b.Save bk uuid st).1).1 = (b.Save bk uuid st).1
        ∧ (bk.HasErr (b.Save bk uuid st).1 (GetBlockKey b.Hash) = none →
            (b2.Save bk uuid2 (b.Save bk uuid st).1).2 = some Err.ErrorBlockAlreadyExists)
        ∧ GetBlock (b2.Save bk uuid2 (b.Save bk uuid st).1).1 b.Hash = some (Record.block b)) := by
  refine ⟨?_, ?_⟩
  · intro r hex hhas
    obtain ⟨h1, -, h3⟩ := Block_Save_exists bk uuid b st r hex
    exact ⟨h3 hhas, h1⟩
  · intro hsave uuid2 b2 hhash
    have hst := Block_Save_stored bk uuid b st hsave
    have hex : (b.Save bk uuid st).1.Get (GetBlockKey b2.Hash) = some (Record.block b) := by
      rw [hhash]
      exact hst
    obtain ⟨h1, h2, h3⟩ := Block_Save_exists bk uuid2 b2 (b.Save bk uuid st).1 _ hex
    refine ⟨h2, h1, ?_, ?_⟩
    · intro hhas
      rw [← hhash] at hhas
      exact h3 hhas
    · rw [h1]
      exact hst

/-- C27 at the test network: the second save of `genesis` fails and the
record of the first save stays. -/
theorem Block_Save_twice_witness :
    (Fixture.genesis.Save Fixture.backend "uuid-1" []).2 = none
    ∧ (Fixture.genesis.Save Fixture.backend "uuid-2"
        (Fixture.genesis.Save Fixture.backend "uuid-1" []).1).2 =
        some Err.ErrorBlockAlreadyExists :=
  ⟨by decide,
    ((Block_Save_twice Fixture.backend "uuid-1" Fixture.genesis []).2 (by decide) "uuid-2"
      Fixture.genesis rfl).2.2.1 (by decide)⟩


/-! ## The checker loop -/

theorem Checker_nil_of_allReturnNil {Ctx Target : Type} (fs : List (CheckerFunc Ctx Target)) :
    ∀ (ctx : Ctx) (target : Target), allReturnNil ctx fs target →
      Checker ctx fs target = ((stateAfter ctx fs target).1, (stateAfter ctx fs target).2, none) := by
  induction fs with
  | nil => intro ctx target _; rfl
  | cons f rest ih =>
    intro ctx target hall
    obtain ⟨h1, h2⟩ := hall
    have ih2 := ih _ _ h2
    unfold Checker stateAfter
    rcases hf : f ctx target with ⟨ctx1, target1, e⟩
    rw [hf] at h1 ih2
    simp only at h1 ih2
    subst h1
    simpa using ih2

theorem allReturnNil_of_Checker_nil {Ctx Target : Type} (fs : List (CheckerFunc Ctx Target)) :
    ∀ (ctx : Ctx) (target : Target), (Checker ctx fs target).2.2 = none →
      allReturnNil ctx fs target := by
  induction fs with
  | nil => intro ctx target _; exact trivial
  | cons f rest ih =>
    intro ctx target hnil
    unfold Checker at hnil
    unfold allReturnNil
    rcases hf : f ctx target with ⟨ctx1, target1, e⟩
    rw [hf] at hnil
    cases e with
    | some err => simp at hnil
    | none => exact ⟨rfl, ih _ _ hnil⟩

theorem Checker_append_failing {Ctx Target : Type} (pre : List (CheckerFunc Ctx Target)) :
    ∀ (ctx : Ctx) (target : Target) (f : CheckerFunc Ctx Target)
      (post : List (CheckerFunc Ctx Target)) (err : Err),
      allReturnNil ctx pre target →
      (f (stateAfter ctx pre target).1 (stateAfter ctx pre target).2).2.2 = some err →
      Checker ctx (pre ++ f :: post) target =
        f (stateAfter ctx pre target).1 (stateAfter ctx pre target).2 := by
  induction pre with
  | nil =>
    intro ctx target f post err _ herr
    simp only [stateAfter] at herr
    simp only [List.nil_append, stateAfter]
    unfold Checker
    rcases hf : f ctx target with ⟨ctx1, target1, e⟩
    rw [hf] at herr
    simp only at herr
    subst herr
    rfl
  | cons g rest ih =>
    intro ctx target f post err hall herr
    obtain ⟨h1, h2⟩ := hall
    simp only [stateAfter] at herr
    have ih2 := ih _ _ f post err h2 herr
    simp only [List.cons_append, stateAfter]
    unfold Checker
    rcases hg : g ctx target with ⟨ctx1, target1, e⟩
    rw [hg] at h1 ih2
    simp only at h1 ih2
    subst h1
    simpa using ih2

/-- C28: `util.Checker(ctx, f1, ..., fn)` applied to a target returns a nil
error exactly when every check function returns nil, each run on the context
and target state left by the previous one, and then returns the context left
by the last one; when the functions before `f` all return nil and `f` returns
an error, the result is what `f` returned on the state left by them, whatever
functions follow `f` in the list: no later function changes the context, the
target or the error. -/
theorem Checker_first_failure {Ctx Target : Type} (ctx : Ctx)
    (checkFuncs : List (CheckerFunc Ctx Target)) (target : Target) :
    ((Checker ctx checkFuncs target).2.2 = none ↔ allReturnNil ctx checkFuncs target)
    ∧ (allReturnNil ctx checkFuncs target →
        Checker ctx checkFuncs target =
          ((stateAfter ctx checkFuncs target).1, (stateAfter ctx checkFuncs target).2, none))
    ∧ (∀ (pre post : List (CheckerFunc Ctx Target)) (f : CheckerFunc Ctx Target) (err : Err),
        checkFuncs = pre ++ f :: post →
        allReturnNil ctx pre target →
        (f (stateAfter ctx pre target).1 (stateAfter ctx pre target).2).2.2 = some err →
        Checker ctx checkFuncs target =
            f (stateAfter ctx pre target).1 (stateAfter ctx pre target).2
          ∧ (Checker ctx checkFuncs target).2.2 = some err) := by
  refine ⟨⟨allReturnNil_of_Checker_nil checkFuncs ctx target, ?_⟩,
    Checker_nil_of_allReturnNil checkFuncs ctx target, ?_⟩
  · intro hall
    rw [Checker_nil_of_allReturnNil checkFuncs ctx target hall]
  · intro pre post f err hfs hall herr
    subst hfs
    have h := Checker_append_failing pre ctx target f post err hall herr
    exact ⟨h, by rw [h]; exact herr⟩

/-- C28 at a list of three check functions: the second fails, the third does
not run (`c` is not appended to the context). -/
theorem Checker_first_failure_witness :
    Checker ["start"] [Fixture.passing "a", Fixture.failing "b", Fixture.passing "c"] 0 =
      (["start", "a", "b"], 1, some (Err.Other "b")) :=
  ((Checker_first_failure ["start"]
      [Fixture.passing "a", Fixture.failing "b", Fixture.passing "c"] 0).2.2
      [Fixture.passing "a"] [Fixture.passing "c"] (Fixture.failing "b") (Err.Other "b") rfl
      ⟨rfl, trivial⟩ rfl).1

/-! ## Block header -/

theorem Header_fill_fields (MakeHash : Header → String) (h : Header) :
    (h.fill MakeHash).TotalTxs = h.TotalTxs
    ∧ (h.fill MakeHash).Height = h.Height
    ∧ (h.fill MakeHash).TransactionsRoot = h.TransactionsRoot
    ∧ (h.fill MakeHash).PrevBlockHash =
        (if h.PrevBlockHash = "" ∧ h.Height ≠ 0 ∧ h.PrevConsensusResult.BlockHash ≠ ""
          then h.PrevConsensusResult.BlockHash else h.PrevBlockHash) := by
  unfold Header.fill
  simp only
  split_ifs <;> simp_all

theorem Header_fill_fill (MakeHash : Header → String) (h : Header) :
    (h.fill MakeHash).fill MakeHash = h.fill MakeHash := by
  obtain ⟨v, pbh, tr, ts, ht, tt, pcr, bh, ptt, pcrh⟩ := h
  unfold Header.fill
  simp only
  by_cases hp : pbh = ""
  · subst hp
    by_cases hc : ht ≠ 0 ∧ pcr.BlockHash ≠ ""
    · by_cases hb : bh = ""
      · subst hb
        by_cases hm : MakeHash ⟨v, pcr.BlockHash, tr, ts, ht, tt, pcr, "", ptt, pcrh⟩ = ""
        · simp [hc, hm]
        · simp [hc, hm]
      · simp [hc, hb]
    · by_cases hb : bh = ""
      · subst hb
        by_cases hm : MakeHash ⟨v, "", tr, ts, ht, tt, pcr, "", ptt, pcrh⟩ = ""
        · simp [hc, hm]
        · simp [hc, hm]
      · simp [hc, hb]
  · by_cases hb : bh = ""
    · subst hb
      by_cases hm : MakeHash ⟨v, pbh, tr, ts, ht, tt, pcr, "", ptt, pcrh⟩ = ""
      · simp [hp, hm]
      · simp [hp, hm]
    · simp [hp, hb]

/-- C29: `NewHeader` returns a header with `TotalTxs = (prevTotalTxs +
currentTxs) mod 2^64`, the given `Height` and `TransactionsRoot`, and
`PrevBlockHash` equal to the given hash when that is non-empty, to
`prevResult.BlockHash` when the given hash is empty and the height is not 0,
and empty when the given hash is empty and the height is 0; `fill` applied to
the result returns the result. -/
theorem NewHeader_fields (MakeHash : Header → String) (now : String) (height : Nat)
    (prevBlockHash : String) (prevResult : ConsensusResult) (prevTotalTxs currentTxs : Nat)
    (txRoot : String) :
    (NewHeader MakeHash now height prevBlockHash prevResult prevTotalTxs currentTxs txRoot).TotalTxs
        = (prevTotalTxs + currentTxs) % 2 ^ 64
    ∧ (NewHeader MakeHash now height prevBlockHash prevResult prevTotalTxs currentTxs txRoot).Height
        = height
    ∧ (NewHeader MakeHash now height prevBlockHash prevResult prevTotalTxs currentTxs
        txRoot).TransactionsRoot = txRoot
    ∧ (prevBlockHash ≠ "" →
        (NewHeader MakeHash now height prevBlockHash prevResult prevTotalTxs currentTxs
          txRoot).PrevBlockHash = prevBlockHash)
    ∧ (prevBlockHash = "" → height ≠ 0 →
        (NewHeader MakeHash now height prevBlockHash prevResult prevTotalTxs currentTxs
          txRoot).PrevBlockHash = prevResult.BlockHash)
    ∧ (prevBlockHash = "" → height = 0 →
        (NewHeader MakeHash now height prevBlockHash prevResult prevTotalTxs currentTxs
          txRoot).PrevBlockHash = "")
    ∧ (NewHeader MakeHash now height prevBlockHash prevResult prevTotalTxs currentTxs
        txRoot).fill MakeHash
        = NewHeader MakeHash now height prevBlockHash prevResult prevTotalTxs currentTxs txRoot := by
  unfold NewHeader
  obtain ⟨h1, h2, h3, h4⟩ := Header_fill_fields MakeHash
    { Version := 0, PrevBlockHash := prevBlockHash, TransactionsRoot := txRoot, Timestamp := now, Height := height, TotalTxs := (prevTotalTxs + currentTxs) % 2 ^ 64, PrevConsensusResult := prevResult, BlockHash := "", prevTotalTxs := 0, prevConsensusResultHash := "" }
  simp only at h1 h2 h3 h4
  refine ⟨h1, h2, h3, ?_, ?_, ?_, Header_fill_fill MakeHash _⟩
  · intro hp
    rw [h4]
    simp [hp]
  · intro hp hh
    rw [h4]
    by_cases hr : prevResult.BlockHash = ""
    · simp [hp, hr]
    · simp [hp, hh, hr]
  · intro hp hh
    rw [h4]
    simp [hp, hh]

/-- C29 at height 2 with an empty previous hash: the header takes the hash
of the previous consensus result. -/
theorem NewHeader_fields_witness :
    (NewHeader Fixture.headerHash "t1" 2 "" { BlockHash := "prev" } 18446744073709551615 2
      "root").PrevBlockHash = "prev"
    ∧ (NewHeader Fixture.headerHash "t1" 2 "" { BlockHash := "prev" } 18446744073709551615 2
      "root").TotalTxs = 1 :=
  ⟨(NewHeader_fields Fixture.headerHash "t1" 2 "" { BlockHash := "prev" } 18446744073709551615 2
      "root").2.2.2.2.1 rfl (by decide),
    (NewHeader_fields Fixture.headerHash "t1" 2 "" { BlockHash := "prev" } 18446744073709551615 2
      "root").1⟩

/-! ## StripZero -/

theorem stripAtFirstZero_eq_takeWhile (b : List Nat) :
    stripAtFirstZero b = b.takeWhile (fun x => x != 0) := by
  induction b with
  | nil => rfl
  | cons x xs ih =>
    unfold stripAtFirstZero at ih ⊢
    unfold bytesIndexZero
    by_cases hx : x = 0
    · simp [hx]
    · cases hi : bytesIndexZero xs with
      | none =>
        rw [hi] at ih
        simp only at ih
        simp [hx, ← ih]
      | some n =>
        rw [hi] at ih
        simp only at ih
        simp [hx, ← ih]

theorem bytesLastIndexZero_none (b : List Nat) (h : 0 ∉ b) : bytesLastIndexZero b = none := by
  induction b with
  | nil => rfl
  | cons x xs ih =>
    have hx : x ≠ 0 := fun e => h (by simp [e])
    have hxs : 0 ∉ xs := fun e => h (by simp [e])
    unfold bytesLastIndexZero
    rw [ih hxs]
    simp [hx]

theorem zero_not_mem_takeWhile (b : List Nat) : 0 ∉ b.takeWhile (fun x => x != 0) := by
  intro h
  have := List.mem_takeWhile_imp h
  simp at this

theorem takeWhile_of_not_mem (b : List Nat) (h : 0 ∉ b) :
    b.takeWhile (fun x => x != 0) = b := by
  rw [List.takeWhile_eq_self_iff]
  intro x hx
  have : x ≠ 0 := fun e => h (e ▸ hx)
  simpa using this

theorem prefix_takeWhile (b : List Nat) :
    ∀ p : List Nat, p <+: b → 0 ∉ p → p <+: b.takeWhile (fun x => x != 0) := by
  induction b with
  | nil =>
    intro p hp _
    simpa using hp
  | cons x xs ih =>
    intro p hp h0
    cases p with
    | nil => exact List.nil_prefix
    | cons y ys =>
      rw [List.cons_prefix_cons] at hp
      obtain ⟨hxy, hys⟩ := hp
      subst hxy
      have hy : y ≠ 0 := fun e => h0 (by simp [e])
      have hys0 : 0 ∉ ys := fun e => h0 (by simp [e])
      have : (y != 0) = true := by simpa using hy
      rw [List.takeWhile_cons, this]
      simp only [if_true]
      rw [List.cons_prefix_cons]
      exact ⟨rfl, ih ys hys hys0⟩

theorem StripZero_eq_takeWhile (b : List Nat) :
    StripZero b = b.takeWhile (fun x => x != 0) := by
  unfold StripZero
  simp only
  rw [bytesLastIndexZero_none _ (by
    rw [stripAtFirstZero_eq_takeWhile]
    exact zero_not_mem_takeWhile b)]
  exact stripAtFirstZero_eq_takeWhile b

/-- C30: for every byte slice `b`, `StripZero(b)` is a prefix of `b` without a
zero byte and every prefix of `b` without a zero byte is a prefix of it (it
is all of `b` when `b` has no zero byte); `bytes.LastIndex` finds no zero
after the first cut, so the result is the result of the first cut; and
`StripZero(StripZero(b)) = StripZero(b)`. -/
theorem StripZero_cuts_at_first_zero (b : List Nat) :
    StripZero b <+: b
    ∧ 0 ∉ StripZero b
    ∧ (∀ p : List Nat, p <+: b → 0 ∉ p → p <+: StripZero b)
    ∧ (0 ∉ b → StripZero b = b)
    ∧ bytesLastIndexZero (stripAtFirstZero b) = none
    ∧ StripZero b = stripAtFirstZero b
    ∧ StripZero (StripZero b) = StripZero b := by
  have hlast : bytesLastIndexZero (stripAtFirstZero b) = none :=
    bytesLastIndexZero_none _ (by
      rw [stripAtFirstZero_eq_takeWhile]
      exact zero_not_mem_takeWhile b)
  refine ⟨?_, ?_, ?_, ?_, hlast, ?_, ?_⟩
  · rw [StripZero_eq_takeWhile]
    exact List.takeWhile_prefix _
  · rw [StripZero_eq_takeWhile]
    exact zero_not_mem_takeWhile b
  · intro p hp h0
    rw [StripZero_eq_takeWhile]
    exact prefix_takeWhile b p hp h0
  · intro h0
    rw [StripZero_eq_takeWhile]
    exact takeWhile_of_not_mem b h0
  · rw [StripZero_eq_takeWhile, stripAtFirstZero_eq_takeWhile]
  · rw [StripZero_eq_takeWhile (StripZero b)]
    exact takeWhile_of_not_mem _ (by
      rw [StripZero_eq_takeWhile]
      exact zero_not_mem_takeWhile b)

/-- C30 at the bytes `a b 0 c 0`: the result is `a b`, and a slice without a
zero byte is returned whole. -/
theorem StripZero_cuts_at_first_zero_witness :
    StripZero [97, 98, 0, 99, 0] = [97, 98]
    ∧ StripZero [97, 98] = [97, 98] :=
  ⟨by decide, (StripZero_cuts_at_first_zero [97, 98]).2.2.2.1 (by decide)⟩


end Sebak
